import Mathlib

set_option linter.unusedVariables false

/-!
Toadstool mega328 example programs: record/replay controller, EEPROM and RTC drivers.

A shallow embedding of the C sources of the Toadstool example projects.

* Machine integers are natural numbers.  A value the C code stores in a
  `uint8_t` / `uint16_t` variable, returns with such a type or hands to
  `I2C_send` is reduced with an explicit `% 256` / `% 65536`; the arguments of
  the other functions are taken to fit their parameter types.
* The memory-mapped TWI (I2C) peripheral is not part of the C code.  It is a
  parameter of the embedding: a record `TWI σ` giving the effect of each of the
  four register sequences the drivers perform on a hardware state `σ`.
* Busy-wait loops (`I2C_waitComplete`, `UART_writeChar`) and `_delay_ms` have no
  effect on the data state and are the identity here: the peripheral is assumed
  to complete every operation.
-/

/-! ## Constants of `<util/twi.h>` and `<avr/io.h>` (avr-libc, ATmega328) -/

/-- Direction bit of an address byte that selects a write (SLA+W). -/
def TW_WRITE : Nat := 0
/-- Direction bit of an address byte that selects a read (SLA+R). -/
def TW_READ : Nat := 1
/-- Status: start condition transmitted. -/
def TW_START : Nat := 0x08
/-- Status: repeated start condition transmitted. -/
def TW_REP_START : Nat := 0x10
/-- Status: SLA+W transmitted, ACK received. -/
def TW_MT_SLA_ACK : Nat := 0x18
/-- Status: data transmitted, ACK received. -/
def TW_MT_DATA_ACK : Nat := 0x28
/-- Status: SLA+R transmitted, ACK received. -/
def TW_MR_SLA_ACK : Nat := 0x40
/-- Status: data received, ACK returned. -/
def TW_MR_DATA_ACK : Nat := 0x50
/-- Status: data received, NACK returned. -/
def TW_MR_DATA_NACK : Nat := 0x58
/-- Status: no state information available. -/
def TW_NO_INFO : Nat := 0xF8
/-- Bit number of the acknowledge-enable bit in TWCR. -/
def TWEA : Nat := 6
/-- Bit number of PB0. -/
def PB0 : Nat := 0
/-- Bit number of PB1. -/
def PB1 : Nat := 1
/-- Bit number of the Timer1 compare-A interrupt enable in TIMSK1. -/
def OCIE1A : Nat := 1

/-! ## The TWI peripheral as a parameter -/

/-- The two-wire peripheral together with whatever is attached to the bus.
Each field is the effect of one register sequence of `I2C.c`, followed by the
wait for TWINT where the source waits. -/
structure TWI (σ : Type) where
  /-- Effect of `TWCR = (1<<TWINT)|(1<<TWSTA)|(1<<TWEN)`; yields TW_STATUS. -/
  start : σ → σ × Nat
  /-- Effect of `TWDR = Data; TWCR = (1<<TWINT)|(1<<TWEN)`; yields TW_STATUS. -/
  send : σ → Nat → σ × Nat
  /-- Effect of `TWCR = (1<<TWINT)|(1<<TWEN)|ackBit`; yields TW_STATUS and TWDR. -/
  recv : σ → Nat → σ × Nat × Nat
  /-- Effect of `TWCR = (1<<TWINT)|(1<<TWSTO)|(1<<TWEN)`. -/
  stop : σ → σ

/-! ### An ideal memory device on the bus

The environment against which the round-trip properties are stated: a single
slave that acknowledges every byte, decodes the direction bit of the address
byte, latches `addrBytes` address bytes after SLA+W, stores every further byte
at its address counter and returns the byte at its address counter on a read.
-/

/-- Protocol phase of the ideal slave. -/
inductive Phase where
  | idle
  | control
  | address (remaining : Nat) (acc : Nat)
  | write
  | read
  deriving DecidableEq, Repr

/-- State of the ideal slave: its byte array, address counter and phase. -/
structure Device where
  mem : Nat → Nat
  ptr : Nat
  phase : Phase

/-- A start condition: the slave waits for its address byte.  The status is
TW_START on an idle bus and TW_REP_START inside a transaction. -/
def idealStart (d : Device) : Device × Nat :=
  ({ d with phase := Phase.control },
    if d.phase = Phase.idle then TW_START else TW_REP_START)

/-- A byte transmitted by the master, acknowledged by the slave. -/
def idealSend (addrBytes : Nat) (d : Device) (b : Nat) : Device × Nat :=
  match d.phase with
  | Phase.control =>
      if b % 2 = TW_WRITE then
        ({ d with phase := Phase.address addrBytes 0 }, TW_MT_SLA_ACK)
      else
        ({ d with phase := Phase.read }, TW_MR_SLA_ACK)
  | Phase.address n acc =>
      if n ≤ 1 then
        ({ d with ptr := acc * 256 + b, phase := Phase.write }, TW_MT_DATA_ACK)
      else
        ({ d with phase := Phase.address (n - 1) (acc * 256 + b) }, TW_MT_DATA_ACK)
  | Phase.write =>
      ({ d with mem := fun i => if i = d.ptr then b else d.mem i,
                ptr := (d.ptr + 1) % 256 ^ addrBytes }, TW_MT_DATA_ACK)
  | _ => (d, TW_NO_INFO)

/-- A byte clocked in by the master; `ackBit` is the TWEA bit written to TWCR. -/
def idealRecv (addrBytes : Nat) (d : Device) (ackBit : Nat) : Device × Nat × Nat :=
  match d.phase with
  | Phase.read =>
      ({ d with ptr := (d.ptr + 1) % 256 ^ addrBytes },
        if ackBit = 0 then TW_MR_DATA_NACK else TW_MR_DATA_ACK,
        d.mem d.ptr % 256)
  | _ => (d, TW_NO_INFO, 0xFF)

/-- A stop condition releases the bus. -/
def idealStop (d : Device) : Device :=
  { d with phase := Phase.idle }

/-- Ideal serial EEPROM with a 16-bit memory address (two address bytes). -/
def idealEEPROM : TWI Device :=
  { start := idealStart, send := idealSend 2, recv := idealRecv 2, stop := idealStop }

/-- Ideal register-file device with an 8-bit register address. -/
def idealRTC : TWI Device :=
  { start := idealStart, send := idealSend 1, recv := idealRecv 1, stop := idealStop }

/-! ### A bus that records what the driver asks of it -/

/-- One bus primitive, as issued by the functions of `I2C.c`. -/
inductive BusOp where
  | start
  | send (byte : Nat)
  | read (ackBit : Nat)
  | stop
  deriving DecidableEq, Repr

/-- A bus that appends every primitive to a log and answers with the status
(and received data) chosen by arbitrary functions of the log so far. -/
def traceBus (status : List BusOp → Nat) (data : List BusOp → Nat) : TWI (List BusOp) :=
  { start := fun l => (l ++ [BusOp.start], status (l ++ [BusOp.start])),
    send := fun l b => (l ++ [BusOp.send b], status (l ++ [BusOp.send b])),
    recv := fun l a => (l ++ [BusOp.read a], status (l ++ [BusOp.read a]),
                          data (l ++ [BusOp.read a])),
    stop := fun l => l ++ [BusOp.stop] }

/-! ## Toadstool mega328 EEPROM Replay -/

namespace Replay

/-! ### `I2C.c` -/

/-- Source: `I2C_sendStart`. -/
def I2C_sendStart {σ : Type} (hw : TWI σ) (s : σ) : σ × Nat :=
  hw.start s

/-- Source: `I2C_sendStop`. -/
def I2C_sendStop {σ : Type} (hw : TWI σ) (s : σ) : σ :=
  hw.stop s

/-- Source: `I2C_send(uint8_t Data)`. -/
def I2C_send {σ : Type} (hw : TWI σ) (Data : Nat) (s : σ) : σ × Nat :=
  hw.send s (Data % 256)

/-- Source: `I2C_read(uint8_t sendAck)`; the result is `(state, return value)`. -/
def I2C_read {σ : Type} (hw : TWI σ) (sendAck : Nat) (s : σ) : σ × Nat :=
  let ackBit := if sendAck % 256 = 1 then 1 <<< TWEA else 0
  let statusCheck := if sendAck % 256 = 1 then TW_MR_DATA_ACK else TW_MR_DATA_NACK
  let r := hw.recv s ackBit
  if r.2.1 ≠ statusCheck then (r.1, 0) else (r.1, r.2.2 % 256)

/-! ### `EEPROM.h`, `EEPROM.c` -/

/-- Source: `#define EEPROM_ADDRESS_LOCATION 1`. -/
def EEPROM_ADDRESS_LOCATION : Nat := 1

/-- Source: `EEPROM_write(uint16_t deviceAddress, uint16_t memoryAddress, uint8_t data)`. -/
def EEPROM_write {σ : Type} (hw : TWI σ) (deviceAddress memoryAddress data : Nat) (s : σ) :
    σ × Nat :=
  let s1 := (I2C_sendStart hw s).1
  let s2 := (I2C_send hw (deviceAddress ||| TW_WRITE) s1).1
  let s3 := (I2C_send hw (memoryAddress >>> 8) s2).1
  let s4 := (I2C_send hw (memoryAddress % 256) s3).1
  let s5 := (I2C_send hw data s4).1
  let s6 := I2C_sendStop hw s5
  (s6, 1)

/-- Source: `EEPROM_read(uint16_t deviceAddress, uint16_t memoryAddress)`. -/
def EEPROM_read {σ : Type} (hw : TWI σ) (deviceAddress memoryAddress : Nat) (s : σ) :
    σ × Nat :=
  let s1 := (I2C_sendStart hw s).1
  let s2 := (I2C_send hw (deviceAddress ||| TW_WRITE) s1).1
  let s3 := (I2C_send hw (memoryAddress >>> 8) s2).1
  let s4 := (I2C_send hw (memoryAddress % 256) s3).1
  let s5 := (I2C_sendStart hw s4).1
  let s6 := (I2C_send hw (deviceAddress ||| TW_READ) s5).1
  let r := I2C_read hw 0 s6
  let s7 := I2C_sendStop hw r.1
  (s7, r.2)

/-- The values assigned in turn to the local variable `result` of `EEPROM_write`:
the status of the start and of each of the four bytes sent. -/
def EEPROM_write_results {σ : Type} (hw : TWI σ) (deviceAddress memoryAddress data : Nat)
    (s : σ) : List Nat :=
  let r1 := I2C_sendStart hw s
  let r2 := I2C_send hw (deviceAddress ||| TW_WRITE) r1.1
  let r3 := I2C_send hw (memoryAddress >>> 8) r2.1
  let r4 := I2C_send hw (memoryAddress % 256) r3.1
  let r5 := I2C_send hw data r4.1
  [r1.2, r2.2, r3.2, r4.2, r5.2]

/-- The values assigned in turn to the local variable `result` of `EEPROM_read`,
followed by the status that `I2C_read(0)` finds after the data byte. -/
def EEPROM_read_results {σ : Type} (hw : TWI σ) (deviceAddress memoryAddress : Nat) (s : σ) :
    List Nat :=
  let r1 := I2C_sendStart hw s
  let r2 := I2C_send hw (deviceAddress ||| TW_WRITE) r1.1
  let r3 := I2C_send hw (memoryAddress >>> 8) r2.1
  let r4 := I2C_send hw (memoryAddress % 256) r3.1
  let r5 := I2C_sendStart hw r4.1
  let r6 := I2C_send hw (deviceAddress ||| TW_READ) r5.1
  [r1.2, r2.2, r3.2, r4.2, r5.2, r6.2, (hw.recv r6.1 0).2.1]

/-- Source: `EEPROM_getLastAddress(uint16_t deviceAddress)`. -/
def EEPROM_getLastAddress {σ : Type} (hw : TWI σ) (deviceAddress : Nat) (s : σ) : σ × Nat :=
  let h := EEPROM_read hw deviceAddress EEPROM_ADDRESS_LOCATION s
  let l := EEPROM_read hw deviceAddress (EEPROM_ADDRESS_LOCATION + 1) h.1
  (l.1, (((h.2 <<< 8) % 65536) ||| l.2) % 65536)

/-- Source: `EEPROM_setLastAddress(uint16_t deviceAddress, uint16_t lastAddress)`. -/
def EEPROM_setLastAddress {σ : Type} (hw : TWI σ) (deviceAddress lastAddress : Nat) (s : σ) :
    σ :=
  let lastHigh := (lastAddress >>> 8) % 256
  let lastLow := lastAddress % 256
  let s1 := (EEPROM_write hw deviceAddress EEPROM_ADDRESS_LOCATION lastHigh s).1
  (EEPROM_write hw deviceAddress (EEPROM_ADDRESS_LOCATION + 1) lastLow s1).1

/-! ### `Toadstool mega328 Replay.c` -/

/-- Source: `#define EEPROM_DEVICE_ADDRESS 0b10100110`. -/
def EEPROM_DEVICE_ADDRESS : Nat := 0b10100110
/-- Source: `#define EEPROM_FIRST_ADDRESS 20`. -/
def EEPROM_FIRST_ADDRESS : Nat := 20
/-- Source: `#define EEPROM_MAX_ADDRESS 15999`. -/
def EEPROM_MAX_ADDRESS : Nat := 15999
/-- Source: `#define REPLAY_SECS 5`. -/
def REPLAY_SECS : Nat := 5
/-- Source: `#define REPLAY_SAMPLE_MS 100`. -/
def REPLAY_SAMPLE_MS : Nat := 100
/-- Source: `#define REPLAY_COUNT (uint16_t)(REPLAY_SECS * 1000 / REPLAY_SAMPLE_MS / 8)`. -/
def REPLAY_COUNT : Nat := (REPLAY_SECS * 1000 / REPLAY_SAMPLE_MS / 8) % 65536
/-- Source: `#define PIN_LED PB1`. -/
def PIN_LED : Nat := PB1
/-- Source: `#define PIN_SWITCH PB0`. -/
def PIN_SWITCH : Nat := PB0
/-- Source: `#define STATE_REPLAY 0`. -/
def STATE_REPLAY : Nat := 0
/-- Source: `#define STATE_START_REC 1`. -/
def STATE_START_REC : Nat := 1
/-- Source: `#define STATE_RECORDING 2`. -/
def STATE_RECORDING : Nat := 2
/-- Source: `#define STATE_STOP_REC 3`. -/
def STATE_STOP_REC : Nat := 3

/-- The global variables of the program, the two I/O registers it writes
(PORTB, TIMSK1) and the state of the TWI bus.  The input register PINB is an
argument of the functions that read it. -/
structure Machine (σ : Type) where
  currentState : Nat
  currentMemLocation : Nat
  currentMemBit : Nat
  isrFlag : Nat
  LEDValue : Nat
  PORTB : Nat
  TIMSK1 : Nat
  bus : σ

/-- The register value `reg & ~(1<<bit)` for an 8-bit I/O register. -/
def clearBit (reg bit : Nat) : Nat :=
  reg &&& (0xFF ^^^ (1 <<< bit))

/-- The register value `reg | (1<<bit)`. -/
def setBit (reg bit : Nat) : Nat :=
  reg ||| (1 <<< bit)

/-- The switch is wired active-low: `(PINB & (1<<PIN_SWITCH)) == 0`. -/
def switchPressed (PINB : Nat) : Bool :=
  PINB &&& (1 <<< PIN_SWITCH) == 0

/-- The LED pin is driven high. -/
def ledOn {σ : Type} (s : Machine σ) : Bool :=
  s.PORTB &&& (1 <<< PIN_LED) != 0

/-- Source: `flashLED`: LED on, 150 ms, LED off, 150 ms. -/
def flashLED {σ : Type} (s : Machine σ) : Machine σ :=
  let s1 := { s with PORTB := setBit s.PORTB PIN_LED }
  { s1 with PORTB := clearBit s1.PORTB PIN_LED }

/-- Body of the `for` loop of `clearMemory`. -/
def clearMemoryBody {σ : Type} (hw : TWI σ) (s : Machine σ) : Machine σ :=
  let s1 := { s with bus := (EEPROM_write hw EEPROM_DEVICE_ADDRESS s.currentMemLocation
                              0b11111111 s.bus).1 }
  let s2 := { s1 with currentMemLocation := (s1.currentMemLocation + 1) % 65536 }
  let s3 := { s2 with bus := (EEPROM_write hw EEPROM_DEVICE_ADDRESS s2.currentMemLocation
                               0b00000000 s2.bus).1 }
  { s3 with currentMemLocation := (s3.currentMemLocation + 1) % 65536 }

/-- The loop `for (iCount=0; iCount <= (REPLAY_COUNT/2); iCount++)` of
`clearMemory`, entered with the given value of the `uint8_t` counter. -/
def clearMemoryLoop {σ : Type} (hw : TWI σ) (iCount : Nat) (s : Machine σ) : Machine σ :=
  if iCount ≤ REPLAY_COUNT / 2 then
    clearMemoryLoop hw ((iCount + 1) % 256) (clearMemoryBody hw s)
  else s
termination_by REPLAY_COUNT / 2 + 1 - iCount
decreasing_by
  have h : REPLAY_COUNT / 2 = 3 := by decide
  omega

/-- Source: `clearMemory`. -/
def clearMemory {σ : Type} (hw : TWI σ) (s : Machine σ) : Machine σ :=
  let s1 := { s with currentMemLocation := EEPROM_FIRST_ADDRESS }
  let s2 := flashLED (flashLED (flashLED s1))
  let s3 := { s2 with PORTB := setBit s2.PORTB PIN_LED }
  let s4 := clearMemoryLoop hw 0 s3
  let s5 := { s4 with PORTB := clearBit s4.PORTB PIN_LED }
  let s6 := flashLED (flashLED (flashLED (flashLED (flashLED s5))))
  { s6 with currentMemLocation := EEPROM_FIRST_ADDRESS, currentMemBit := 8 }

/-- Source: `replay1Bit`. -/
def replay1Bit {σ : Type} (hw : TWI σ) (s : Machine σ) : Machine σ :=
  let s1 :=
    if s.currentMemBit > 7 then
      let r := EEPROM_read hw EEPROM_DEVICE_ADDRESS s.currentMemLocation s.bus
      let loc := (s.currentMemLocation + 1) % 65536
      { s with
        bus := r.1
        LEDValue := r.2
        currentMemLocation :=
          if loc > REPLAY_COUNT + EEPROM_FIRST_ADDRESS then EEPROM_FIRST_ADDRESS else loc
        currentMemBit := 0 }
    else s
  let s2 :=
    if s1.LEDValue &&& (1 <<< s1.currentMemBit) = 0 then
      { s1 with PORTB := clearBit s1.PORTB PIN_LED }
    else
      { s1 with PORTB := setBit s1.PORTB PIN_LED }
  { s2 with currentMemBit := (s2.currentMemBit + 1) % 256 }

/-- Source: `record1Bit`; `PINB` is the value of the input register read by
the function.  The shift `1<<currentMemBit` is the mathematical one; in C it is
defined for a bit cursor up to 14 only. -/
def record1Bit {σ : Type} (hw : TWI σ) (PINB : Nat) (s : Machine σ) : Machine σ :=
  let s1 := if s.currentMemBit = 0 then { s with LEDValue := 0 } else s
  let s2 :=
    if PINB &&& (1 <<< PIN_SWITCH) = 0 then
      { s1 with
        LEDValue := (s1.LEDValue ||| (1 <<< s1.currentMemBit)) % 256
        PORTB := setBit s1.PORTB PIN_LED }
    else
      { s1 with PORTB := clearBit s1.PORTB PIN_LED }
  let s3 := { s2 with currentMemBit := (s2.currentMemBit + 1) % 256 }
  if s3.currentMemBit > 7 then
    let s4 := { s3 with bus := (EEPROM_write hw EEPROM_DEVICE_ADDRESS s3.currentMemLocation
                                 s3.LEDValue s3.bus).1 }
    let s5 := { s4 with currentMemLocation := (s4.currentMemLocation + 1) % 65536 }
    if s5.currentMemLocation > REPLAY_COUNT + EEPROM_FIRST_ADDRESS then
      { s5 with currentState := STATE_STOP_REC }
    else
      { s5 with currentMemBit := 0 }
  else s3

/-- Source: `ISR(TIMER1_COMPA_vect)`. -/
def ISR {σ : Type} (s : Machine σ) : Machine σ :=
  { s with isrFlag := 1 }

/-- Body of `case STATE_START_REC` of the switch in `main`. -/
def caseStartRec {σ : Type} (s : Machine σ) : Machine σ :=
  let s1 := { s with TIMSK1 := clearBit s.TIMSK1 OCIE1A }
  let s2 := flashLED (flashLED (flashLED s1))
  let s3 := { s2 with TIMSK1 := setBit s2.TIMSK1 OCIE1A }
  { s3 with
    currentMemLocation := EEPROM_FIRST_ADDRESS
    currentMemBit := 0
    currentState := STATE_RECORDING }

/-- Body of `case STATE_STOP_REC` of the switch in `main`. -/
def caseStopRec {σ : Type} (s : Machine σ) : Machine σ :=
  let s1 := { s with TIMSK1 := clearBit s.TIMSK1 OCIE1A }
  let s2 := flashLED (flashLED (flashLED (flashLED (flashLED s1))))
  let s3 := { s2 with TIMSK1 := setBit s2.TIMSK1 OCIE1A }
  { s3 with
    currentMemLocation := EEPROM_FIRST_ADDRESS
    currentMemBit := 0
    currentState := STATE_REPLAY }

/-- The statement `switch (currentState) { ... }` of `main`: one step of the
state machine.  In `case STATE_REPLAY` the `break` stands in the `else` branch
only, so with the switch pressed control falls through into
`case STATE_START_REC`. -/
def mainSwitch {σ : Type} (hw : TWI σ) (PINB : Nat) (s : Machine σ) : Machine σ :=
  if s.currentState = STATE_REPLAY then
    if PINB &&& (1 <<< PIN_SWITCH) = 0 then
      caseStartRec { s with currentState := STATE_START_REC }
    else
      replay1Bit hw s
  else if s.currentState = STATE_START_REC then
    caseStartRec s
  else if s.currentState = STATE_RECORDING then
    record1Bit hw PINB s
  else if s.currentState = STATE_STOP_REC then
    caseStopRec s
  else s

/-- Body of the `while(1)` loop of `main`: one poll of the tick flag. -/
def mainLoopBody {σ : Type} (hw : TWI σ) (PINB : Nat) (s : Machine σ) : Machine σ :=
  if s.isrFlag = 1 then
    mainSwitch hw PINB { s with isrFlag := 0 }
  else s

/-- One timer tick: the interrupt fires, then the main loop polls the flag. -/
def tick {σ : Type} (hw : TWI σ) (PINB : Nat) (s : Machine σ) : Machine σ :=
  mainLoopBody hw PINB (ISR s)

/-- A run of ticks; the list gives the value of PINB seen at each tick. -/
def ticks {σ : Type} (hw : TWI σ) : List Nat → Machine σ → Machine σ
  | [], s => s
  | PINB :: rest, s => ticks hw rest (tick hw PINB s)

end Replay

/-! ## Toadstool mega328 RTC -/

namespace RTC

/-! ### `uart.c`

The UART is a byte sink: its state is the list of bytes written so far. -/

/-- Source: `UART_writeChar(unsigned char data)`. -/
def UART_writeChar (data : Nat) (uart : List Nat) : List Nat :=
  uart ++ [data % 256]

/-- Source: `UART_writeString(const char dataString[])`: the characters of the
array up to the first NUL are written in order. -/
def UART_writeString : List Nat → List Nat → List Nat
  | [], uart => uart
  | c :: rest, uart => if c = 0 then uart else UART_writeString rest (UART_writeChar c uart)

/-- The NUL-terminated character array of a C string literal. -/
def cstr (lit : String) : List Nat :=
  lit.toList.map Char.toNat ++ [0]

/-- Local variables of `UART_printDecimal` that the digit loop changes. -/
structure PrintVars where
  numberText : List Nat
  workingNumber : Nat
  workingDivisor : Nat
  digitNumber : Nat

/-- The loop `for (char i = 4; i>0; i--)` of `UART_printDecimal`, entered with
the given value of `i`. -/
def printDecimalLoop (padDigits : Nat) : Nat → PrintVars → PrintVars
  | 0, v => v
  | i + 1, v =>
      let tempWorkNum := (v.workingNumber / v.workingDivisor) % 256
      let v1 :=
        if (tempWorkNum = 0 ∧ v.digitNumber > 0) ∨ tempWorkNum > 0 ∨ i + 1 < padDigits then
          { v with
            numberText := v.numberText.set v.digitNumber ((tempWorkNum + 48) % 256)
            digitNumber := (v.digitNumber + 1) % 256 }
        else v
      let v2 := { v1 with workingNumber := v1.workingNumber % v1.workingDivisor }
      printDecimalLoop padDigits i { v2 with workingDivisor := v2.workingDivisor / 10 }

/-- Source: `UART_printDecimal(uint16_t numericVal, uint8_t padDigits)`. -/
def UART_printDecimal (numericVal padDigits : Nat) (uart : List Nat) : List Nat :=
  let v0 : PrintVars :=
    { numberText := [0, 0, 0, 0, 0, 0]
      workingNumber := numericVal % 65536
      workingDivisor := 10000
      digitNumber := 0 }
  let v := printDecimalLoop (padDigits % 256) 4 v0
  let numberText := v.numberText.set v.digitNumber ((v.workingNumber % 10 + 48) % 256)
  UART_writeString numberText uart

/-! ### `I2C.c`

The symbol DEBUGLEVEL is defined nowhere in the repository, so every
`#if DEBUGLEVEL ...` block is compiled out: the primitives produce no
diagnostic output and `I2C_read` does not compare the status. -/

/-- Source: `I2C_sendStart`. -/
def I2C_sendStart {σ : Type} (hw : TWI σ) (s : σ) : σ × Nat :=
  hw.start s

/-- Source: `I2C_sendStop`. -/
def I2C_sendStop {σ : Type} (hw : TWI σ) (s : σ) : σ :=
  hw.stop s

/-- Source: `I2C_send(uint8_t Data)`. -/
def I2C_send {σ : Type} (hw : TWI σ) (Data : Nat) (s : σ) : σ × Nat :=
  hw.send s (Data % 256)

/-- Source: `I2C_read(uint8_t sendAck)`; the result is `(state, return value)`. -/
def I2C_read {σ : Type} (hw : TWI σ) (sendAck : Nat) (s : σ) : σ × Nat :=
  let ackBit := if sendAck % 256 = 1 then 1 <<< TWEA else 0
  let r := hw.recv s ackBit
  (r.1, r.2.2 % 256)

/-! ### `RTC_MCP79400.h`, `RTC_MCP79400.c` -/

/-- Source: `#define MCP794_RTCSEC 0x00`. -/
def MCP794_RTCSEC : Nat := 0x00
/-- Source: `#define MCP794_ST 7`. -/
def MCP794_ST : Nat := 7
/-- Source: `#define MCP794_MASK_Second 0b01111111`. -/
def MCP794_MASK_Second : Nat := 0b01111111
/-- Source: `#define MCP794_RTCMIN (0x01)`. -/
def MCP794_RTCMIN : Nat := 0x01
/-- Source: `#define MCP794_RTCHOUR (0x02)`. -/
def MCP794_RTCHOUR : Nat := 0x02
/-- Source: `#define MCP794_12_24 6`. -/
def MCP794_12_24 : Nat := 6
/-- Source: `#define MCP794_AM_PM 5`. -/
def MCP794_AM_PM : Nat := 5
/-- Source: `#define MCP794_MASK_24Hour 0b00111111`. -/
def MCP794_MASK_24Hour : Nat := 0b00111111
/-- Source: `#define MCP794_MASK_12Hour 0b00011111`. -/
def MCP794_MASK_12Hour : Nat := 0b00011111
/-- Source: `#define MCP794_RTCWKDAY 0x03`. -/
def MCP794_RTCWKDAY : Nat := 0x03
/-- Source: `#define MCP794_OSCRUN 5`. -/
def MCP794_OSCRUN : Nat := 5
/-- Source: `#define MCP794_VBATEN 3`. -/
def MCP794_VBATEN : Nat := 3
/-- Source: `#define MCP794_RTCDATE (0x04)`. -/
def MCP794_RTCDATE : Nat := 0x04
/-- Source: `#define MCP794_RTCMTH 0x05`. -/
def MCP794_RTCMTH : Nat := 0x05
/-- Source: `#define MCP794_MASK_Month 0b00011111`. -/
def MCP794_MASK_Month : Nat := 0b00011111
/-- Source: `#define MCP794_RTCYEAR 0x06`. -/
def MCP794_RTCYEAR : Nat := 0x06
/-- Source: `#define MCP794_CONTROL 0x07`. -/
def MCP794_CONTROL : Nat := 0x07
/-- Source: `#define RTC_ADDRESS 0b11011110` (`Toadstool mega328 RTC.c`). -/
def RTC_ADDRESS : Nat := 0b11011110

/-- Source: `decToBcd(uint8_t val)`. -/
def decToBcd (val : Nat) : Nat :=
  (val / 10 * 16 + val % 10) % 256

/-- Source: `bcdToDec(uint8_t val)`. -/
def bcdToDec (val : Nat) : Nat :=
  (val / 16 * 10 + val % 16) % 256

/-- The globals of `RTC_MCP79400.c`, the UART sink and the state of the bus. -/
structure World (σ : Type) where
  settingBackupBat : Nat
  setting24Hour : Nat
  uart : List Nat
  bus : σ

/-- The variables the pointer arguments of `RTC_GetTime` refer to. -/
structure TimeVars where
  getYear : Nat
  getMonth : Nat
  getDay : Nat
  getWeekDay : Nat
  getHour : Nat
  isHourPM : Nat
  getMinutes : Nat
  getSeconds : Nat
  deriving DecidableEq, Repr

/-- Source: `RTC_write(uint8_t deviceAddress, uint8_t registerAddress, uint8_t data)`. -/
def RTC_write {σ : Type} (hw : TWI σ) (deviceAddress registerAddress data : Nat) (s : σ) :
    σ × Nat :=
  let s1 := (I2C_sendStart hw s).1
  let s2 := (I2C_send hw (deviceAddress ||| TW_WRITE) s1).1
  let s3 := (I2C_send hw registerAddress s2).1
  let s4 := (I2C_send hw data s3).1
  let s5 := I2C_sendStop hw s4
  (s5, 1)

/-- Source: `RTC_read(uint8_t deviceAddress, uint8_t registerAddress)`. -/
def RTC_read {σ : Type} (hw : TWI σ) (deviceAddress registerAddress : Nat) (s : σ) :
    σ × Nat :=
  let s1 := (I2C_sendStart hw s).1
  let s2 := (I2C_send hw (deviceAddress ||| TW_WRITE) s1).1
  let s3 := (I2C_send hw registerAddress s2).1
  let s4 := (I2C_sendStart hw s3).1
  let s5 := (I2C_send hw (deviceAddress ||| TW_READ) s4).1
  let r := I2C_read hw 0 s5
  let s6 := I2C_sendStop hw r.1
  (s6, r.2)

/-- The sequence `I2C_send(deviceAddress|TW_WRITE); I2C_send(reg); I2C_send(value)`
that `RTC_SetTime` repeats for each field; yields the last status. -/
def sendField {σ : Type} (hw : TWI σ) (deviceAddress reg value : Nat) (s : σ) : σ × Nat :=
  let s1 := (I2C_send hw (deviceAddress ||| TW_WRITE) s).1
  let s2 := (I2C_send hw reg s1).1
  I2C_send hw value s2

/-- Source: `RTC_SetTime`; the result is `(state, return value)`. -/
def RTC_SetTime {σ : Type} (hw : TWI σ) (deviceAddress setYear setMonth setDay setWeekDay
    setHour isHourPM setMinutes setSeconds : Nat) (w : World σ) : World σ × Nat :=
  let b0 := (RTC_write hw deviceAddress MCP794_RTCSEC 0 w.bus).1
  let b1 := (I2C_sendStart hw b0).1
  -- year
  let sendData := if setYear > 99 then (setYear % 100) % 256 else setYear % 256
  let b2 := (sendField hw deviceAddress MCP794_RTCYEAR (decToBcd sendData) b1).1
  -- month
  let b3 := (I2C_sendStart hw b2).1
  let b4 := (sendField hw deviceAddress MCP794_RTCMTH (decToBcd setMonth) b3).1
  -- date
  let b5 := (I2C_sendStart hw b4).1
  let b6 := (sendField hw deviceAddress MCP794_RTCDATE (decToBcd setDay) b5).1
  -- hour
  let b7 := (I2C_sendStart hw b6).1
  let sendData12 := if setHour > 12 then (setHour - 12) % 256 else sendData
  let hourByte :=
    if w.setting24Hour ≠ 0 then decToBcd setHour
    else decToBcd sendData12 ||| (1 <<< MCP794_12_24) ||| (isHourPM <<< MCP794_AM_PM)
  let b8 := (sendField hw deviceAddress MCP794_RTCHOUR hourByte b7).1
  -- minutes
  let b9 := (I2C_sendStart hw b8).1
  let b10 := (sendField hw deviceAddress MCP794_RTCMIN (decToBcd setMinutes) b9).1
  -- seconds
  let b11 := (I2C_sendStart hw b10).1
  let last := sendField hw deviceAddress MCP794_RTCSEC
    (decToBcd setSeconds ||| (1 <<< MCP794_ST)) b11
  let b12 := I2C_sendStop hw last.1
  ({ w with bus := b12 }, last.2 % 256)

/-- The sequence `I2C_send(SLA+W); I2C_send(reg); I2C_sendStart(); I2C_send(SLA+R);
I2C_read(0)` that `RTC_GetTime` repeats for each field; yields the status of the
last `I2C_send` and the byte read. -/
def readField {σ : Type} (hw : TWI σ) (deviceAddress reg : Nat) (s : σ) : σ × Nat × Nat :=
  let s1 := (I2C_send hw (deviceAddress ||| TW_WRITE) s).1
  let s2 := (I2C_send hw reg s1).1
  let s3 := (I2C_sendStart hw s2).1
  let r4 := I2C_send hw (deviceAddress ||| TW_READ) s3
  let r5 := I2C_read hw 0 r4.1
  (r5.1, r4.2, r5.2)

/-- Source: `RTC_GetTime`; `t` holds the variables behind the pointer
arguments, the result is `(state, variables, return value)`. -/
def RTC_GetTime {σ : Type} (hw : TWI σ) (deviceAddress : Nat) (t : TimeVars) (w : World σ) :
    World σ × TimeVars × Nat :=
  let b0 := (I2C_sendStart hw w.bus).1
  -- year
  let y := readField hw deviceAddress MCP794_RTCYEAR b0
  let t1 := { t with getYear := bcdToDec y.2.2 }
  -- month
  let m := readField hw deviceAddress MCP794_RTCMTH (I2C_sendStart hw y.1).1
  let t2 := { t1 with getMonth := bcdToDec (m.2.2 &&& MCP794_MASK_Month) }
  -- date
  let d := readField hw deviceAddress MCP794_RTCDATE (I2C_sendStart hw m.1).1
  let t3 := { t2 with getDay := bcdToDec d.2.2 }
  -- hour
  let h := readField hw deviceAddress MCP794_RTCHOUR (I2C_sendStart hw d.1).1
  let readData := h.2.2
  let uart1 :=
    if readData &&& (1 <<< MCP794_12_24) ≠ 0 then
      let u1 := UART_writeString (cstr "\r\n12 Hour Masked = ") w.uart
      let u2 := UART_printDecimal (readData &&& MCP794_MASK_12Hour) 0 u1
      let u3 := UART_writeString (cstr "\r\n12 Hour Converted = ") u2
      let u4 := UART_printDecimal (bcdToDec (readData &&& MCP794_MASK_12Hour)) 0 u3
      UART_writeString (cstr "\r\n") u4
    else w.uart
  let t4 :=
    if readData &&& (1 <<< MCP794_12_24) ≠ 0 then
      { t3 with
        isHourPM := readData &&& MCP794_AM_PM
        getHour := bcdToDec (readData &&& MCP794_MASK_12Hour) }
    else
      { t3 with
        isHourPM := 0
        getHour := bcdToDec (readData &&& MCP794_MASK_24Hour) }
  -- minutes
  let mi := readField hw deviceAddress MCP794_RTCMIN (I2C_sendStart hw h.1).1
  let t5 := { t4 with getMinutes := bcdToDec mi.2.2 }
  -- seconds
  let se := readField hw deviceAddress MCP794_RTCSEC (I2C_sendStart hw mi.1).1
  let t6 := { t5 with getSeconds := bcdToDec (se.2.2 &&& MCP794_MASK_Second) }
  let b1 := I2C_sendStop hw se.1
  ({ w with uart := uart1, bus := b1 }, t6, se.2.1 % 256)

end RTC

/-! ### A bus that answers reads from a script -/

/-- A bus that logs every primitive, answers every step with the same status and
hands out the data bytes of a prepared list, one per read (0xFF once the list is
used up).  The state is the list of pending data bytes and the log. -/
def scriptBus (status : Nat) : TWI (List Nat × List BusOp) :=
  { start := fun s => ((s.1, s.2 ++ [BusOp.start]), status),
    send := fun s b => ((s.1, s.2 ++ [BusOp.send b]), status),
    recv := fun s a => ((s.1.tail, s.2 ++ [BusOp.read a]), status, s.1.headD 0xFF),
    stop := fun s => (s.1, s.2 ++ [BusOp.stop]) }

/-! ## Toadstool mega328 EEPROM Replay: start-up -/

/-- Bit number of the TWI prescaler bit 0 in TWSR. -/
def TWPS0 : Nat := 0
/-- Bit number of the TWI prescaler bit 1 in TWSR. -/
def TWPS1 : Nat := 1
/-- Bit number of the Timer1 compare-B interrupt enable in TIMSK1. -/
def OCIE1B : Nat := 2
/-- Bit number of the Timer1 overflow interrupt enable in TIMSK1. -/
def TOIE1 : Nat := 0

namespace Replay

/-- Source: `I2C_init(uint8_t I2C_kHz)` of `I2C.c`; the result is the pair of
register values (TWSR, TWBR).  F_CPU is a compiler symbol and the header `I2C.h`
of this program, which defines I2C_PRESCALER and I2C_PRESCALER_BIT, is not in the
source tree: the three are parameters.  `int` and `unsigned int` are 16 bits
wide, `unsigned long` 32 bits: `I2C_Hz * 2 * I2C_PRESCALER` is computed in
`unsigned int`, the quotient and the difference in `unsigned long`.  A zero
divisor, undefined in C, yields the quotient 0 here. -/
def I2C_init (F_CPU I2C_PRESCALER I2C_PRESCALER_BIT : Nat) (I2C_kHz : Nat) (TWSR : Nat) :
    Nat × Nat :=
  let I2C_Hz := ((I2C_kHz % 256) * 1000 % 4294967296) % 65536
  let divisor := ((I2C_Hz * 2 % 65536) * I2C_PRESCALER) % 65536
  let bitRate :=
    ((F_CPU % 4294967296 / divisor + 4294967296 - 16 / (2 * I2C_PRESCALER)) % 4294967296) % 256
  let twsr1 := TWSR &&& (0xFF ^^^ ((1 <<< TWPS0) ||| (1 <<< TWPS1)))
  (twsr1 ||| I2C_PRESCALER_BIT, bitRate)

/-- Source: `configPins`, as far as PORTB goes (the direction register DDRB is
not part of the state). -/
def configPins {σ : Type} (s : Machine σ) : Machine σ :=
  { s with PORTB := setBit s.PORTB PIN_SWITCH }

/-- Source: `configTimer`, as far as TIMSK1 goes (TCCR1A, TCCR1B and OCR1A are
not part of the state). -/
def configTimer {σ : Type} (s : Machine σ) : Machine σ :=
  let s1 := { s with TIMSK1 :=
    s.TIMSK1 &&& (0xFF ^^^ ((1 <<< OCIE1A) ||| (1 <<< OCIE1B) ||| (1 <<< TOIE1))) }
  { s1 with TIMSK1 := setBit s1.TIMSK1 OCIE1A }

/-- Source: `main` up to `sei()`; `PINB` is the value of the input register
read by the power-on test of the switch.  `I2C_init(100)` writes TWSR and TWBR
only, which are not part of the state. -/
def mainStartup {σ : Type} (hw : TWI σ) (PINB : Nat) (s : Machine σ) : Machine σ :=
  let s1 := configPins s
  let s2 := { s1 with PORTB := setBit s1.PORTB PIN_LED }
  let s3 := { s2 with PORTB := clearBit s2.PORTB PIN_LED }
  let s4 := configTimer s3
  let s5 := { s4 with currentState := STATE_REPLAY }
  let s6 := { s5 with currentMemLocation := EEPROM_FIRST_ADDRESS }
  let s7 := { s6 with currentMemBit := 8 }
  if PINB &&& (1 <<< PIN_SWITCH) = 0 then clearMemory hw s7 else s7

end Replay

/-! ## Toadstool mega328 RTC: bus speed constants and initialisation -/

namespace RTC

/-- Source: `I2C.h`, `#define I2C_PRESCALER`: 4 when F_CPU > 4000000UL, else 1. -/
def I2C_PRESCALER (F_CPU : Nat) : Nat :=
  if F_CPU > 4000000 then 4 else 1

/-- Source: `I2C.h`, `#define I2C_PRESCALER_BIT`: `(1<<TWPS0)` when
F_CPU > 4000000UL, else 0. -/
def I2C_PRESCALER_BIT (F_CPU : Nat) : Nat :=
  if F_CPU > 4000000 then 1 <<< TWPS0 else 0

/-- The part of `RTC_Init` before `_delay_ms(10)`: the settings are recorded,
the weekday/status register is read, the battery bit is rewritten when the
comparison finds a difference, and the oscillator is started when the OSCRUN
bit of tempVar is clear. -/
def RTC_Init_settle {σ : Type} (hw : TWI σ) (deviceAddress is24Hour isBackupBat : Nat)
    (w : World σ) : World σ :=
  let w1 := { w with settingBackupBat := isBackupBat, setting24Hour := is24Hour }
  let r1 := RTC_read hw deviceAddress MCP794_RTCWKDAY w1.bus
  let tempVar := r1.2
  let differs := tempVar &&& (1 <<< MCP794_VBATEN) ≠ isBackupBat
  let tempVar1 :=
    if differs then
      if isBackupBat = 0 then tempVar &&& (0xFF ^^^ (1 <<< MCP794_VBATEN))
      else (tempVar ||| (1 <<< MCP794_VBATEN)) % 256
    else tempVar
  let b2 := if differs then (RTC_write hw deviceAddress MCP794_RTCWKDAY tempVar1 r1.1).1 else r1.1
  let b3 :=
    if tempVar1 &&& (1 <<< MCP794_OSCRUN) = 0 then
      (RTC_write hw deviceAddress MCP794_RTCSEC (10 ||| (1 <<< MCP794_ST))
        (RTC_write hw deviceAddress MCP794_CONTROL 0 b2).1).1
    else b2
  { w1 with bus := b3 }

/-- Source: `RTC_Init(uint8_t deviceAddress, uint8_t is24Hour, uint8_t isBackupBat)`;
the result is `(state, return value)`. -/
def RTC_Init {σ : Type} (hw : TWI σ) (deviceAddress is24Hour isBackupBat : Nat)
    (w : World σ) : World σ × Nat :=
  let w1 := RTC_Init_settle hw deviceAddress is24Hour isBackupBat w
  let r := RTC_read hw deviceAddress MCP794_RTCWKDAY w1.bus
  let tempVar := r.2
  if tempVar &&& (1 <<< MCP794_OSCRUN) = 0 then ({ w1 with bus := r.1 }, 0)
  else ({ w1 with bus := r.1 }, 1)

end RTC

/-! ## Decimal notation, for comparison with `UART_printDecimal` -/

/-- The decimal digits of n, most significant first; the number 0 has the one
digit 0. -/
def decimalDigits (n : Nat) : List Nat :=
  if n = 0 then [0] else (Nat.digits 10 n).reverse

/-- The ASCII text of n in decimal, left-padded with the character 0 to a total
length of max(padDigits, number of decimal digits of n). -/
def paddedDecimal (n padDigits : Nat) : List Nat :=
  (List.replicate (padDigits - (decimalDigits n).length) 0 ++ decimalDigits n).map (· + 48)

/-! ## Bus clock arithmetic, for comparison with `I2C_init` -/

/-- The bit-rate value F_CPU / (k*1000*2*P) - 16 / (2*P) for a bus speed of
k kHz, computed without any limit on the width of the intermediate values. -/
def exactBitRate (F_CPU P I2C_kHz : Nat) : Nat :=
  F_CPU / (I2C_kHz * 1000 * 2 * P) - 16 / (2 * P)

/-- The bus clock in Hz that the bit-rate register value TWBR gives with the
quoted formula F_CPU / (16 + 2*TWBR*P). -/
def busClock (F_CPU P TWBR : Nat) : Nat :=
  F_CPU / (16 + 2 * TWBR * P)

/-! ## The value of eight samples, for comparison with `record1Bit` -/

/-- The sum of b_i * 2^i over a list of samples b_0, b_1, ... (least-significant
bit first). -/
def bitSum : List Bool → Nat
  | [] => 0
  | b :: bs => b.toNat + 2 * bitSum bs

/-! ## The operand of the shifts `1<<currentMemBit` -/

namespace Replay

/-- The value of currentMemBit at the point where `replay1Bit` evaluates
`1<<currentMemBit`, in terms of the state on entry: 0 after a refill (entered
with the bit cursor above 7), the bit cursor on entry otherwise. -/
def replayShiftBit {σ : Type} (s : Machine σ) : Nat :=
  if s.currentMemBit > 7 then 0 else s.currentMemBit

/-- The value of currentMemBit at the point where `record1Bit` evaluates
`1<<currentMemBit` (reached when the switch is pressed): the bit cursor on
entry. -/
def recordShiftBit {σ : Type} (s : Machine σ) : Nat :=
  s.currentMemBit

end Replay

/-! ## Example states used by the closed statements below -/

/-- An idle ideal device whose bytes are all zero. -/
def blankDevice : Device :=
  { mem := fun _ => 0, ptr := 0, phase := Phase.idle }

/-- An idle ideal device holding 0x01 at address 20 and zero everywhere else. -/
def markedDevice : Device :=
  { mem := fun i => if i = 20 then 1 else 0, ptr := 0, phase := Phase.idle }

/-- The controller as `main` leaves it before the loop (switch not held at
power-on), attached to the given device. -/
def powerOn (d : Device) : Replay.Machine Device :=
  { currentState := Replay.STATE_REPLAY
    currentMemLocation := Replay.EEPROM_FIRST_ADDRESS
    currentMemBit := 8
    isrFlag := 0
    LEDValue := 0
    PORTB := 1
    TIMSK1 := 2
    bus := d }

/-- The controller at the start of a recording pass over a blank EEPROM. -/
def recordingStart : Replay.Machine Device :=
  { currentState := Replay.STATE_RECORDING
    currentMemLocation := Replay.EEPROM_FIRST_ADDRESS
    currentMemBit := 0
    isrFlag := 0
    LEDValue := 0
    PORTB := 1
    TIMSK1 := 2
    bus := blankDevice }

/-- PINB with the switch released (pull-up reads high). -/
def RELEASED : Nat := 1

/-- PINB with the switch pressed (pin pulled to ground). -/
def PRESSED : Nat := 0

/-- Switch inputs of a recording pass: pressed on tick 0, released on ticks 1..55. -/
def pressFirst : List Nat :=
  PRESSED :: List.replicate 55 RELEASED

/-- The controller after the recording pass `pressFirst` and the EndRecording step. -/
def afterRecording : Replay.Machine Device :=
  Replay.tick idealEEPROM RELEASED (Replay.ticks idealEEPROM pressFirst recordingStart)

/-- RTC program state with 24-hour mode selected, attached to a blank device. -/
def world24 : RTC.World Device :=
  { settingBackupBat := 1, setting24Hour := 1, uart := [], bus := blankDevice }

/-- Time variables before the first `RTC_GetTime`. -/
def noTime : RTC.TimeVars :=
  { getYear := 0, getMonth := 0, getDay := 0, getWeekDay := 0, getHour := 0, isHourPM := 0,
    getMinutes := 0, getSeconds := 0 }

/-- An idle ideal device holding 0xAB at address 27 and zero everywhere else. -/
def taggedDevice : Device :=
  { mem := fun i => if i = 27 then 0xAB else 0, ptr := 0, phase := Phase.idle }

/-- RTC program state on a scripted bus that answers the six reads of
`RTC_GetTime` with the given year, month, date, hour, minute and second bytes. -/
def worldReading (y mo d hb mi se : Nat) : RTC.World (List Nat × List BusOp) :=
  { settingBackupBat := 1, setting24Hour := 0, uart := [], bus := ([y, mo, d, hb, mi, se], []) }

/-- RTC program state attached to a scripted bus whose two reads yield 0x28
(OSCRUN and VBATEN set: oscillator running, backup battery enabled). -/
def worldRunning : RTC.World (List Nat × List BusOp) :=
  { settingBackupBat := 0, setting24Hour := 0, uart := [], bus := ([0x28, 0x28], []) }

/-- RTC program state with 12-hour mode selected, attached to a bus that has
logged nothing yet. -/
def world12 : RTC.World (List BusOp) :=
  { settingBackupBat := 1, setting24Hour := 0, uart := [], bus := [] }

/-- RTC program state attached to a scripted bus whose first read yields 0x00
(oscillator stopped, battery bit clear) and whose second read yields 0x20
(OSCRUN set). -/
def worldStarting : RTC.World (List Nat × List BusOp) :=
  { settingBackupBat := 0, setting24Hour := 0, uart := [], bus := ([0x00, 0x20], []) }

/-! ## Cursor positions used to state the invariants of a run -/

/-- Number of recording ticks the cursor stands after (first address, bit 0). -/
def recPos {σ : Type} (s : Replay.Machine σ) : Nat :=
  8 * (s.currentMemLocation - 20) + s.currentMemBit

/-- The controller is recording with its cursor inside the bytes 20..26. -/
def recInv {σ : Type} (s : Replay.Machine σ) : Prop :=
  s.currentState = Replay.STATE_RECORDING ∧ 20 ≤ s.currentMemLocation ∧
    s.currentMemLocation ≤ 26 ∧ s.currentMemBit ≤ 7

/-- Replay cursor measure: 8 at power-on (address 20, bit 8), one more per tick. -/
def repPos {σ : Type} (s : Replay.Machine σ) : Nat :=
  8 * (s.currentMemLocation - 20) + s.currentMemBit

/-- The controller is replaying with its cursor inside the bytes 20..26. -/
def repInv {σ : Type} (s : Replay.Machine σ) : Prop :=
  s.currentState = Replay.STATE_REPLAY ∧ 20 ≤ s.currentMemLocation ∧
    s.currentMemLocation ≤ 26 ∧ 1 ≤ s.currentMemBit ∧ s.currentMemBit ≤ 8

/-- The cursor invariant of the controller at a tick boundary: replaying or
recording with the address inside 20..26 and the bit cursor at most 8
(replaying) or 7 (recording), or about to end a recording. -/
def cursorInv {σ : Type} (s : Replay.Machine σ) : Prop :=
  (s.currentState = Replay.STATE_REPLAY ∧ 20 ≤ s.currentMemLocation ∧
      s.currentMemLocation ≤ 26 ∧ s.currentMemBit ≤ 8) ∨
  (s.currentState = Replay.STATE_RECORDING ∧ 20 ≤ s.currentMemLocation ∧
      s.currentMemLocation ≤ 26 ∧ s.currentMemBit ≤ 7) ∨
  (s.currentState = Replay.STATE_STOP_REC ∧ s.currentMemBit ≤ 8)

/-- The controller is replaying with its cursor before the byte 20 + j of a
memory that holds the bytes FF 00 FF 00 FF 00 FF at the addresses 20..26. -/
def clearedAt (s : Replay.Machine Device) (j : Nat) : Prop :=
  s.currentState = Replay.STATE_REPLAY ∧ s.currentMemBit = 8 ∧
    s.currentMemLocation = 20 + j ∧ j < 7 ∧
    ∀ i, i < 7 → s.bus.mem (20 + i) = if i % 2 = 0 then 255 else 0

/-! ## The accumulator of a recording pass, as a function of the samples -/

/-- The accumulator LEDValue after `record1Bit` has sampled PINB at the given
bit cursor. -/
def sampleInto (bit LEDValue PINB : Nat) : Nat :=
  let l0 := if bit = 0 then 0 else LEDValue
  if PINB &&& (1 <<< Replay.PIN_SWITCH) = 0 then (l0 ||| (1 <<< bit)) % 256 else l0

/-- The accumulator after sampling a list of inputs on consecutive ticks, the
first at the given bit cursor. -/
def packFrom : Nat → Nat → List Nat → Nat
  | _, l, [] => l
  | bit, l, p :: ps => packFrom (bit + 1) (sampleInto bit l p) ps

/-- The value of `sampleInto` in terms of whether the switch was pressed. -/
def sampleBit (bit l : Nat) (pressed : Bool) : Nat :=
  let l0 := if bit = 0 then 0 else l
  if pressed then (l0 ||| (1 <<< bit)) % 256 else l0

/-! # Theorems -/

/-! ## Arithmetic of the bytes on the bus -/

theorem sla_write_even (dev : Nat) (h : dev % 2 = 0) :
    (dev ||| TW_WRITE) % 256 % 2 = TW_WRITE := by
  simp only [TW_WRITE, Nat.or_zero]
  omega

theorem sla_read_odd (dev : Nat) : ¬ (dev ||| TW_READ) % 256 % 2 = TW_WRITE := by
  have h : (dev ||| TW_READ) % 2 = 1 := by
    rw [Nat.or_mod_two_eq_one]
    exact Or.inr rfl
  simp only [TW_WRITE]
  omega

theorem high_byte_lt (a : Nat) (ha : a < 65536) : a >>> 8 % 256 = a >>> 8 := by
  rw [Nat.shiftRight_eq_div_pow]
  omega

theorem address_bytes_join (a : Nat) (ha : a < 65536) : a >>> 8 % 256 * 256 + a % 256 = a := by
  rw [Nat.shiftRight_eq_div_pow]
  omega

theorem low_byte_mask (a : Nat) : a &&& 0xFF = a % 256 :=
  Nat.and_pow_two_sub_one_eq_mod a 8

theorem bytes_to_word (h l : Nat) (hh : h < 256) (hl : l < 256) :
    ((h <<< 8) % 65536 ||| l) % 65536 = h * 256 + l := by
  have e : (h <<< 8) % 65536 = 2 ^ 8 * h := by
    rw [Nat.shiftLeft_eq]
    omega
  have hl8 : l < 2 ^ 8 := by simpa using hl
  rw [e, ← Nat.mul_add_lt_is_or hl8 h]
  omega

/-! ## The EEPROM driver over the ideal EEPROM -/

theorem I2C_read_state {σ : Type} (hw : TWI σ) (sendAck : Nat) (s : σ) :
    (Replay.I2C_read hw sendAck s).1
      = (hw.recv s (if sendAck % 256 = 1 then 1 <<< TWEA else 0)).1 := by
  unfold Replay.I2C_read
  simp only []
  split <;> split <;> rfl

/-- Effect of `EEPROM_write` on the ideal EEPROM when the R/W bit of the device
address is clear: the addressed byte is replaced, the bus is left idle. -/
theorem EEPROM_write_ideal (dev a v : Nat) (d : Device) (hdev : dev % 2 = 0)
    (ha : a < 65536) :
    Replay.EEPROM_write idealEEPROM dev a v d =
      ({ mem := fun i => if i = a then v % 256 else d.mem i,
         ptr := (a + 1) % 65536, phase := Phase.idle }, 1) := by
  have h1 := sla_write_even dev hdev
  have h3 := address_bytes_join a ha
  simp only [Replay.EEPROM_write, Replay.I2C_sendStart, Replay.I2C_send, Replay.I2C_sendStop,
    idealEEPROM, idealStart, idealSend, idealStop, h1, if_true]
  simp [h3]

/-- Effect of `EEPROM_read` on the ideal EEPROM when the R/W bit of the device
address is clear: the addressed byte is returned, the memory is unchanged. -/
theorem EEPROM_read_ideal (dev a : Nat) (d : Device) (hdev : dev % 2 = 0) (ha : a < 65536) :
    Replay.EEPROM_read idealEEPROM dev a d =
      ({ mem := d.mem, ptr := (a + 1) % 65536, phase := Phase.idle }, d.mem a % 256) := by
  have h1 := sla_write_even dev hdev
  have h2 := sla_read_odd dev
  have h3 := address_bytes_join a ha
  simp only [Replay.EEPROM_read, Replay.I2C_sendStart, Replay.I2C_send, Replay.I2C_sendStop,
    Replay.I2C_read, idealEEPROM, idealStart, idealSend, idealRecv, idealStop, h1, h2,
    if_true, if_false]
  simp [h3, TW_MR_DATA_NACK]

/-! ## C5: BCD conversion -/

/-- C5. `decToBcd` and `bcdToDec` are mutually inverse between 0..99 and the
valid BCD bytes: for v in 0..99 the encoding has the tens digit in the high
nibble and the ones digit in the low nibble (so it is a valid BCD byte) and
decodes back to v; for a byte x with both nibbles at most 9 the decoding lies in
0..99 and encodes back to x. -/
theorem bcd_round_trip (v x : Nat) (hv : v ≤ 99) (hx : x < 256) (hhi : x / 16 ≤ 9)
    (hlo : x % 16 ≤ 9) :
    RTC.bcdToDec (RTC.decToBcd v) = v ∧
    RTC.decToBcd v / 16 = v / 10 ∧ RTC.decToBcd v % 16 = v % 10 ∧ RTC.decToBcd v < 256 ∧
    RTC.decToBcd (RTC.bcdToDec x) = x ∧ RTC.bcdToDec x ≤ 99 := by
  have e1 : RTC.decToBcd v = v / 10 * 16 + v % 10 := by
    unfold RTC.decToBcd
    omega
  have e2 : RTC.bcdToDec x = x / 16 * 10 + x % 16 := by
    unfold RTC.bcdToDec
    omega
  rw [e1, e2]
  unfold RTC.bcdToDec RTC.decToBcd
  omega

theorem bcd_round_trip_witness :
    (59 ≤ 99 ∧ 0x23 < 256 ∧ 0x23 / 16 ≤ 9 ∧ 0x23 % 16 ≤ 9) ∧
    (RTC.bcdToDec (RTC.decToBcd 59) = 59 ∧
      RTC.decToBcd 59 / 16 = 59 / 10 ∧ RTC.decToBcd 59 % 16 = 59 % 10 ∧
      RTC.decToBcd 59 < 256 ∧
      RTC.decToBcd (RTC.bcdToDec 0x23) = 0x23 ∧ RTC.bcdToDec 0x23 ≤ 99) :=
  ⟨by decide, bcd_round_trip 59 0x23 (by decide) (by decide) (by decide) (by decide)⟩

/-! ## C7: EEPROM byte round trip -/

/-- The ideal EEPROM acknowledges the address byte of `EEPROM_write` as a write
address exactly when the R/W bit of the device address is clear. -/
theorem write_acknowledged_even (dev a v : Nat) (d : Device)
    (hack : (Replay.EEPROM_write_results idealEEPROM dev a v d).tail =
      [TW_MT_SLA_ACK, TW_MT_DATA_ACK, TW_MT_DATA_ACK, TW_MT_DATA_ACK]) :
    dev % 2 = 0 := by
  by_contra hodd
  have h1 : ¬ (dev ||| TW_WRITE) % 256 % 2 = TW_WRITE := by
    simp only [TW_WRITE, Nat.or_zero]
    omega
  simp only [Replay.EEPROM_write_results, Replay.I2C_sendStart, Replay.I2C_send, idealEEPROM,
    idealStart, idealSend, h1, if_false, List.tail_cons] at hack
  simp [TW_MR_SLA_ACK, TW_MT_SLA_ACK] at hack

/-- C7. Over the ideal EEPROM, when every step of the two transactions is
acknowledged (the address and data bytes with their ACK status, the final data
read completing with status TW_MR_DATA_NACK), for every device address, every
16-bit memory address a and every byte v, `EEPROM_write(dev, a, v)` followed by
`EEPROM_read(dev, a)` returns v, the byte at a is v and every other memory byte
is unchanged. -/
theorem eeprom_write_read_round_trip (dev a v : Nat) (d : Device) (ha : a < 65536)
    (hv : v < 256)
    (hackw : (Replay.EEPROM_write_results idealEEPROM dev a v d).tail =
      [TW_MT_SLA_ACK, TW_MT_DATA_ACK, TW_MT_DATA_ACK, TW_MT_DATA_ACK])
    (hackr : (Replay.EEPROM_read_results idealEEPROM dev a
        (Replay.EEPROM_write idealEEPROM dev a v d).1).tail =
      [TW_MT_SLA_ACK, TW_MT_DATA_ACK, TW_MT_DATA_ACK, TW_REP_START, TW_MR_SLA_ACK,
        TW_MR_DATA_NACK]) :
    (Replay.EEPROM_read idealEEPROM dev a (Replay.EEPROM_write idealEEPROM dev a v d).1).2 = v ∧
    (Replay.EEPROM_read idealEEPROM dev a (Replay.EEPROM_write idealEEPROM dev a v d).1).1.mem a
      = v ∧
    ∀ i, i ≠ a →
      (Replay.EEPROM_read idealEEPROM dev a (Replay.EEPROM_write idealEEPROM dev a v d).1).1.mem i
        = d.mem i := by
  have hdev := write_acknowledged_even dev a v d hackw
  rw [EEPROM_write_ideal dev a v d hdev ha, EEPROM_read_ideal dev a _ hdev ha]
  have hv' : v % 256 = v := Nat.mod_eq_of_lt hv
  refine ⟨by simp [hv'], by simp [hv'], ?_⟩
  intro i hi
  simp [hi]

theorem eeprom_write_read_round_trip_witness :
    (100 < 65536 ∧ 0xA5 < 256 ∧
      (Replay.EEPROM_write_results idealEEPROM 0xA6 100 0xA5 blankDevice).tail =
        [TW_MT_SLA_ACK, TW_MT_DATA_ACK, TW_MT_DATA_ACK, TW_MT_DATA_ACK] ∧
      (Replay.EEPROM_read_results idealEEPROM 0xA6 100
          (Replay.EEPROM_write idealEEPROM 0xA6 100 0xA5 blankDevice).1).tail =
        [TW_MT_SLA_ACK, TW_MT_DATA_ACK, TW_MT_DATA_ACK, TW_REP_START, TW_MR_SLA_ACK,
          TW_MR_DATA_NACK]) ∧
    ((Replay.EEPROM_read idealEEPROM 0xA6 100
        (Replay.EEPROM_write idealEEPROM 0xA6 100 0xA5 blankDevice).1).2 = 0xA5 ∧
     (Replay.EEPROM_read idealEEPROM 0xA6 100
        (Replay.EEPROM_write idealEEPROM 0xA6 100 0xA5 blankDevice).1).1.mem 100 = 0xA5 ∧
     ∀ i, i ≠ 100 →
      (Replay.EEPROM_read idealEEPROM 0xA6 100
        (Replay.EEPROM_write idealEEPROM 0xA6 100 0xA5 blankDevice).1).1.mem i
        = blankDevice.mem i) :=
  ⟨by decide,
    eeprom_write_read_round_trip 0xA6 100 0xA5 blankDevice (by decide) (by decide) (by decide)
      (by decide)⟩

/-- Without the acknowledgement the round trip fails: for the device address
0xA7, whose R/W bit is set, `deviceAddress|TW_WRITE` is an SLA+R byte, the data
bytes of `EEPROM_write` are not acknowledged and the read does not return the
value written. -/
theorem eeprom_round_trip_needs_acknowledge :
    (Replay.EEPROM_write_results idealEEPROM 0xA7 100 0xA5 blankDevice).tail =
      [TW_MR_SLA_ACK, TW_NO_INFO, TW_NO_INFO, TW_NO_INFO] ∧
    (Replay.EEPROM_read idealEEPROM 0xA7 100
      (Replay.EEPROM_write idealEEPROM 0xA7 100 0xA5 blankDevice).1).2 ≠ 0xA5 := by
  decide

/-! ## C8: shape of the EEPROM transactions -/

/-- C8. Whatever status codes and data the bus returns, `EEPROM_write(dev, a, v)`
issues exactly start, send(dev|WRITE), send(a >> 8), send(a & 0xFF), send(v),
stop, and `EEPROM_read(dev, a)` issues exactly start, send(dev|WRITE),
send(a >> 8), send(a & 0xFF), start, send(dev|READ), read without acknowledge,
stop.  The address byte on the wire is the low byte of `dev|WRITE` / `dev|READ`,
`I2C_send` taking a `uint8_t`. -/
theorem eeprom_transaction_shape (status data : List BusOp → Nat) (log : List BusOp)
    (dev a v : Nat) (ha : a < 65536) (hv : v < 256) :
    (Replay.EEPROM_write (traceBus status data) dev a v log).1 =
      log ++ [BusOp.start, BusOp.send ((dev ||| TW_WRITE) % 256), BusOp.send (a >>> 8),
        BusOp.send (a &&& 0xFF), BusOp.send v, BusOp.stop] ∧
    (Replay.EEPROM_read (traceBus status data) dev a log).1 =
      log ++ [BusOp.start, BusOp.send ((dev ||| TW_WRITE) % 256), BusOp.send (a >>> 8),
        BusOp.send (a &&& 0xFF), BusOp.start, BusOp.send ((dev ||| TW_READ) % 256),
        BusOp.read 0, BusOp.stop] := by
  have h1 := high_byte_lt a ha
  have h2 := low_byte_mask a
  constructor
  · simp [Replay.EEPROM_write, traceBus, Replay.I2C_sendStart, Replay.I2C_send,
      Replay.I2C_sendStop, h1, h2, Nat.mod_eq_of_lt hv]
  · simp only [Replay.EEPROM_read, I2C_read_state]
    simp [traceBus, Replay.I2C_sendStart, Replay.I2C_send, Replay.I2C_sendStop, h1, h2]

theorem eeprom_transaction_shape_witness :
    (100 < 65536 ∧ 0xA5 < 256) ∧
    ((Replay.EEPROM_write (traceBus (fun _ => 0) (fun _ => 0)) 0xA6 100 0xA5 []).1 =
      [] ++ [BusOp.start, BusOp.send ((0xA6 ||| TW_WRITE) % 256), BusOp.send (100 >>> 8),
        BusOp.send (100 &&& 0xFF), BusOp.send 0xA5, BusOp.stop] ∧
    (Replay.EEPROM_read (traceBus (fun _ => 0) (fun _ => 0)) 0xA6 100 []).1 =
      [] ++ [BusOp.start, BusOp.send ((0xA6 ||| TW_WRITE) % 256), BusOp.send (100 >>> 8),
        BusOp.send (100 &&& 0xFF), BusOp.start, BusOp.send ((0xA6 ||| TW_READ) % 256),
        BusOp.read 0, BusOp.stop]) :=
  ⟨by decide, eeprom_transaction_shape _ _ [] 0xA6 100 0xA5 (by decide) (by decide)⟩

/-! ## C9: the last-address cursor -/

/-- C9, as stated, fails: the high byte is not stored at EEPROM address 0
(`EEPROM_ADDRESS_LOCATION` is 1), so address 0 keeps its old content. -/
theorem last_address_not_stored_at_zero :
    (Replay.EEPROM_setLastAddress idealEEPROM 0xA6 0x1234 blankDevice).mem 0 ≠ 0x12 ∧
    (Replay.EEPROM_setLastAddress idealEEPROM 0xA6 0x1234 blankDevice).mem 1 ≠ 0x34 := by
  decide

/-- C9 (amended). Over the ideal EEPROM, for a device address with the R/W bit
clear and every 16-bit value a, `EEPROM_setLastAddress(dev, a)` stores the high
byte of a at EEPROM address 1 (`EEPROM_ADDRESS_LOCATION`) and the low byte at
address 2, leaving every other byte unchanged, and `EEPROM_getLastAddress(dev)`
returns (byte at address 1) * 256 + (byte at address 2). -/
theorem last_address_layout (dev a : Nat) (d : Device) (hdev : dev % 2 = 0)
    (ha : a < 65536) :
    (Replay.EEPROM_setLastAddress idealEEPROM dev a d).mem 1 = a >>> 8 ∧
    (Replay.EEPROM_setLastAddress idealEEPROM dev a d).mem 2 = a &&& 0xFF ∧
    (∀ i, i ≠ 1 → i ≠ 2 → (Replay.EEPROM_setLastAddress idealEEPROM dev a d).mem i = d.mem i) ∧
    (Replay.EEPROM_getLastAddress idealEEPROM dev d).2 = d.mem 1 % 256 * 256 + d.mem 2 % 256 ∧
    (Replay.EEPROM_getLastAddress idealEEPROM dev d).1.mem = d.mem := by
  have h1 := high_byte_lt a ha
  have h2 := low_byte_mask a
  simp only [Replay.EEPROM_setLastAddress, Replay.EEPROM_getLastAddress,
    Replay.EEPROM_ADDRESS_LOCATION]
  rw [EEPROM_write_ideal dev 1 _ d hdev (by decide),
    EEPROM_write_ideal dev (1 + 1) _ _ hdev (by decide),
    EEPROM_read_ideal dev 1 d hdev (by decide),
    EEPROM_read_ideal dev (1 + 1) _ hdev (by decide)]
  refine ⟨by simp [h1], by simp [h2], ?_, ?_, rfl⟩
  · intro i hi1 hi2
    simp [hi1, hi2]
  · exact bytes_to_word _ _ (Nat.mod_lt _ (by decide)) (Nat.mod_lt _ (by decide))

theorem last_address_layout_witness :
    (0xA6 % 2 = 0 ∧ 0x1234 < 65536) ∧
    ((Replay.EEPROM_setLastAddress idealEEPROM 0xA6 0x1234 blankDevice).mem 1 = 0x1234 >>> 8 ∧
    (Replay.EEPROM_setLastAddress idealEEPROM 0xA6 0x1234 blankDevice).mem 2 = 0x1234 &&& 0xFF ∧
    (∀ i, i ≠ 1 → i ≠ 2 →
      (Replay.EEPROM_setLastAddress idealEEPROM 0xA6 0x1234 blankDevice).mem i
        = blankDevice.mem i) ∧
    (Replay.EEPROM_getLastAddress idealEEPROM 0xA6 blankDevice).2
      = blankDevice.mem 1 % 256 * 256 + blankDevice.mem 2 % 256 ∧
    (Replay.EEPROM_getLastAddress idealEEPROM 0xA6 blankDevice).1.mem = blankDevice.mem) :=
  ⟨by decide, last_address_layout 0xA6 0x1234 blankDevice (by decide) (by decide)⟩

/-! ## The controller: one tick -/

theorem tick_eq {σ : Type} (hw : TWI σ) (PINB : Nat) (s : Replay.Machine σ) :
    Replay.tick hw PINB s = Replay.mainSwitch hw PINB { s with isrFlag := 0 } := by
  simp [Replay.tick, Replay.mainLoopBody, Replay.ISR]

theorem released_iff (PINB : Nat) :
    Replay.switchPressed PINB = false ↔ ¬ PINB &&& (1 <<< Replay.PIN_SWITCH) = 0 := by
  simp [Replay.switchPressed]

theorem ticks_append {σ : Type} (hw : TWI σ) (xs ys : List Nat) :
    ∀ s : Replay.Machine σ,
      Replay.ticks hw (xs ++ ys) s = Replay.ticks hw ys (Replay.ticks hw xs s) := by
  induction xs with
  | nil => intro s; rfl
  | cons p rest ih => intro s; simp [Replay.ticks, ih]

theorem and_bit_eq_zero (x i : Nat) : x &&& (1 <<< i) = 0 ↔ x.testBit i = false := by
  rw [Nat.one_shiftLeft, Nat.and_two_pow]
  cases x.testBit i <;> simp

theorem and_bit_ne_zero (x i : Nat) : (x &&& (1 <<< i) != 0) = x.testBit i := by
  rw [Nat.one_shiftLeft, Nat.and_two_pow]
  cases x.testBit i <;> simp

theorem testBit_clearBit (r : Nat) :
    (Replay.clearBit r Replay.PIN_LED).testBit Replay.PIN_LED = false := by
  unfold Replay.clearBit
  rw [Nat.testBit_and]
  have h : (0xFF ^^^ 1 <<< Replay.PIN_LED).testBit Replay.PIN_LED = false := by decide
  simp [h]

theorem testBit_setBit (r : Nat) :
    (Replay.setBit r Replay.PIN_LED).testBit Replay.PIN_LED = true := by
  unfold Replay.setBit
  rw [Nat.testBit_or]
  have h : (1 <<< Replay.PIN_LED).testBit Replay.PIN_LED = true := by decide
  simp [h]

theorem ledOn_eq {σ : Type} (s : Replay.Machine σ) :
    Replay.ledOn s = s.PORTB.testBit Replay.PIN_LED := by
  unfold Replay.ledOn
  exact and_bit_ne_zero _ _

/-- Control fields after one tick in the Recording state. -/
theorem record_tick_ctrl {σ : Type} (hw : TWI σ) (PINB : Nat) (s : Replay.Machine σ)
    (hst : s.currentState = Replay.STATE_RECORDING) :
    (Replay.tick hw PINB s).currentState =
      (if (s.currentMemBit + 1) % 256 > 7 ∧ (s.currentMemLocation + 1) % 65536 > 26
        then Replay.STATE_STOP_REC else Replay.STATE_RECORDING) ∧
    (Replay.tick hw PINB s).currentMemLocation =
      (if (s.currentMemBit + 1) % 256 > 7 then (s.currentMemLocation + 1) % 65536
        else s.currentMemLocation) ∧
    (Replay.tick hw PINB s).currentMemBit =
      (if (s.currentMemBit + 1) % 256 > 7 ∧ ¬ (s.currentMemLocation + 1) % 65536 > 26
        then 0 else (s.currentMemBit + 1) % 256) := by
  rw [tick_eq]
  simp only [Replay.mainSwitch, hst, Replay.STATE_RECORDING, Replay.STATE_REPLAY,
    Replay.STATE_START_REC, Replay.record1Bit]
  simp only [Replay.REPLAY_COUNT, Replay.REPLAY_SECS, Replay.REPLAY_SAMPLE_MS,
    Replay.EEPROM_FIRST_ADDRESS, Replay.STATE_STOP_REC]
  norm_num
  split_ifs <;> simp_all <;> omega

theorem record_tick_inv {σ : Type} (hw : TWI σ) (PINB : Nat) (s : Replay.Machine σ)
    (hi : recInv s) (hp : recPos s < 55) :
    recInv (Replay.tick hw PINB s) ∧ recPos (Replay.tick hw PINB s) = recPos s + 1 := by
  obtain ⟨hst, h1, h2, h3⟩ := hi
  obtain ⟨e1, e2, e3⟩ := record_tick_ctrl hw PINB s hst
  unfold recInv recPos at *
  rw [e1, e2, e3]
  split_ifs <;> simp_all <;> omega

theorem record_tick_last {σ : Type} (hw : TWI σ) (PINB : Nat) (s : Replay.Machine σ)
    (hi : recInv s) (hp : recPos s = 55) :
    (Replay.tick hw PINB s).currentState = Replay.STATE_STOP_REC := by
  obtain ⟨hst, h1, h2, h3⟩ := hi
  obtain ⟨e1, _, _⟩ := record_tick_ctrl hw PINB s hst
  unfold recPos at hp
  rw [e1]
  have h : s.currentMemBit = 7 ∧ s.currentMemLocation = 26 := by omega
  simp [h]

theorem record_run_inv {σ : Type} (hw : TWI σ) (inputs : List Nat) :
    ∀ s : Replay.Machine σ, recInv s → recPos s + inputs.length ≤ 55 →
      recInv (Replay.ticks hw inputs s) ∧
      recPos (Replay.ticks hw inputs s) = recPos s + inputs.length := by
  induction inputs with
  | nil => intro s hi _; exact ⟨hi, rfl⟩
  | cons p rest ih =>
    intro s hi hlen
    simp only [List.length_cons] at hlen
    obtain ⟨hi', hp'⟩ := record_tick_inv hw p s hi (by omega)
    obtain ⟨h1, h2⟩ := ih (Replay.tick hw p s) hi' (by omega)
    simp only [Replay.ticks, List.length_cons]
    exact ⟨h1, by omega⟩

/-- Control fields after one tick in the Replay state with the switch released. -/
theorem replay_tick_ctrl {σ : Type} (hw : TWI σ) (PINB : Nat) (s : Replay.Machine σ)
    (hst : s.currentState = Replay.STATE_REPLAY) (hrel : Replay.switchPressed PINB = false) :
    (Replay.tick hw PINB s).currentState = Replay.STATE_REPLAY ∧
    (Replay.tick hw PINB s).currentMemLocation =
      (if s.currentMemBit > 7 then
        (if (s.currentMemLocation + 1) % 65536 > 26 then 20
          else (s.currentMemLocation + 1) % 65536)
        else s.currentMemLocation) ∧
    (Replay.tick hw PINB s).currentMemBit =
      (if s.currentMemBit > 7 then 1 else (s.currentMemBit + 1) % 256) := by
  rw [released_iff] at hrel
  rw [tick_eq]
  simp only [Replay.mainSwitch, hst, Replay.replay1Bit, hrel, if_true, if_false]
  simp only [Replay.REPLAY_COUNT, Replay.REPLAY_SECS, Replay.REPLAY_SAMPLE_MS,
    Replay.EEPROM_FIRST_ADDRESS]
  norm_num
  split_ifs <;> simp_all

/-- A Replay tick entered with bit cursor above 7 reads the byte at the current
address and shows its bit 0. -/
theorem replay_tick_refill {σ : Type} (hw : TWI σ) (PINB : Nat) (s : Replay.Machine σ)
    (hst : s.currentState = Replay.STATE_REPLAY) (hrel : Replay.switchPressed PINB = false)
    (hbit : s.currentMemBit > 7) :
    (Replay.tick hw PINB s).bus =
      (Replay.EEPROM_read hw Replay.EEPROM_DEVICE_ADDRESS s.currentMemLocation s.bus).1 ∧
    (Replay.tick hw PINB s).LEDValue =
      (Replay.EEPROM_read hw Replay.EEPROM_DEVICE_ADDRESS s.currentMemLocation s.bus).2 ∧
    Replay.ledOn (Replay.tick hw PINB s) =
      (Replay.EEPROM_read hw Replay.EEPROM_DEVICE_ADDRESS s.currentMemLocation s.bus).2.testBit
        0 := by
  rw [released_iff] at hrel
  rw [ledOn_eq, tick_eq]
  simp only [Replay.mainSwitch, hst, Replay.replay1Bit, hrel, hbit, if_true, if_false]
  refine ⟨by split_ifs <;> rfl, by split_ifs <;> rfl, ?_⟩
  split_ifs <;> simp_all [and_bit_eq_zero, testBit_clearBit, testBit_setBit]

/-- A Replay tick entered with bit cursor in 0..7 reads nothing and shows that
bit of the byte held in LEDValue. -/
theorem replay_tick_keep {σ : Type} (hw : TWI σ) (PINB : Nat) (s : Replay.Machine σ)
    (hst : s.currentState = Replay.STATE_REPLAY) (hrel : Replay.switchPressed PINB = false)
    (hbit : ¬ s.currentMemBit > 7) :
    (Replay.tick hw PINB s).bus = s.bus ∧
    (Replay.tick hw PINB s).LEDValue = s.LEDValue ∧
    Replay.ledOn (Replay.tick hw PINB s) = s.LEDValue.testBit s.currentMemBit := by
  rw [released_iff] at hrel
  rw [ledOn_eq, tick_eq]
  simp only [Replay.mainSwitch, hst, Replay.replay1Bit, hrel, hbit, if_true, if_false]
  refine ⟨by split_ifs <;> rfl, by split_ifs <;> rfl, ?_⟩
  split_ifs <;> simp_all [and_bit_eq_zero, testBit_clearBit, testBit_setBit]

theorem replay_tick_inv {σ : Type} (hw : TWI σ) (PINB : Nat) (s : Replay.Machine σ)
    (hrel : Replay.switchPressed PINB = false) (hi : repInv s) (hp : repPos s < 56) :
    repInv (Replay.tick hw PINB s) ∧ repPos (Replay.tick hw PINB s) = repPos s + 1 := by
  obtain ⟨hst, h1, h2, h3, h4⟩ := hi
  obtain ⟨e1, e2, e3⟩ := replay_tick_ctrl hw PINB s hst hrel
  unfold repInv repPos at *
  rw [e1, e2, e3]
  split_ifs <;> simp_all <;> omega

theorem replay_run_inv {σ : Type} (hw : TWI σ) (inputs : List Nat) :
    ∀ s : Replay.Machine σ, (∀ p ∈ inputs, Replay.switchPressed p = false) → repInv s →
      repPos s + inputs.length ≤ 56 →
      repInv (Replay.ticks hw inputs s) ∧
      repPos (Replay.ticks hw inputs s) = repPos s + inputs.length := by
  induction inputs with
  | nil => intro s _ hi _; exact ⟨hi, rfl⟩
  | cons p rest ih =>
    intro s hrel hi hlen
    simp only [List.length_cons] at hlen
    obtain ⟨hi', hp'⟩ :=
      replay_tick_inv hw p s (hrel p (List.mem_cons_self _ _)) hi (by omega)
    obtain ⟨h1, h2⟩ :=
      ih (Replay.tick hw p s) (fun q hq => hrel q (List.mem_cons_of_mem _ hq)) hi' (by omega)
    simp only [Replay.ticks, List.length_cons]
    exact ⟨h1, by omega⟩

/-! ## The accumulator during a recording pass and the ticks after it -/

theorem record_tick_led {σ : Type} (hw : TWI σ) (PINB : Nat) (s : Replay.Machine σ)
    (hst : s.currentState = Replay.STATE_RECORDING) :
    (Replay.tick hw PINB s).LEDValue = sampleInto s.currentMemBit s.LEDValue PINB := by
  rw [tick_eq]
  simp only [Replay.mainSwitch, hst, Replay.STATE_RECORDING, Replay.STATE_REPLAY,
    Replay.STATE_START_REC, Replay.record1Bit, sampleInto]
  norm_num
  split_ifs <;> simp_all

theorem record_byte_run {σ : Type} (hw : TWI σ) (ps : List Nat) :
    ∀ (s : Replay.Machine σ), s.currentState = Replay.STATE_RECORDING →
      s.currentMemBit + ps.length ≤ 8 →
      (Replay.ticks hw ps s).LEDValue = packFrom s.currentMemBit s.LEDValue ps := by
  induction ps with
  | nil => intro s _ _; rfl
  | cons p rest ih =>
    intro s hst hlen
    simp only [List.length_cons] at hlen
    simp only [Replay.ticks, packFrom]
    cases rest with
    | nil => simp only [Replay.ticks, packFrom]; exact record_tick_led hw p s hst
    | cons q rest' =>
      simp only [List.length_cons] at hlen
      obtain ⟨e1, _, e3⟩ := record_tick_ctrl hw p s hst
      have hb : ¬ (s.currentMemBit + 1) % 256 > 7 := by omega
      have hst' : (Replay.tick hw p s).currentState = Replay.STATE_RECORDING := by
        rw [e1]; simp [hb]
      have hbit' : (Replay.tick hw p s).currentMemBit = s.currentMemBit + 1 := by
        rw [e3]; simp [hb]; omega
      have h := ih (Replay.tick hw p s) hst'
        (by rw [hbit']; simp only [List.length_cons]; omega)
      rw [h, hbit', record_tick_led hw p s hst]

theorem sampleInto_eq (bit l p : Nat) :
    sampleInto bit l p = sampleBit bit l (Replay.switchPressed p) := by
  unfold sampleInto sampleBit Replay.switchPressed
  by_cases h : p &&& (1 <<< Replay.PIN_SWITCH) = 0 <;> simp [h]

theorem sampleBit_zero (l : Nat) (b : Bool) : sampleBit 0 l b = sampleBit 0 0 b := by
  simp [sampleBit]

set_option maxRecDepth 100000 in
theorem sample_byte_bits : ∀ b0 b1 b2 b3 b4 b5 b6 b7 : Bool,
    (List.range 8).map (fun k =>
      (sampleBit 7 (sampleBit 6 (sampleBit 5 (sampleBit 4 (sampleBit 3 (sampleBit 2
        (sampleBit 1 (sampleBit 0 0 b0) b1) b2) b3) b4) b5) b6) b7).testBit k)
      = [b0, b1, b2, b3, b4, b5, b6, b7] := by
  decide

/-- Bit k of the byte accumulated from eight samples, the first at bit cursor 0,
tells whether the switch was pressed at sample k. -/
theorem pack_byte_bits (p0 p1 p2 p3 p4 p5 p6 p7 l : Nat) :
    (List.range 8).map (fun k => (packFrom 0 l [p0, p1, p2, p3, p4, p5, p6, p7]).testBit k)
      = [p0, p1, p2, p3, p4, p5, p6, p7].map Replay.switchPressed := by
  simp only [packFrom, sampleInto_eq, Nat.zero_add, Nat.reduceAdd]
  rw [sampleBit_zero]
  exact sample_byte_bits _ _ _ _ _ _ _ _

/-- The EndRecording step. -/
theorem stop_tick {σ : Type} (hw : TWI σ) (PINB : Nat) (s : Replay.Machine σ)
    (hst : s.currentState = Replay.STATE_STOP_REC) :
    (Replay.tick hw PINB s).currentState = Replay.STATE_REPLAY ∧
    (Replay.tick hw PINB s).currentMemLocation = Replay.EEPROM_FIRST_ADDRESS ∧
    (Replay.tick hw PINB s).currentMemBit = 0 ∧
    (Replay.tick hw PINB s).LEDValue = s.LEDValue ∧
    (Replay.tick hw PINB s).bus = s.bus := by
  rw [tick_eq]
  simp [Replay.mainSwitch, hst, Replay.STATE_STOP_REC, Replay.STATE_REPLAY,
    Replay.STATE_START_REC, Replay.STATE_RECORDING, Replay.caseStopRec, Replay.flashLED]

/-- Replay ticks that stay inside the byte held in LEDValue read nothing. -/
theorem replay_keep_run {σ : Type} (hw : TWI σ) (n : Nat) :
    ∀ (s : Replay.Machine σ), s.currentState = Replay.STATE_REPLAY →
      s.currentMemBit + n ≤ 7 →
      (Replay.ticks hw (List.replicate (n + 1) RELEASED) s).currentState
        = Replay.STATE_REPLAY ∧
      (Replay.ticks hw (List.replicate (n + 1) RELEASED) s).currentMemBit
        = s.currentMemBit + n + 1 ∧
      (Replay.ticks hw (List.replicate (n + 1) RELEASED) s).LEDValue = s.LEDValue ∧
      (Replay.ticks hw (List.replicate (n + 1) RELEASED) s).bus = s.bus ∧
      Replay.ledOn (Replay.ticks hw (List.replicate (n + 1) RELEASED) s)
        = s.LEDValue.testBit (s.currentMemBit + n) := by
  have hrel : Replay.switchPressed RELEASED = false := by decide
  induction n with
  | zero =>
    intro s hst hb
    obtain ⟨e1, _, e3⟩ := replay_tick_ctrl hw RELEASED s hst hrel
    obtain ⟨k1, k2, k3⟩ := replay_tick_keep hw RELEASED s hst hrel (by omega)
    simp only [List.replicate, Replay.ticks]
    refine ⟨e1, ?_, k2, k1, k3⟩
    rw [e3]
    have h7 : ¬ s.currentMemBit > 7 := by omega
    simp [h7]
    omega
  | succ n ih =>
    intro s hst hb
    obtain ⟨e1, _, e3⟩ := replay_tick_ctrl hw RELEASED s hst hrel
    obtain ⟨k1, k2, k3⟩ := replay_tick_keep hw RELEASED s hst hrel (by omega)
    have hbit : (Replay.tick hw RELEASED s).currentMemBit = s.currentMemBit + 1 := by
      rw [e3]
      have h7 : ¬ s.currentMemBit > 7 := by omega
      simp [h7]
      omega
    obtain ⟨a, b, c, d, e⟩ := ih (Replay.tick hw RELEASED s) e1 (by rw [hbit]; omega)
    have e0 : Replay.ticks hw (List.replicate (n + 1 + 1) RELEASED) s
        = Replay.ticks hw (List.replicate (n + 1) RELEASED) (Replay.tick hw RELEASED s) := rfl
    rw [e0]
    refine ⟨a, ?_, ?_, ?_, ?_⟩
    · rw [b, hbit]; omega
    · rw [c, k2]
    · rw [d, k1]
    · rw [e, k2, hbit]
      congr 1
      omega

/-! ## C1: replay after a recording -/

/-- C1 fails on the code, for every bus and every recording. A recording pass
from (first address, bit 0) ends in STATE_STOP_REC after 56 samples; the
EndRecording step returns to Replay, and the first eight Replay ticks with the
switch released then show the last eight recorded samples p0..p7 (samples
48..55, still held in LEDValue), not the first eight. -/
theorem replay_after_recording_shows_last_byte_first {σ : Type} (hw : TWI σ)
    (s : Replay.Machine σ) (inputs : List Nat) (p0 p1 p2 p3 p4 p5 p6 p7 PINB : Nat)
    (hst : s.currentState = Replay.STATE_RECORDING)
    (hloc : s.currentMemLocation = Replay.EEPROM_FIRST_ADDRESS)
    (hbit : s.currentMemBit = 0) (hlen : inputs.length = 48) :
    (Replay.ticks hw (inputs ++ [p0, p1, p2, p3, p4, p5, p6, p7]) s).currentState
      = Replay.STATE_STOP_REC ∧
    (Replay.tick hw PINB
      (Replay.ticks hw (inputs ++ [p0, p1, p2, p3, p4, p5, p6, p7]) s)).currentState
      = Replay.STATE_REPLAY ∧
    (List.range 8).map (fun k => Replay.ledOn (Replay.ticks hw (List.replicate (k + 1) RELEASED)
        (Replay.tick hw PINB
          (Replay.ticks hw (inputs ++ [p0, p1, p2, p3, p4, p5, p6, p7]) s))))
      = [p0, p1, p2, p3, p4, p5, p6, p7].map Replay.switchPressed := by
  have hf : Replay.EEPROM_FIRST_ADDRESS = 20 := rfl
  have hi : recInv s := ⟨hst, by omega, by omega, by omega⟩
  have hp : recPos s = 0 := by unfold recPos; omega
  obtain ⟨h1, h2⟩ := record_run_inv hw inputs s hi (by omega)
  have h48 : (Replay.ticks hw inputs s).currentMemBit = 0 := by
    obtain ⟨_, a, b, c⟩ := h1
    unfold recPos at h2 hp
    omega
  have hled := record_byte_run hw [p0, p1, p2, p3, p4, p5, p6, p7] (Replay.ticks hw inputs s)
    h1.1 (by rw [h48]; simp)
  rw [h48] at hled
  obtain ⟨g1, g2⟩ := record_run_inv hw (inputs ++ [p0, p1, p2, p3, p4, p5, p6]) s hi
    (by simp; omega)
  have hstop : (Replay.ticks hw (inputs ++ [p0, p1, p2, p3, p4, p5, p6, p7]) s).currentState
      = Replay.STATE_STOP_REC := by
    have e : inputs ++ [p0, p1, p2, p3, p4, p5, p6, p7]
        = (inputs ++ [p0, p1, p2, p3, p4, p5, p6]) ++ [p7] := by simp
    rw [e, ticks_append]
    exact record_tick_last hw p7 _ g1 (by rw [g2]; simp; omega)
  obtain ⟨t1, t2, t3, t4, t5⟩ := stop_tick hw PINB _ hstop
  refine ⟨hstop, t1, ?_⟩
  have hk : ∀ k, k ≤ 7 →
      Replay.ledOn (Replay.ticks hw (List.replicate (k + 1) RELEASED)
        (Replay.tick hw PINB
          (Replay.ticks hw (inputs ++ [p0, p1, p2, p3, p4, p5, p6, p7]) s)))
      = (packFrom 0 (Replay.ticks hw inputs s).LEDValue
          [p0, p1, p2, p3, p4, p5, p6, p7]).testBit k := by
    intro k hk
    obtain ⟨_, _, _, _, e⟩ := replay_keep_run hw k _ t1 (by rw [t3]; omega)
    rw [e, t4, t3, ticks_append, hled]
    simp
  rw [← pack_byte_bits p0 p1 p2 p3 p4 p5 p6 p7 (Replay.ticks hw inputs s).LEDValue]
  simp only [List.range, List.range.loop, List.map]
  simp only [hk 0 (by omega), hk 1 (by omega), hk 2 (by omega), hk 3 (by omega),
    hk 4 (by omega), hk 5 (by omega), hk 6 (by omega), hk 7 (by omega)]

theorem replay_after_recording_shows_last_byte_first_witness :
    (recordingStart.currentState = Replay.STATE_RECORDING ∧
      recordingStart.currentMemLocation = Replay.EEPROM_FIRST_ADDRESS ∧
      recordingStart.currentMemBit = 0 ∧
      (PRESSED :: List.replicate 47 RELEASED).length = 48) ∧
    ((Replay.ticks idealEEPROM ((PRESSED :: List.replicate 47 RELEASED) ++
        [RELEASED, RELEASED, RELEASED, RELEASED, RELEASED, RELEASED, RELEASED, RELEASED])
        recordingStart).currentState = Replay.STATE_STOP_REC ∧
    (Replay.tick idealEEPROM RELEASED
      (Replay.ticks idealEEPROM ((PRESSED :: List.replicate 47 RELEASED) ++
        [RELEASED, RELEASED, RELEASED, RELEASED, RELEASED, RELEASED, RELEASED, RELEASED])
        recordingStart)).currentState = Replay.STATE_REPLAY ∧
    (List.range 8).map (fun k => Replay.ledOn
        (Replay.ticks idealEEPROM (List.replicate (k + 1) RELEASED)
          (Replay.tick idealEEPROM RELEASED
            (Replay.ticks idealEEPROM ((PRESSED :: List.replicate 47 RELEASED) ++
              [RELEASED, RELEASED, RELEASED, RELEASED, RELEASED, RELEASED, RELEASED, RELEASED])
              recordingStart))))
      = [RELEASED, RELEASED, RELEASED, RELEASED, RELEASED, RELEASED, RELEASED,
          RELEASED].map Replay.switchPressed) :=
  ⟨by decide,
    replay_after_recording_shows_last_byte_first idealEEPROM recordingStart
      (PRESSED :: List.replicate 47 RELEASED) RELEASED RELEASED RELEASED RELEASED RELEASED
      RELEASED RELEASED RELEASED RELEASED rfl rfl rfl (by decide)⟩

set_option maxRecDepth 1000000 in
/-- Evaluation of one recording. A recording pass over the ideal EEPROM with the
switch pressed on tick 0 only ends in STATE_STOP_REC and stores 0x01 at address
20; the EndRecording step returns to Replay with bit cursor 0, not 8, so the
first eight Replay ticks leave the LED off (the stale accumulator) and the first
recorded sample is shown on Replay tick 8, not tick 0. -/
theorem replay_after_recording_starts_with_stale_byte :
    Replay.switchPressed (pressFirst.getD 0 RELEASED) = true ∧
    (Replay.ticks idealEEPROM pressFirst recordingStart).currentState = Replay.STATE_STOP_REC ∧
    afterRecording.currentState = Replay.STATE_REPLAY ∧
    afterRecording.currentMemBit = 0 ∧
    afterRecording.bus.mem 20 = 1 ∧
    (List.range 9).map
        (fun k => Replay.ledOn (Replay.ticks idealEEPROM (List.replicate (k + 1) RELEASED)
          afterRecording))
      = [false, false, false, false, false, false, false, false, true] := by
  decide

/-! ## C2: length of a recording pass -/

/-- C2 fails on the code. From Recording at (first address, bit 0), for every
bus and every sequence of switch inputs, the state is still Recording after
8*REPLAY_COUNT = 48 ticks, and after every number of ticks below
8*(REPLAY_COUNT+1) = 56; it becomes STATE_STOP_REC on tick 56. -/
theorem recording_ends_on_tick_56 {σ : Type} (hw : TWI σ) (s : Replay.Machine σ)
    (inputs : List Nat) (hst : s.currentState = Replay.STATE_RECORDING)
    (hloc : s.currentMemLocation = Replay.EEPROM_FIRST_ADDRESS)
    (hbit : s.currentMemBit = 0) (hlen : inputs.length = 8 * (Replay.REPLAY_COUNT + 1)) :
    (Replay.ticks hw (inputs.take (8 * Replay.REPLAY_COUNT)) s).currentState
      = Replay.STATE_RECORDING ∧
    (∀ k, k < 8 * (Replay.REPLAY_COUNT + 1) →
      (Replay.ticks hw (inputs.take k) s).currentState = Replay.STATE_RECORDING) ∧
    (Replay.ticks hw inputs s).currentState = Replay.STATE_STOP_REC := by
  have hc : Replay.REPLAY_COUNT = 6 := by decide
  have hf : Replay.EEPROM_FIRST_ADDRESS = 20 := rfl
  rw [hc] at hlen ⊢
  have hi : recInv s := ⟨hst, by omega, by omega, by omega⟩
  have hp : recPos s = 0 := by unfold recPos; omega
  have hk : ∀ k, k < 8 * (6 + 1) →
      recInv (Replay.ticks hw (inputs.take k) s) ∧
      recPos (Replay.ticks hw (inputs.take k) s) = k := by
    intro k hk
    have hl : (inputs.take k).length = k := by
      rw [List.length_take]; omega
    obtain ⟨h1, h2⟩ := record_run_inv hw (inputs.take k) s hi (by omega)
    exact ⟨h1, by omega⟩
  refine ⟨(hk 48 (by omega)).1.1, fun k h => (hk k h).1.1, ?_⟩
  have hsplit : inputs = inputs.take 55 ++ inputs.drop 55 :=
    (List.take_append_drop 55 inputs).symm
  have hd : (inputs.drop 55).length = 1 := by
    rw [List.length_drop]; omega
  obtain ⟨p, hp1⟩ := List.length_eq_one.1 hd
  rw [hsplit, ticks_append, hp1]
  exact record_tick_last hw p _ (hk 55 (by omega)).1 (hk 55 (by omega)).2

theorem recording_ends_on_tick_56_witness :
    (recordingStart.currentState = Replay.STATE_RECORDING ∧
      recordingStart.currentMemLocation = Replay.EEPROM_FIRST_ADDRESS ∧
      recordingStart.currentMemBit = 0 ∧
      (List.replicate 56 RELEASED).length = 8 * (Replay.REPLAY_COUNT + 1)) ∧
    ((Replay.ticks idealEEPROM ((List.replicate 56 RELEASED).take (8 * Replay.REPLAY_COUNT))
        recordingStart).currentState = Replay.STATE_RECORDING ∧
    (∀ k, k < 8 * (Replay.REPLAY_COUNT + 1) →
      (Replay.ticks idealEEPROM ((List.replicate 56 RELEASED).take k)
        recordingStart).currentState = Replay.STATE_RECORDING) ∧
    (Replay.ticks idealEEPROM (List.replicate 56 RELEASED) recordingStart).currentState
      = Replay.STATE_STOP_REC) :=
  ⟨by decide,
    recording_ends_on_tick_56 idealEEPROM recordingStart (List.replicate 56 RELEASED)
      rfl rfl rfl (by decide)⟩

/-! ## C3: replay wraparound -/

/-- C3 fails on the code. From the power-on replay cursor (address 20, bit 8),
for every bus, after 8*REPLAY_COUNT = 48 Replay ticks with the switch released
the cursor stands at (EEPROM_FIRST_ADDRESS + REPLAY_COUNT, 8) = (26, 8): the
49th tick reads the byte at address 26, shows its bit 0, and only then wraps
the address to 20. -/
theorem replay_tick_49_reads_address_26 {σ : Type} (hw : TWI σ) (s : Replay.Machine σ)
    (inputs : List Nat) (PINB : Nat) (hst : s.currentState = Replay.STATE_REPLAY)
    (hloc : s.currentMemLocation = Replay.EEPROM_FIRST_ADDRESS)
    (hbit : s.currentMemBit = 8) (hlen : inputs.length = 8 * Replay.REPLAY_COUNT)
    (hrel : ∀ p ∈ inputs, Replay.switchPressed p = false)
    (hrel49 : Replay.switchPressed PINB = false) :
    (Replay.ticks hw inputs s).currentMemLocation
      = Replay.EEPROM_FIRST_ADDRESS + Replay.REPLAY_COUNT ∧
    (Replay.ticks hw inputs s).currentMemBit = 8 ∧
    (Replay.tick hw PINB (Replay.ticks hw inputs s)).bus =
      (Replay.EEPROM_read hw Replay.EEPROM_DEVICE_ADDRESS
        (Replay.EEPROM_FIRST_ADDRESS + Replay.REPLAY_COUNT) (Replay.ticks hw inputs s).bus).1 ∧
    (Replay.tick hw PINB (Replay.ticks hw inputs s)).LEDValue =
      (Replay.EEPROM_read hw Replay.EEPROM_DEVICE_ADDRESS
        (Replay.EEPROM_FIRST_ADDRESS + Replay.REPLAY_COUNT) (Replay.ticks hw inputs s).bus).2 ∧
    Replay.ledOn (Replay.tick hw PINB (Replay.ticks hw inputs s)) =
      (Replay.EEPROM_read hw Replay.EEPROM_DEVICE_ADDRESS
        (Replay.EEPROM_FIRST_ADDRESS + Replay.REPLAY_COUNT)
        (Replay.ticks hw inputs s).bus).2.testBit 0 ∧
    (Replay.tick hw PINB (Replay.ticks hw inputs s)).currentMemLocation
      = Replay.EEPROM_FIRST_ADDRESS := by
  have hc : Replay.REPLAY_COUNT = 6 := by decide
  have hf : Replay.EEPROM_FIRST_ADDRESS = 20 := rfl
  rw [hc] at hlen
  have hi : repInv s := ⟨hst, by omega, by omega, by omega, by omega⟩
  have hp : repPos s = 8 := by unfold repPos; omega
  obtain ⟨h1, h2⟩ := replay_run_inv hw inputs s hrel hi (by omega)
  have h3 : (Replay.ticks hw inputs s).currentMemLocation
        = Replay.EEPROM_FIRST_ADDRESS + Replay.REPLAY_COUNT ∧
      (Replay.ticks hw inputs s).currentMemBit = 8 := by
    obtain ⟨_, a, b, c, d⟩ := h1
    unfold repPos at h2 hp
    omega
  obtain ⟨r1, r2, r3⟩ := replay_tick_refill hw PINB _ h1.1 hrel49 (by omega)
  obtain ⟨_, e2, _⟩ := replay_tick_ctrl hw PINB _ h1.1 hrel49
  rw [h3.1] at r1 r2 r3
  refine ⟨h3.1, h3.2, r1, r2, r3, ?_⟩
  rw [e2, h3.1, h3.2, hc, hf]
  decide

theorem replay_tick_49_reads_address_26_witness :
    ((powerOn markedDevice).currentState = Replay.STATE_REPLAY ∧
      (powerOn markedDevice).currentMemLocation = Replay.EEPROM_FIRST_ADDRESS ∧
      (powerOn markedDevice).currentMemBit = 8 ∧
      (List.replicate 48 RELEASED).length = 8 * Replay.REPLAY_COUNT ∧
      (∀ p ∈ List.replicate 48 RELEASED, Replay.switchPressed p = false) ∧
      Replay.switchPressed RELEASED = false) ∧
    ((Replay.ticks idealEEPROM (List.replicate 48 RELEASED)
        (powerOn markedDevice)).currentMemLocation
      = Replay.EEPROM_FIRST_ADDRESS + Replay.REPLAY_COUNT ∧
    (Replay.ticks idealEEPROM (List.replicate 48 RELEASED)
        (powerOn markedDevice)).currentMemBit = 8 ∧
    (Replay.tick idealEEPROM RELEASED
        (Replay.ticks idealEEPROM (List.replicate 48 RELEASED) (powerOn markedDevice))).bus =
      (Replay.EEPROM_read idealEEPROM Replay.EEPROM_DEVICE_ADDRESS
        (Replay.EEPROM_FIRST_ADDRESS + Replay.REPLAY_COUNT)
        (Replay.ticks idealEEPROM (List.replicate 48 RELEASED) (powerOn markedDevice)).bus).1 ∧
    (Replay.tick idealEEPROM RELEASED
        (Replay.ticks idealEEPROM (List.replicate 48 RELEASED)
          (powerOn markedDevice))).LEDValue =
      (Replay.EEPROM_read idealEEPROM Replay.EEPROM_DEVICE_ADDRESS
        (Replay.EEPROM_FIRST_ADDRESS + Replay.REPLAY_COUNT)
        (Replay.ticks idealEEPROM (List.replicate 48 RELEASED) (powerOn markedDevice)).bus).2 ∧
    Replay.ledOn (Replay.tick idealEEPROM RELEASED
        (Replay.ticks idealEEPROM (List.replicate 48 RELEASED) (powerOn markedDevice))) =
      (Replay.EEPROM_read idealEEPROM Replay.EEPROM_DEVICE_ADDRESS
        (Replay.EEPROM_FIRST_ADDRESS + Replay.REPLAY_COUNT)
        (Replay.ticks idealEEPROM (List.replicate 48 RELEASED)
          (powerOn markedDevice)).bus).2.testBit 0 ∧
    (Replay.tick idealEEPROM RELEASED
        (Replay.ticks idealEEPROM (List.replicate 48 RELEASED)
          (powerOn markedDevice))).currentMemLocation
      = Replay.EEPROM_FIRST_ADDRESS) :=
  ⟨by decide,
    replay_tick_49_reads_address_26 idealEEPROM (powerOn markedDevice)
      (List.replicate 48 RELEASED) RELEASED rfl rfl rfl (by decide) (by decide) (by decide)⟩

set_option maxRecDepth 1000000 in
/-- Evaluation of one replay: with 0x01 at address 20 and zero at every other
address, bit 0 of the byte at the first address is set and the first Replay tick
lights the LED, yet the 49th Replay tick leaves it off (it shows the byte at
address 26); the byte at address 20 is shown again on tick 57. -/
theorem replay_tick_49_led_off :
    (markedDevice.mem Replay.EEPROM_FIRST_ADDRESS).testBit 0 = true ∧
    Replay.ledOn (Replay.ticks idealEEPROM (List.replicate 1 RELEASED)
      (powerOn markedDevice)) = true ∧
    Replay.ledOn (Replay.ticks idealEEPROM (List.replicate 49 RELEASED)
      (powerOn markedDevice)) = false ∧
    Replay.ledOn (Replay.ticks idealEEPROM (List.replicate 57 RELEASED)
      (powerOn markedDevice)) = true := by
  decide

/-! ## C4: leaving Replay when the switch is pressed -/

/-- C4, as stated, fails: from the power-on Replay state one pass through the
switch with the switch pressed ends in STATE_RECORDING, not STATE_START_REC. -/
theorem replay_press_does_not_end_in_start_rec :
    (powerOn blankDevice).currentState = Replay.STATE_REPLAY ∧
    Replay.switchPressed PRESSED = true ∧
    (Replay.mainSwitch idealEEPROM PRESSED (powerOn blankDevice)).currentState
      ≠ Replay.STATE_START_REC ∧
    (Replay.mainSwitch idealEEPROM PRESSED (powerOn blankDevice)).currentState
      = Replay.STATE_RECORDING := by
  decide

/-- C4 (amended). For every controller state with currentState = Replay and
every bus, one pass through the switch of the main loop with the switch pressed
falls through the BeginRecording case in the same pass and ends with
currentState = Recording and the cursor at (first address, bit 0); no sample
action is taken: the accumulator LEDValue and the bus are untouched. -/
theorem replay_press_falls_through_to_recording {σ : Type} (hw : TWI σ) (PINB : Nat)
    (s : Replay.Machine σ) (hst : s.currentState = Replay.STATE_REPLAY)
    (hp : Replay.switchPressed PINB = true) :
    (Replay.mainSwitch hw PINB s).currentState = Replay.STATE_RECORDING ∧
    (Replay.mainSwitch hw PINB s).currentMemLocation = Replay.EEPROM_FIRST_ADDRESS ∧
    (Replay.mainSwitch hw PINB s).currentMemBit = 0 ∧
    (Replay.mainSwitch hw PINB s).LEDValue = s.LEDValue ∧
    (Replay.mainSwitch hw PINB s).bus = s.bus := by
  have h : PINB &&& (1 <<< Replay.PIN_SWITCH) = 0 := by
    simpa [Replay.switchPressed] using hp
  simp [Replay.mainSwitch, hst, h, Replay.caseStartRec, Replay.flashLED]

theorem replay_press_falls_through_to_recording_witness :
    ((powerOn blankDevice).currentState = Replay.STATE_REPLAY ∧
      Replay.switchPressed PRESSED = true) ∧
    ((Replay.mainSwitch idealEEPROM PRESSED (powerOn blankDevice)).currentState
        = Replay.STATE_RECORDING ∧
      (Replay.mainSwitch idealEEPROM PRESSED (powerOn blankDevice)).currentMemLocation
        = Replay.EEPROM_FIRST_ADDRESS ∧
      (Replay.mainSwitch idealEEPROM PRESSED (powerOn blankDevice)).currentMemBit = 0 ∧
      (Replay.mainSwitch idealEEPROM PRESSED (powerOn blankDevice)).LEDValue
        = (powerOn blankDevice).LEDValue ∧
      (Replay.mainSwitch idealEEPROM PRESSED (powerOn blankDevice)).bus
        = (powerOn blankDevice).bus) :=
  ⟨by decide,
    replay_press_falls_through_to_recording idealEEPROM PRESSED (powerOn blankDevice) rfl
      (by decide)⟩

/-! ## C10: the pattern written by `clearMemory` -/

theorem clearMemoryLoop_unfold {σ : Type} (hw : TWI σ) (s : Replay.Machine σ) :
    Replay.clearMemoryLoop hw 0 s =
      Replay.clearMemoryBody hw (Replay.clearMemoryBody hw
        (Replay.clearMemoryBody hw (Replay.clearMemoryBody hw s))) := by
  have h : Replay.REPLAY_COUNT / 2 = 3 := by decide
  rw [Replay.clearMemoryLoop, Replay.clearMemoryLoop, Replay.clearMemoryLoop,
    Replay.clearMemoryLoop, Replay.clearMemoryLoop]
  simp [h]

/-- Content of the ideal EEPROM after `clearMemory`. -/
theorem clearMemory_ideal (s : Replay.Machine Device) :
    (Replay.clearMemory idealEEPROM s).bus.mem =
      (fun i => if i = 27 then 0 else if i = 26 then 255 else if i = 25 then 0 else
        if i = 24 then 255 else if i = 23 then 0 else if i = 22 then 255 else
        if i = 21 then 0 else if i = 20 then 255 else s.bus.mem i) := by
  have hdev : Replay.EEPROM_DEVICE_ADDRESS % 2 = 0 := by decide
  simp only [Replay.clearMemory, clearMemoryLoop_unfold, Replay.clearMemoryBody,
    Replay.flashLED, Replay.EEPROM_FIRST_ADDRESS]
  simp [EEPROM_write_ideal, hdev]

/-- C10, as stated, fails: after `clearMemory` the second sample byte (address
21) holds 0x00, not 0xFF, and the fifth (address 24) holds 0xFF, not 0x00. -/
theorem clearMemory_not_half_ones_half_zeros :
    (Replay.clearMemory idealEEPROM (powerOn blankDevice)).bus.mem 21 ≠ 0xFF ∧
    (Replay.clearMemory idealEEPROM (powerOn blankDevice)).bus.mem 24 ≠ 0x00 := by
  rw [clearMemory_ideal]
  decide

/-- C10 (amended). After `clearMemory` over the ideal EEPROM the configured
sample bytes alternate byte by byte: for every i below REPLAY_COUNT (= 6) the byte
at EEPROM_FIRST_ADDRESS + i holds 0xFF when i is even and 0x00 when i is odd
(800 ms on, 800 ms off). -/
theorem clearMemory_alternates_bytes (s : Replay.Machine Device) (i : Nat)
    (hi : i < Replay.REPLAY_COUNT) :
    (Replay.clearMemory idealEEPROM s).bus.mem (Replay.EEPROM_FIRST_ADDRESS + i) =
      if i % 2 = 0 then 0xFF else 0x00 := by
  have hc : Replay.REPLAY_COUNT = 6 := by decide
  rw [hc] at hi
  rw [clearMemory_ideal]
  simp only [Replay.EEPROM_FIRST_ADDRESS]
  interval_cases i <;> simp

theorem clearMemory_alternates_bytes_witness :
    1 < Replay.REPLAY_COUNT ∧
    (Replay.clearMemory idealEEPROM (powerOn blankDevice)).bus.mem
        (Replay.EEPROM_FIRST_ADDRESS + 1) = if 1 % 2 = 0 then 0xFF else 0x00 :=
  ⟨by decide, clearMemory_alternates_bytes (powerOn blankDevice) 1 (by decide)⟩

/-! ## The RTC driver over the ideal register file -/

theorem rtc_start_ideal (d : Device) :
    (RTC.I2C_sendStart idealRTC d).1 = { mem := d.mem, ptr := d.ptr, phase := Phase.control } :=
  rfl

theorem rtc_stop_ideal (d : Device) :
    RTC.I2C_sendStop idealRTC d = { mem := d.mem, ptr := d.ptr, phase := Phase.idle } :=
  rfl

theorem RTC_write_ideal (dev reg data : Nat) (d : Device) (hdev : dev % 2 = 0)
    (hreg : reg < 256) :
    RTC.RTC_write idealRTC dev reg data d =
      ({ mem := fun i => if i = reg then data % 256 else d.mem i,
         ptr := (reg + 1) % 256, phase := Phase.idle }, 1) := by
  have h1 := sla_write_even dev hdev
  have h3 : reg % 256 = reg := Nat.mod_eq_of_lt hreg
  simp only [RTC.RTC_write, RTC.I2C_sendStart, RTC.I2C_send, RTC.I2C_sendStop,
    idealRTC, idealStart, idealSend, idealStop, h1, if_true]
  simp [h3]

theorem sendField_ideal (dev reg value : Nat) (d : Device) (hdev : dev % 2 = 0)
    (hreg : reg < 256) (hph : d.phase = Phase.control) :
    RTC.sendField idealRTC dev reg value d =
      ({ mem := fun i => if i = reg then value % 256 else d.mem i,
         ptr := (reg + 1) % 256, phase := Phase.write }, TW_MT_DATA_ACK) := by
  have h1 := sla_write_even dev hdev
  have h3 : reg % 256 = reg := Nat.mod_eq_of_lt hreg
  simp only [RTC.sendField, RTC.I2C_send, idealRTC, idealSend, hph, h1, if_true]
  simp [h3]

theorem readField_ideal (dev reg : Nat) (d : Device) (hdev : dev % 2 = 0) (hreg : reg < 256)
    (hph : d.phase = Phase.control) :
    RTC.readField idealRTC dev reg d =
      ({ mem := d.mem, ptr := (reg + 1) % 256, phase := Phase.read },
        TW_MR_SLA_ACK, d.mem reg % 256) := by
  have h1 := sla_write_even dev hdev
  have h2 := sla_read_odd dev
  have h3 : reg % 256 = reg := Nat.mod_eq_of_lt hreg
  simp only [RTC.readField, RTC.I2C_send, RTC.I2C_sendStart, RTC.I2C_read, idealRTC, idealSend,
    idealStart, idealRecv, hph, h1, h2, if_true, if_false]
  simp [h3]

/-- Registers of the ideal device after `RTC_SetTime` in 24-hour mode. -/
theorem RTC_SetTime_ideal (dev year month day weekday hour pm minute second : Nat)
    (w : RTC.World Device) (hdev : dev % 2 = 0) (h24 : w.setting24Hour ≠ 0) :
    (RTC.RTC_SetTime idealRTC dev year month day weekday hour pm minute second w).1.bus.mem =
      fun i =>
        if i = 0 then (RTC.decToBcd second ||| 128) % 256
        else if i = 1 then RTC.decToBcd minute % 256
        else if i = 2 then RTC.decToBcd hour % 256
        else if i = 4 then RTC.decToBcd day % 256
        else if i = 5 then RTC.decToBcd month % 256
        else if i = 6 then RTC.decToBcd (year % 100) % 256
        else w.bus.mem i := by
  have hy : (if year > 99 then year % 100 % 256 else year % 256) = year % 100 := by
    split_ifs <;> omega
  simp only [RTC.RTC_SetTime, hy, h24, ne_eq, not_false_eq_true, if_true]
  simp only [RTC.MCP794_RTCSEC, RTC.MCP794_RTCMIN, RTC.MCP794_RTCHOUR, RTC.MCP794_RTCDATE,
    RTC.MCP794_RTCMTH, RTC.MCP794_RTCYEAR, RTC.MCP794_ST]
  rw [RTC_write_ideal _ _ _ _ hdev (by decide)]
  simp only [rtc_start_ideal, rtc_stop_ideal]
  rw [sendField_ideal _ _ _ _ hdev (by decide) rfl]
  simp only [rtc_start_ideal, rtc_stop_ideal]
  rw [sendField_ideal _ _ _ _ hdev (by decide) rfl]
  simp only [rtc_start_ideal, rtc_stop_ideal]
  rw [sendField_ideal _ _ _ _ hdev (by decide) rfl]
  simp only [rtc_start_ideal, rtc_stop_ideal]
  rw [sendField_ideal _ _ _ _ hdev (by decide) rfl]
  simp only [rtc_start_ideal, rtc_stop_ideal]
  rw [sendField_ideal _ _ _ _ hdev (by decide) rfl]
  simp only [rtc_start_ideal, rtc_stop_ideal]
  rw [sendField_ideal _ _ _ _ hdev (by decide) rfl]
  funext i
  simp
  split_ifs <;> simp_all

/-- Variables set by `RTC_GetTime` over the ideal device when the hour register
has the 12-hour bit clear. -/
theorem RTC_GetTime_ideal (dev : Nat) (t : RTC.TimeVars) (w : RTC.World Device)
    (hdev : dev % 2 = 0) (h12 : w.bus.mem 2 % 256 &&& (1 <<< RTC.MCP794_12_24) = 0) :
    (RTC.RTC_GetTime idealRTC dev t w).2.1 =
      { getYear := RTC.bcdToDec (w.bus.mem 6 % 256)
        getMonth := RTC.bcdToDec (w.bus.mem 5 % 256 &&& RTC.MCP794_MASK_Month)
        getDay := RTC.bcdToDec (w.bus.mem 4 % 256)
        getWeekDay := t.getWeekDay
        getHour := RTC.bcdToDec (w.bus.mem 2 % 256 &&& RTC.MCP794_MASK_24Hour)
        isHourPM := 0
        getMinutes := RTC.bcdToDec (w.bus.mem 1 % 256)
        getSeconds := RTC.bcdToDec (w.bus.mem 0 % 256 &&& RTC.MCP794_MASK_Second) } := by
  simp only [RTC.RTC_GetTime]
  simp only [RTC.MCP794_RTCSEC, RTC.MCP794_RTCMIN, RTC.MCP794_RTCHOUR, RTC.MCP794_RTCDATE,
    RTC.MCP794_RTCMTH, RTC.MCP794_RTCYEAR]
  simp only [rtc_start_ideal, rtc_stop_ideal]
  rw [readField_ideal _ _ _ hdev (by decide) rfl]
  simp only [rtc_start_ideal, rtc_stop_ideal]
  rw [readField_ideal _ _ _ hdev (by decide) rfl]
  simp only [rtc_start_ideal, rtc_stop_ideal]
  rw [readField_ideal _ _ _ hdev (by decide) rfl]
  simp only [rtc_start_ideal, rtc_stop_ideal]
  rw [readField_ideal _ _ _ hdev (by decide) rfl]
  simp only [rtc_start_ideal, rtc_stop_ideal]
  rw [readField_ideal _ _ _ hdev (by decide) rfl]
  simp only [rtc_start_ideal, rtc_stop_ideal]
  rw [readField_ideal _ _ _ hdev (by decide) rfl]
  simp [h12]

theorem bcd_byte (v : Nat) (hv : v ≤ 99) : RTC.bcdToDec (RTC.decToBcd v % 256 % 256) = v := by
  have e1 : RTC.decToBcd v = v / 10 * 16 + v % 10 := by
    unfold RTC.decToBcd
    omega
  have e2 : (v / 10 * 16 + v % 10) % 256 % 256 = v / 10 * 16 + v % 10 := by omega
  rw [e1, e2]
  unfold RTC.bcdToDec
  omega

theorem bcd_month (m : Nat) (hm : m ≤ 12) :
    RTC.bcdToDec (RTC.decToBcd m % 256 % 256 &&& RTC.MCP794_MASK_Month) = m := by
  interval_cases m <;> decide

theorem bcd_hour24 (h : Nat) (hh : h ≤ 23) :
    RTC.decToBcd h % 256 % 256 &&& (1 <<< RTC.MCP794_12_24) = 0 ∧
    RTC.bcdToDec (RTC.decToBcd h % 256 % 256 &&& RTC.MCP794_MASK_24Hour) = h := by
  interval_cases h <;> decide

theorem bcd_second (s : Nat) (hs : s ≤ 59) :
    RTC.bcdToDec ((RTC.decToBcd s ||| 128) % 256 % 256 &&& RTC.MCP794_MASK_Second) = s := by
  interval_cases s <;> decide

/-- Set/get round trip over the ideal register file for any device address with
the R/W bit clear. -/
theorem rtc_set_get_ideal (dev year month day weekday hour pm minute second : Nat)
    (t0 : RTC.TimeVars) (w : RTC.World Device) (hdev : dev % 2 = 0)
    (h24 : w.setting24Hour ≠ 0) (hmonth : month ≤ 12) (hday : day ≤ 31) (hhour : hour ≤ 23)
    (hmin : minute ≤ 59) (hsec : second ≤ 59) :
    (RTC.RTC_GetTime idealRTC dev t0
        (RTC.RTC_SetTime idealRTC dev year month day weekday hour pm minute second w).1).2.1 =
      { getYear := year % 100, getMonth := month, getDay := day, getWeekDay := t0.getWeekDay,
        getHour := hour, isHourPM := 0, getMinutes := minute, getSeconds := second } := by
  have hm := RTC_SetTime_ideal dev year month day weekday hour pm minute second w hdev h24
  have hh := bcd_hour24 hour hhour
  rw [RTC_GetTime_ideal dev t0 _ hdev (by rw [hm]; exact hh.1)]
  rw [hm]
  simp only [OfNat.ofNat_ne_zero, if_true, if_false, Nat.reduceEqDiff, ite_true, ite_false]
  rw [bcd_month month hmonth, bcd_second second hsec, bcd_byte (year % 100) (by omega),
    bcd_byte day (by omega), bcd_byte minute (by omega), hh.2]

/-! ## C6: RTC set/get round trip in 24-hour mode -/

/-- C6. With setting24Hour != 0, over the ideal register-file RTC at the
program's device address RTC_ADDRESS, `RTC_SetTime(year, month, day, weekday,
hour, pm, minute, second)` followed by `RTC_GetTime` yields getYear = year mod
100, getMonth = month, getDay = day, getHour = hour, getMinutes = minute,
getSeconds = second and isHourPM = 0, for every year, month in 1..12, day in
1..31, hour in 0..23 and minute, second in 0..59, whatever the device registers,
the UART log and the time variables held before. -/
theorem rtc_set_get_round_trip_24h (year month day weekday hour pm minute second : Nat)
    (t0 : RTC.TimeVars) (w : RTC.World Device) (h24 : w.setting24Hour ≠ 0)
    (hmonth : 1 ≤ month ∧ month ≤ 12) (hday : 1 ≤ day ∧ day ≤ 31) (hhour : hour ≤ 23)
    (hmin : minute ≤ 59) (hsec : second ≤ 59) :
    (RTC.RTC_GetTime idealRTC RTC.RTC_ADDRESS t0
      (RTC.RTC_SetTime idealRTC RTC.RTC_ADDRESS year month day weekday hour pm minute second
        w).1).2.1.getYear = year % 100 ∧
    (RTC.RTC_GetTime idealRTC RTC.RTC_ADDRESS t0
      (RTC.RTC_SetTime idealRTC RTC.RTC_ADDRESS year month day weekday hour pm minute second
        w).1).2.1.getMonth = month ∧
    (RTC.RTC_GetTime idealRTC RTC.RTC_ADDRESS t0
      (RTC.RTC_SetTime idealRTC RTC.RTC_ADDRESS year month day weekday hour pm minute second
        w).1).2.1.getDay = day ∧
    (RTC.RTC_GetTime idealRTC RTC.RTC_ADDRESS t0
      (RTC.RTC_SetTime idealRTC RTC.RTC_ADDRESS year month day weekday hour pm minute second
        w).1).2.1.getHour = hour ∧
    (RTC.RTC_GetTime idealRTC RTC.RTC_ADDRESS t0
      (RTC.RTC_SetTime idealRTC RTC.RTC_ADDRESS year month day weekday hour pm minute second
        w).1).2.1.getMinutes = minute ∧
    (RTC.RTC_GetTime idealRTC RTC.RTC_ADDRESS t0
      (RTC.RTC_SetTime idealRTC RTC.RTC_ADDRESS year month day weekday hour pm minute second
        w).1).2.1.getSeconds = second ∧
    (RTC.RTC_GetTime idealRTC RTC.RTC_ADDRESS t0
      (RTC.RTC_SetTime idealRTC RTC.RTC_ADDRESS year month day weekday hour pm minute second
        w).1).2.1.isHourPM = 0 := by
  have hdev : RTC.RTC_ADDRESS % 2 = 0 := by decide
  rw [rtc_set_get_ideal RTC.RTC_ADDRESS year month day weekday hour pm minute second t0 w hdev
    h24 hmonth.2 hday.2 hhour hmin hsec]
  exact ⟨rfl, rfl, rfl, rfl, rfl, rfl, rfl⟩

theorem rtc_set_get_round_trip_24h_witness :
    (world24.setting24Hour ≠ 0 ∧ (1 ≤ 12 ∧ 12 ≤ 12) ∧ (1 ≤ 31 ∧ 31 ≤ 31) ∧ 23 ≤ 23 ∧
      59 ≤ 59 ∧ 15 ≤ 59) ∧
    ((RTC.RTC_GetTime idealRTC RTC.RTC_ADDRESS noTime
      (RTC.RTC_SetTime idealRTC RTC.RTC_ADDRESS 15 12 31 5 23 1 59 15
        world24).1).2.1.getYear = 15 % 100 ∧
    (RTC.RTC_GetTime idealRTC RTC.RTC_ADDRESS noTime
      (RTC.RTC_SetTime idealRTC RTC.RTC_ADDRESS 15 12 31 5 23 1 59 15
        world24).1).2.1.getMonth = 12 ∧
    (RTC.RTC_GetTime idealRTC RTC.RTC_ADDRESS noTime
      (RTC.RTC_SetTime idealRTC RTC.RTC_ADDRESS 15 12 31 5 23 1 59 15
        world24).1).2.1.getDay = 31 ∧
    (RTC.RTC_GetTime idealRTC RTC.RTC_ADDRESS noTime
      (RTC.RTC_SetTime idealRTC RTC.RTC_ADDRESS 15 12 31 5 23 1 59 15
        world24).1).2.1.getHour = 23 ∧
    (RTC.RTC_GetTime idealRTC RTC.RTC_ADDRESS noTime
      (RTC.RTC_SetTime idealRTC RTC.RTC_ADDRESS 15 12 31 5 23 1 59 15
        world24).1).2.1.getMinutes = 59 ∧
    (RTC.RTC_GetTime idealRTC RTC.RTC_ADDRESS noTime
      (RTC.RTC_SetTime idealRTC RTC.RTC_ADDRESS 15 12 31 5 23 1 59 15
        world24).1).2.1.getSeconds = 15 ∧
    (RTC.RTC_GetTime idealRTC RTC.RTC_ADDRESS noTime
      (RTC.RTC_SetTime idealRTC RTC.RTC_ADDRESS 15 12 31 5 23 1 59 15
        world24).1).2.1.isHourPM = 0) :=
  ⟨by decide,
    rtc_set_get_round_trip_24h 15 12 31 5 23 1 59 15 noTime world24
      (by decide) (by decide) (by decide) (by decide) (by decide) (by decide)⟩

/-! ## The controller after `clearMemory` and after start-up -/

theorem clearMemory_ctrl {σ : Type} (hw : TWI σ) (s : Replay.Machine σ) :
    (Replay.clearMemory hw s).currentState = s.currentState ∧
    (Replay.clearMemory hw s).currentMemLocation = Replay.EEPROM_FIRST_ADDRESS ∧
    (Replay.clearMemory hw s).currentMemBit = 8 := by
  refine ⟨?_, ?_, ?_⟩ <;>
    simp [Replay.clearMemory, clearMemoryLoop_unfold, Replay.clearMemoryBody, Replay.flashLED]

theorem mainStartup_ctrl {σ : Type} (hw : TWI σ) (PINB : Nat) (s : Replay.Machine σ) :
    (Replay.mainStartup hw PINB s).currentState = Replay.STATE_REPLAY ∧
    (Replay.mainStartup hw PINB s).currentMemLocation = Replay.EEPROM_FIRST_ADDRESS ∧
    (Replay.mainStartup hw PINB s).currentMemBit = 8 := by
  unfold Replay.mainStartup
  simp only []
  split
  · obtain ⟨a, b, c⟩ := clearMemory_ctrl hw
      { currentState := Replay.STATE_REPLAY,
        currentMemLocation := Replay.EEPROM_FIRST_ADDRESS, currentMemBit := 8,
        isrFlag := (Replay.configTimer _).isrFlag, LEDValue := (Replay.configTimer _).LEDValue,
        PORTB := (Replay.configTimer _).PORTB, TIMSK1 := (Replay.configTimer _).TIMSK1,
        bus := (Replay.configTimer _).bus }
    exact ⟨a, b, c⟩
  · exact ⟨rfl, rfl, rfl⟩

theorem replay_keep_run_loc {σ : Type} (hw : TWI σ) (n : Nat) :
    ∀ (s : Replay.Machine σ), s.currentState = Replay.STATE_REPLAY →
      s.currentMemBit + n ≤ 7 →
      (Replay.ticks hw (List.replicate (n + 1) RELEASED) s).currentMemLocation
        = s.currentMemLocation := by
  have hrel : Replay.switchPressed RELEASED = false := by decide
  induction n with
  | zero =>
    intro s hst hb
    obtain ⟨_, e2, _⟩ := replay_tick_ctrl hw RELEASED s hst hrel
    have h7 : ¬ s.currentMemBit > 7 := by omega
    simp only [h7, if_false] at e2
    exact e2
  | succ n ih =>
    intro s hst hb
    obtain ⟨e1, e2, e3⟩ := replay_tick_ctrl hw RELEASED s hst hrel
    have h7 : ¬ s.currentMemBit > 7 := by omega
    simp only [h7, if_false] at e2 e3
    have e0 : Replay.ticks hw (List.replicate (n + 1 + 1) RELEASED) s
        = Replay.ticks hw (List.replicate (n + 1) RELEASED) (Replay.tick hw RELEASED s) := rfl
    rw [e0, ih (Replay.tick hw RELEASED s) e1 (by rw [e3]; omega), e2]

/-- The Replay ticks that follow a refill show the bits of the byte read, in
ascending order. -/
theorem replay_byte_shown {σ : Type} (hw : TWI σ) (s : Replay.Machine σ) (m : Nat)
    (hst : s.currentState = Replay.STATE_REPLAY) (hbit : s.currentMemBit > 7) (hm : m < 8) :
    Replay.ledOn (Replay.ticks hw (List.replicate (m + 1) RELEASED) s) =
      (Replay.EEPROM_read hw Replay.EEPROM_DEVICE_ADDRESS s.currentMemLocation
        s.bus).2.testBit m := by
  have hrel : Replay.switchPressed RELEASED = false := by decide
  obtain ⟨e1, _, e3⟩ := replay_tick_ctrl hw RELEASED s hst hrel
  obtain ⟨r1, r2, r3⟩ := replay_tick_refill hw RELEASED s hst hrel hbit
  simp only [hbit, if_true] at e3
  cases m with
  | zero => exact r3
  | succ n =>
    obtain ⟨_, _, _, _, k⟩ := replay_keep_run hw n (Replay.tick hw RELEASED s) e1
      (by rw [e3]; omega)
    have e0 : Replay.ticks hw (List.replicate (n + 1 + 1) RELEASED) s
        = Replay.ticks hw (List.replicate (n + 1) RELEASED) (Replay.tick hw RELEASED s) := rfl
    rw [e0, k, r2, e3]
    congr 1
    omega

/-! ## C11: replay of the pattern written by `clearMemory` -/

/-- The first Replay tick of a byte of the cleared memory. -/
theorem cleared_first_tick (s : Replay.Machine Device) (j : Nat) (h : clearedAt s j) :
    (Replay.tick idealEEPROM RELEASED s).currentState = Replay.STATE_REPLAY ∧
    (Replay.tick idealEEPROM RELEASED s).currentMemBit = 1 ∧
    (Replay.tick idealEEPROM RELEASED s).currentMemLocation = 20 + (j + 1) % 7 ∧
    (Replay.tick idealEEPROM RELEASED s).bus.mem = s.bus.mem ∧
    (Replay.tick idealEEPROM RELEASED s).LEDValue = (if j % 2 = 0 then 255 else 0) ∧
    Replay.ledOn (Replay.tick idealEEPROM RELEASED s) = decide (j % 2 = 0) := by
  obtain ⟨hst, hbit, hloc, hj, hmem⟩ := h
  have hrel : Replay.switchPressed RELEASED = false := by decide
  have hdev : Replay.EEPROM_DEVICE_ADDRESS % 2 = 0 := by decide
  obtain ⟨e1, e2, e3⟩ := replay_tick_ctrl idealEEPROM RELEASED s hst hrel
  obtain ⟨r1, r2, r3⟩ := replay_tick_refill idealEEPROM RELEASED s hst hrel (by omega)
  rw [EEPROM_read_ideal _ _ _ hdev (by omega)] at r1 r2 r3
  simp only [hloc, hmem j hj] at r2 r3
  refine ⟨e1, ?_, ?_, ?_, ?_, ?_⟩
  · rw [e3, hbit]; rfl
  · rw [e2, hbit, hloc]
    have : (20 + j + 1) % 65536 = 20 + j + 1 := by omega
    simp only [this]
    split_ifs <;> omega
  · rw [r1]
  · rw [r2]; split_ifs <;> rfl
  · rw [r3]; split_ifs <;> simp_all

/-- The eight Replay ticks of one byte of the cleared memory: every tick shows
the byte, all ones at an even position and all zeros at an odd one, and the
eighth leaves the cursor before the next byte of the cycle of seven. -/
theorem cleared_byte (s : Replay.Machine Device) (j m : Nat) (h : clearedAt s j) (hm : m < 8) :
    Replay.ledOn (Replay.ticks idealEEPROM (List.replicate (m + 1) RELEASED) s)
      = decide (j % 2 = 0) ∧
    (m = 7 → clearedAt (Replay.ticks idealEEPROM (List.replicate (m + 1) RELEASED) s)
      ((j + 1) % 7)) := by
  obtain ⟨a, b, c, d, e, f⟩ := cleared_first_tick s j h
  obtain ⟨hst, hbit, hloc, hj, hmem⟩ := h
  cases m with
  | zero => exact ⟨f, by omega⟩
  | succ n =>
    have e0 : Replay.ticks idealEEPROM (List.replicate (n + 1 + 1) RELEASED) s
        = Replay.ticks idealEEPROM (List.replicate (n + 1) RELEASED)
            (Replay.tick idealEEPROM RELEASED s) := rfl
    obtain ⟨k1, k2, k3, k4, k5⟩ := replay_keep_run idealEEPROM n
      (Replay.tick idealEEPROM RELEASED s) a (by rw [b]; omega)
    have k6 := replay_keep_run_loc idealEEPROM n
      (Replay.tick idealEEPROM RELEASED s) a (by rw [b]; omega)
    rw [e0]
    refine ⟨?_, ?_⟩
    · rw [k5, e, b]
      have h255 : ∀ t, t < 8 → Nat.testBit 255 t = true := by decide
      by_cases hj2 : j % 2 = 0
      · simp [hj2, h255 (1 + n) (by omega)]
      · simp [hj2]
    · intro h7
      refine ⟨k1, ?_, ?_, Nat.mod_lt _ (by decide), ?_⟩
      · rw [k2, b]; omega
      · rw [k6, c]
      · rw [k4, d]; exact hmem

theorem cleared_run (q : Nat) : ∀ (s : Replay.Machine Device) (j : Nat), clearedAt s j →
    clearedAt (Replay.ticks idealEEPROM (List.replicate (8 * q) RELEASED) s) ((j + q) % 7) := by
  induction q with
  | zero =>
    intro s j h
    have : (j + 0) % 7 = j := by have := h.2.2.2.1; omega
    rw [this]
    exact h
  | succ q ih =>
    intro s j h
    have e : 8 * (q + 1) = (7 + 1) + 8 * q := by omega
    rw [e, List.replicate_add, ticks_append]
    have := ih _ _ ((cleared_byte s j 7 h (by decide)).2 rfl)
    have e2 : ((j + 1) % 7 + q) % 7 = (j + (q + 1)) % 7 := by omega
    rw [e2] at this
    exact this

theorem cleared_start (s : Replay.Machine Device) (hst : s.currentState = Replay.STATE_REPLAY) :
    clearedAt (Replay.clearMemory idealEEPROM s) 0 := by
  obtain ⟨a, b, c⟩ := clearMemory_ctrl idealEEPROM s
  refine ⟨by rw [a, hst], c, b, by decide, ?_⟩
  intro i hi
  rw [clearMemory_ideal]
  interval_cases i <;> simp

/-- C11 fails on the code. After `clearMemory` over the ideal EEPROM, with the
switch released on every tick, the LED output of the k-th Replay tick
(k = 0, 1, 2, ...) is on exactly when (floor(k / 8) mod 7) is even: replay
cycles through the seven bytes at the addresses 20..26, FF 00 FF 00 FF 00 FF,
so the output is on for ticks 48..63 (the seventh byte, then the first again)
and the claimed rule "on exactly when floor(k / 8) is even" fails from tick 56
on. -/
theorem cleared_replay_cycles_through_seven_bytes (s : Replay.Machine Device) (k : Nat)
    (hst : s.currentState = Replay.STATE_REPLAY) :
    Replay.ledOn (Replay.ticks idealEEPROM (List.replicate (k + 1) RELEASED)
        (Replay.clearMemory idealEEPROM s)) = decide (k / 8 % 7 % 2 = 0) := by
  have e : k + 1 = 8 * (k / 8) + (k % 8 + 1) := by omega
  rw [e, List.replicate_add, ticks_append]
  have h := cleared_run (k / 8) _ 0 (cleared_start s hst)
  rw [Nat.zero_add] at h
  exact (cleared_byte _ _ (k % 8) h (Nat.mod_lt _ (by decide))).1

theorem cleared_replay_cycles_through_seven_bytes_witness :
    (powerOn blankDevice).currentState = Replay.STATE_REPLAY ∧
    Replay.ledOn (Replay.ticks idealEEPROM (List.replicate (56 + 1) RELEASED)
        (Replay.clearMemory idealEEPROM (powerOn blankDevice))) = decide (56 / 8 % 7 % 2 = 0) :=
  ⟨rfl, cleared_replay_cycles_through_seven_bytes (powerOn blankDevice) 56 rfl⟩

/-- Evaluation at the first failing tick: floor(56 / 8) = 7 is odd, so C11 puts
the LED off on tick 56, yet the code drives it on there, as on the ticks 48..55
before it: sixteen ticks on in a row across the wrap. -/
theorem cleared_replay_on_at_tick_56 :
    56 / 8 % 2 = 1 ∧
    Replay.ledOn (Replay.ticks idealEEPROM (List.replicate (55 + 1) RELEASED)
        (Replay.clearMemory idealEEPROM (powerOn blankDevice))) = true ∧
    Replay.ledOn (Replay.ticks idealEEPROM (List.replicate (56 + 1) RELEASED)
        (Replay.clearMemory idealEEPROM (powerOn blankDevice))) = true := by
  have h := cleared_run 6 _ 0 (cleared_start (powerOn blankDevice) rfl)
  have h' := cleared_run 7 _ 0 (cleared_start (powerOn blankDevice) rfl)
  refine ⟨by decide, ?_, ?_⟩
  · rw [show 55 + 1 = 8 * 6 + (7 + 1) from rfl, List.replicate_add, ticks_append]
    exact (cleared_byte _ _ 7 h (by decide)).1
  · rw [show 56 + 1 = 8 * 7 + (0 + 1) from rfl, List.replicate_add, ticks_append]
    exact (cleared_byte _ _ 0 h' (by decide)).1

/-! ## C12: the first Replay tick after start-up -/

/-- C12. After the start-up code of `main`, whether or not the switch was held
(so whether or not `clearMemory` ran), and for every bus, the controller is in
Replay with cursor (EEPROM_FIRST_ADDRESS, 8); the first tick with the switch
released then reads the byte at EEPROM_FIRST_ADDRESS, keeps it in LEDValue and
drives the LED to bit 0 of that byte, whatever value l LEDValue held before the
tick. -/
theorem first_tick_reads_first_byte {σ : Type} (hw : TWI σ) (PINB0 PINB l : Nat)
    (s : Replay.Machine σ) (hrel : Replay.switchPressed PINB = false) :
    (Replay.mainStartup hw PINB0 s).currentState = Replay.STATE_REPLAY ∧
    (Replay.mainStartup hw PINB0 s).currentMemLocation = Replay.EEPROM_FIRST_ADDRESS ∧
    (Replay.mainStartup hw PINB0 s).currentMemBit = 8 ∧
    (Replay.tick hw PINB { Replay.mainStartup hw PINB0 s with LEDValue := l }).bus =
      (Replay.EEPROM_read hw Replay.EEPROM_DEVICE_ADDRESS Replay.EEPROM_FIRST_ADDRESS
        (Replay.mainStartup hw PINB0 s).bus).1 ∧
    (Replay.tick hw PINB { Replay.mainStartup hw PINB0 s with LEDValue := l }).LEDValue =
      (Replay.EEPROM_read hw Replay.EEPROM_DEVICE_ADDRESS Replay.EEPROM_FIRST_ADDRESS
        (Replay.mainStartup hw PINB0 s).bus).2 ∧
    Replay.ledOn (Replay.tick hw PINB { Replay.mainStartup hw PINB0 s with LEDValue := l }) =
      (Replay.EEPROM_read hw Replay.EEPROM_DEVICE_ADDRESS Replay.EEPROM_FIRST_ADDRESS
        (Replay.mainStartup hw PINB0 s).bus).2.testBit 0 := by
  obtain ⟨a, b, c⟩ := mainStartup_ctrl hw PINB0 s
  obtain ⟨r1, r2, r3⟩ := replay_tick_refill hw PINB
    { Replay.mainStartup hw PINB0 s with LEDValue := l } a hrel (by show _ > 7; rw [c]; decide)
  refine ⟨a, b, c, ?_, ?_, ?_⟩
  · rw [r1]
    show (Replay.EEPROM_read hw _ (Replay.mainStartup hw PINB0 s).currentMemLocation _).1 = _
    rw [b]
  · rw [r2]
    show (Replay.EEPROM_read hw _ (Replay.mainStartup hw PINB0 s).currentMemLocation _).2 = _
    rw [b]
  · rw [r3]
    show (Replay.EEPROM_read hw _
      (Replay.mainStartup hw PINB0 s).currentMemLocation _).2.testBit 0 = _
    rw [b]

theorem first_tick_reads_first_byte_witness :
    Replay.switchPressed RELEASED = false ∧
    ((Replay.mainStartup idealEEPROM RELEASED (powerOn markedDevice)).currentState
        = Replay.STATE_REPLAY ∧
    (Replay.mainStartup idealEEPROM RELEASED (powerOn markedDevice)).currentMemLocation
        = Replay.EEPROM_FIRST_ADDRESS ∧
    (Replay.mainStartup idealEEPROM RELEASED (powerOn markedDevice)).currentMemBit = 8 ∧
    (Replay.tick idealEEPROM RELEASED
        { Replay.mainStartup idealEEPROM RELEASED (powerOn markedDevice)
          with LEDValue := 0xAA }).bus =
      (Replay.EEPROM_read idealEEPROM Replay.EEPROM_DEVICE_ADDRESS Replay.EEPROM_FIRST_ADDRESS
        (Replay.mainStartup idealEEPROM RELEASED (powerOn markedDevice)).bus).1 ∧
    (Replay.tick idealEEPROM RELEASED
        { Replay.mainStartup idealEEPROM RELEASED (powerOn markedDevice)
          with LEDValue := 0xAA }).LEDValue =
      (Replay.EEPROM_read idealEEPROM Replay.EEPROM_DEVICE_ADDRESS Replay.EEPROM_FIRST_ADDRESS
        (Replay.mainStartup idealEEPROM RELEASED (powerOn markedDevice)).bus).2 ∧
    Replay.ledOn (Replay.tick idealEEPROM RELEASED
        { Replay.mainStartup idealEEPROM RELEASED (powerOn markedDevice)
          with LEDValue := 0xAA }) =
      (Replay.EEPROM_read idealEEPROM Replay.EEPROM_DEVICE_ADDRESS Replay.EEPROM_FIRST_ADDRESS
        (Replay.mainStartup idealEEPROM RELEASED (powerOn markedDevice)).bus).2.testBit 0) :=
  ⟨by decide,
    first_tick_reads_first_byte idealEEPROM RELEASED RELEASED 0xAA (powerOn markedDevice)
      (by decide)⟩

set_option maxRecDepth 1000000 in
/-- Evaluation of the first tick after start-up over the ideal EEPROM holding
0x01 at address 20, the switch not held at power-on: the LED is lit and LEDValue
holds 0x01, whether LEDValue held 0x00 or 0xFE (bit 0 clear) before the tick. -/
theorem first_tick_shows_marked_byte :
    Replay.ledOn (Replay.tick idealEEPROM RELEASED
      { Replay.mainStartup idealEEPROM RELEASED (powerOn markedDevice)
        with LEDValue := 0x00 }) = true ∧
    Replay.ledOn (Replay.tick idealEEPROM RELEASED
      { Replay.mainStartup idealEEPROM RELEASED (powerOn markedDevice)
        with LEDValue := 0xFE }) = true ∧
    (Replay.tick idealEEPROM RELEASED
      { Replay.mainStartup idealEEPROM RELEASED (powerOn markedDevice)
        with LEDValue := 0xFE }).LEDValue = 0x01 := by
  decide

/-! ## C13: the result of `I2C_read` in the Replay program -/

/-- C13. Over a bus that logs every primitive and answers with an arbitrary
status and data byte, `I2C_read(sendAck)` of the Replay program clocks in one
byte, driving the acknowledge bit TWEA exactly when sendAck = 1, and returns the
received byte when the status after the transfer is the expected one
(TW_MR_DATA_ACK for sendAck = 1, TW_MR_DATA_NACK for every other sendAck) and 0
when the status is anything else. -/
theorem replay_read_failure_sentinel (status data : List BusOp → Nat) (log : List BusOp)
    (sendAck : Nat) (hs : sendAck < 256) :
    (Replay.I2C_read (traceBus status data) sendAck log).1
      = log ++ [BusOp.read (if sendAck = 1 then 1 <<< TWEA else 0)] ∧
    (Replay.I2C_read (traceBus status data) sendAck log).2
      = (if status (log ++ [BusOp.read (if sendAck = 1 then 1 <<< TWEA else 0)])
            = (if sendAck = 1 then TW_MR_DATA_ACK else TW_MR_DATA_NACK)
          then data (log ++ [BusOp.read (if sendAck = 1 then 1 <<< TWEA else 0)]) % 256
          else 0) := by
  have h : sendAck % 256 = sendAck := Nat.mod_eq_of_lt hs
  constructor
  · rw [I2C_read_state, h]; rfl
  · simp only [Replay.I2C_read, h, traceBus]
    split_ifs <;> simp_all

theorem replay_read_failure_sentinel_witness :
    (2 : Nat) < 256 ∧
    ((Replay.I2C_read (traceBus (fun _ => TW_MR_DATA_ACK) (fun _ => 0x5A)) 2 []).1
      = [] ++ [BusOp.read (if 2 = 1 then 1 <<< TWEA else 0)] ∧
    (Replay.I2C_read (traceBus (fun _ => TW_MR_DATA_ACK) (fun _ => 0x5A)) 2 []).2
      = (if (fun _ => TW_MR_DATA_ACK) ([] ++ [BusOp.read (if 2 = 1 then 1 <<< TWEA else 0)])
            = (if 2 = 1 then TW_MR_DATA_ACK else TW_MR_DATA_NACK)
          then (fun _ => 0x5A) ([] ++ [BusOp.read (if 2 = 1 then 1 <<< TWEA else 0)]) % 256
          else 0)) :=
  ⟨by decide,
    replay_read_failure_sentinel (fun _ => TW_MR_DATA_ACK) (fun _ => 0x5A) [] 2 (by decide)⟩

/-- Evaluation of `I2C_read` on three transfers of the byte 0x5A: with sendAck = 1
and status TW_MR_DATA_ACK the byte is returned; with sendAck = 0 and status
TW_MR_DATA_NACK the byte is returned; with sendAck = 2 (no acknowledge driven)
and status TW_MR_DATA_ACK the result is 0. -/
theorem replay_read_examples :
    Replay.I2C_read (traceBus (fun _ => TW_MR_DATA_ACK) (fun _ => 0x5A)) 1 []
      = ([BusOp.read 0x40], 0x5A) ∧
    Replay.I2C_read (traceBus (fun _ => TW_MR_DATA_NACK) (fun _ => 0x5A)) 0 []
      = ([BusOp.read 0], 0x5A) ∧
    Replay.I2C_read (traceBus (fun _ => TW_MR_DATA_ACK) (fun _ => 0x5A)) 2 []
      = ([BusOp.read 0], 0) := by
  decide

/-! ## C14: the result of `RTC_Init` -/

/-- The return value of `RTC_Init` over any bus, in terms of the register value
read after the settle delay. -/
theorem RTC_Init_result {σ : Type} (hw : TWI σ) (dev is24Hour isBackupBat : Nat)
    (w : RTC.World σ) :
    (RTC.RTC_Init hw dev is24Hour isBackupBat w).2 =
      (if (RTC.RTC_read hw dev RTC.MCP794_RTCWKDAY
            (RTC.RTC_Init_settle hw dev is24Hour isBackupBat w).bus).2
              &&& (1 <<< RTC.MCP794_OSCRUN) = 0
        then 0 else 1) := by
  simp only [RTC.RTC_Init]
  split_ifs <;> rfl

/-- C14. For every bus, state and is24Hour / isBackupBat argument, `RTC_Init`
returns 0 when bit OSCRUN (bit 5) of the weekday/status register value read
after the settle delay is clear and 1 when it is set.  Over a scripted bus whose
first read yields x and whose second read yields y, the first read is the one
before the delay and the second the one after it, whichever writes the value x
provokes in between: the result is decided by bit 5 of y alone. -/
theorem rtc_init_reports_oscillator_after_settle {σ : Type} (hw : TWI σ)
    (dev is24Hour isBackupBat : Nat) (w : RTC.World σ) (status x y : Nat) (rest : List Nat)
    (log : List BusOp) (v : RTC.World (List Nat × List BusOp))
    (hbus : v.bus = (x :: y :: rest, log)) :
    (RTC.RTC_Init hw dev is24Hour isBackupBat w).2 =
      (if ((RTC.RTC_read hw dev RTC.MCP794_RTCWKDAY
            (RTC.RTC_Init_settle hw dev is24Hour isBackupBat w).bus).2).testBit 5
        then 1 else 0) ∧
    (RTC.RTC_Init (scriptBus status) dev is24Hour isBackupBat v).2
      = (if (y % 256).testBit 5 then 1 else 0) := by
  have hbit : ∀ t : Nat, (t &&& (1 <<< RTC.MCP794_OSCRUN) = 0) ↔ t.testBit 5 = false :=
    fun t => and_bit_eq_zero t 5
  constructor
  · rw [RTC_Init_result]
    by_cases h : ((RTC.RTC_read hw dev RTC.MCP794_RTCWKDAY
        (RTC.RTC_Init_settle hw dev is24Hour isBackupBat w).bus).2).testBit 5 = true
    · have h' := h
      rw [← Bool.not_eq_false, ← hbit] at h'
      rw [if_neg h', if_pos h]
    · have h' := h
      rw [Bool.not_eq_true, ← hbit] at h'
      rw [if_pos h', if_neg h]
  · have e : (RTC.RTC_Init (scriptBus status) dev is24Hour isBackupBat v).2
        = (if (y % 256) &&& (1 <<< RTC.MCP794_OSCRUN) = 0 then 0 else 1) := by
      simp only [RTC.RTC_Init, RTC.RTC_Init_settle, RTC.RTC_read, RTC.RTC_write,
        RTC.I2C_sendStart, RTC.I2C_send, RTC.I2C_read, RTC.I2C_sendStop, scriptBus, hbus]
      split_ifs <;> simp_all
    rw [e]
    by_cases h : (y % 256).testBit 5 = true
    · have h' := h
      rw [← Bool.not_eq_false, ← hbit] at h'
      rw [if_neg h', if_pos h]
    · have h' := h
      rw [Bool.not_eq_true, ← hbit] at h'
      rw [if_pos h', if_neg h]

theorem rtc_init_reports_oscillator_after_settle_witness :
    worldStarting.bus = (0x00 :: 0x20 :: [], []) ∧
    ((RTC.RTC_Init (scriptBus TW_NO_INFO) RTC.RTC_ADDRESS 1 1 worldStarting).2 =
      (if ((RTC.RTC_read (scriptBus TW_NO_INFO) RTC.RTC_ADDRESS RTC.MCP794_RTCWKDAY
            (RTC.RTC_Init_settle (scriptBus TW_NO_INFO) RTC.RTC_ADDRESS 1 1
              worldStarting).bus).2).testBit 5
        then 1 else 0) ∧
    (RTC.RTC_Init (scriptBus TW_MT_DATA_ACK) RTC.RTC_ADDRESS 1 1 worldStarting).2
      = (if (0x20 % 256).testBit 5 then 1 else 0)) :=
  ⟨rfl,
    rtc_init_reports_oscillator_after_settle (scriptBus TW_NO_INFO) RTC.RTC_ADDRESS 1 1
      worldStarting TW_MT_DATA_ACK 0x00 0x20 [] [] worldStarting rfl⟩

set_option maxRecDepth 1000000 in
/-- Evaluation of `RTC_Init` over scripted buses: a first read of 0x00 followed by
0x20 (the oscillator started) gives 1; a first read of 0x20 followed by 0x00 (the
oscillator was running and is found stopped) gives 0. -/
theorem rtc_init_examples :
    (RTC.RTC_Init (scriptBus TW_MT_DATA_ACK) RTC.RTC_ADDRESS 1 1 worldStarting).2 = 1 ∧
    (RTC.RTC_Init (scriptBus TW_MT_DATA_ACK) RTC.RTC_ADDRESS 1 1
      { worldStarting with bus := ([0x20, 0x00], []) }).2 = 0 := by
  decide

/-! ## C15: the return value of `RTC_SetTime` -/

/-- Over the ideal register file every bus step of `RTC_SetTime` is acknowledged
and the value returned is the status of the last byte sent. -/
theorem RTC_SetTime_status_ideal (dev year month day weekday hour pm minute second : Nat)
    (w : RTC.World Device) (hdev : dev % 2 = 0) :
    (RTC.RTC_SetTime idealRTC dev year month day weekday hour pm minute second w).2
      = TW_MT_DATA_ACK := by
  simp only [RTC.RTC_SetTime]
  simp only [RTC.MCP794_RTCSEC, RTC.MCP794_RTCMIN, RTC.MCP794_RTCHOUR, RTC.MCP794_RTCDATE,
    RTC.MCP794_RTCMTH, RTC.MCP794_RTCYEAR, RTC.MCP794_ST]
  simp only [rtc_start_ideal]
  rw [sendField_ideal _ _ _ _ hdev (by decide) rfl]
  rfl

/-- C15 fails on the code. Over the ideal register file at RTC_ADDRESS, where
every start, address byte and data byte of `RTC_SetTime` completes with its
acknowledged status, the function returns the bus status of its last data byte,
TW_MT_DATA_ACK = 0x28 = 40, for every argument and state: it never returns the
documented success code 1. -/
theorem settime_returns_bus_status_not_one
    (year month day weekday hour pm minute second : Nat) (w : RTC.World Device) :
    (RTC.RTC_SetTime idealRTC RTC.RTC_ADDRESS year month day weekday hour pm minute second w).2
      = 0x28 ∧
    (RTC.RTC_SetTime idealRTC RTC.RTC_ADDRESS year month day weekday hour pm minute second w).2
      ≠ 1 := by
  have h := RTC_SetTime_status_ideal RTC.RTC_ADDRESS year month day weekday hour pm minute
    second w (by decide)
  rw [h]
  exact ⟨rfl, by decide⟩

/-! ## C16: the bit rate computed by `I2C_init` -/

set_option maxRecDepth 1000000 in
/-- C16 fails on the code. With F_CPU = 16 MHz (prescaler 4) `I2C_init(100)`
stores 153 in TWBR, not the exact value 18: `I2C_kHz * 1000` = 100000 does not
fit the 16-bit variable I2C_Hz (it keeps 34464) and `I2C_Hz * 2 * I2C_PRESCALER`
is reduced modulo 2^16 again.  By the quoted formula TWBR = 18 gives 100 kHz and
TWBR = 153 gives 12903 Hz.  No k in 1..7 has an exact value that fits 8 bits;
every k in 8..255 has one, and among these the stored value equals the exact one
only for k = 8. -/
theorem i2c_init_100_stores_153 :
    (∀ TWSR : Nat, (Replay.I2C_init 16000000 (RTC.I2C_PRESCALER 16000000)
        (RTC.I2C_PRESCALER_BIT 16000000) 100 TWSR).2 = 153) ∧
    exactBitRate 16000000 (RTC.I2C_PRESCALER 16000000) 100 = 18 ∧
    busClock 16000000 (RTC.I2C_PRESCALER 16000000) 18 = 100000 ∧
    busClock 16000000 (RTC.I2C_PRESCALER 16000000) 153 = 12903 ∧
    (∀ k, 1 ≤ k → k < 8 → ¬ exactBitRate 16000000 (RTC.I2C_PRESCALER 16000000) k < 256) ∧
    (∀ k, 8 ≤ k → k < 256 →
      exactBitRate 16000000 (RTC.I2C_PRESCALER 16000000) k < 256 ∧
      ((Replay.I2C_init 16000000 (RTC.I2C_PRESCALER 16000000)
          (RTC.I2C_PRESCALER_BIT 16000000) k 0).2
        = exactBitRate 16000000 (RTC.I2C_PRESCALER 16000000) k ↔ k = 8)) := by
  refine ⟨fun _ => rfl, by decide, by decide, by decide, by decide, ?_⟩
  decide

/-! ## C17: one state-machine step per drained tick flag -/

theorem mainSwitch_isrFlag {σ : Type} (hw : TWI σ) (PINB : Nat) (s : Replay.Machine σ) :
    (Replay.mainSwitch hw PINB s).isrFlag = s.isrFlag := by
  simp only [Replay.mainSwitch, Replay.caseStartRec, Replay.caseStopRec, Replay.replay1Bit,
    Replay.record1Bit, Replay.flashLED]
  split_ifs <;> rfl

theorem ISR_iterate {σ : Type} (n : Nat) (s : Replay.Machine σ) :
    Nat.iterate Replay.ISR (n + 1) s = Replay.ISR s := by
  induction n with
  | zero => rfl
  | succ n ih =>
    rw [Function.iterate_succ_apply', ih]
    rfl

/-- C17. The interrupt handler sets isrFlag to 1 and changes no other field, so
n >= 1 interrupts in a row leave the state of one interrupt.  The main-loop poll
that follows runs the state-machine switch once, on the state with the flag
cleared, and leaves the flag clear, so a second poll without a new interrupt
changes nothing; a poll that finds the flag different from 1 changes nothing. -/
theorem tick_flag_coalesces {σ : Type} (hw : TWI σ) (PINB PINB2 : Nat) (s : Replay.Machine σ)
    (n : Nat) (hn : 1 ≤ n) :
    Replay.ISR s = { s with isrFlag := 1 } ∧
    Nat.iterate Replay.ISR n s = Replay.ISR s ∧
    Replay.mainLoopBody hw PINB (Nat.iterate Replay.ISR n s)
      = Replay.mainSwitch hw PINB { s with isrFlag := 0 } ∧
    (Replay.mainLoopBody hw PINB (Nat.iterate Replay.ISR n s)).isrFlag = 0 ∧
    Replay.mainLoopBody hw PINB2 (Replay.mainLoopBody hw PINB (Nat.iterate Replay.ISR n s))
      = Replay.mainLoopBody hw PINB (Nat.iterate Replay.ISR n s) ∧
    (s.isrFlag ≠ 1 → Replay.mainLoopBody hw PINB s = s) := by
  obtain ⟨m, rfl⟩ : ∃ m, n = m + 1 := ⟨n - 1, by omega⟩
  have h1 : Replay.mainLoopBody hw PINB (Replay.ISR s)
      = Replay.mainSwitch hw PINB { s with isrFlag := 0 } := by
    simp [Replay.mainLoopBody, Replay.ISR]
  have h2 : (Replay.mainLoopBody hw PINB (Replay.ISR s)).isrFlag = 0 := by
    rw [h1, mainSwitch_isrFlag]
  rw [ISR_iterate]
  refine ⟨rfl, rfl, h1, h2, ?_, ?_⟩
  · generalize Replay.mainLoopBody hw PINB (Replay.ISR s) = t at h2
    simp [Replay.mainLoopBody, h2]
  · intro h
    simp [Replay.mainLoopBody, h]

theorem tick_flag_coalesces_witness :
    1 ≤ 3 ∧
    (Replay.ISR (powerOn markedDevice) = { powerOn markedDevice with isrFlag := 1 } ∧
    Nat.iterate Replay.ISR 3 (powerOn markedDevice) = Replay.ISR (powerOn markedDevice) ∧
    Replay.mainLoopBody idealEEPROM RELEASED (Nat.iterate Replay.ISR 3 (powerOn markedDevice))
      = Replay.mainSwitch idealEEPROM RELEASED { powerOn markedDevice with isrFlag := 0 } ∧
    (Replay.mainLoopBody idealEEPROM RELEASED
      (Nat.iterate Replay.ISR 3 (powerOn markedDevice))).isrFlag = 0 ∧
    Replay.mainLoopBody idealEEPROM PRESSED (Replay.mainLoopBody idealEEPROM RELEASED
        (Nat.iterate Replay.ISR 3 (powerOn markedDevice)))
      = Replay.mainLoopBody idealEEPROM RELEASED
          (Nat.iterate Replay.ISR 3 (powerOn markedDevice)) ∧
    ((powerOn markedDevice).isrFlag ≠ 1 →
      Replay.mainLoopBody idealEEPROM RELEASED (powerOn markedDevice) = powerOn markedDevice)) :=
  ⟨by decide,
    tick_flag_coalesces idealEEPROM RELEASED PRESSED (powerOn markedDevice) 3 (by decide)⟩

set_option maxRecDepth 1000000 in
/-- Evaluation of three interrupts before one poll, from the power-on state over
the EEPROM holding 0x01 at address 20: the poll runs one Replay step (bit cursor
1, the byte at address 20 in LEDValue, LED lit) and a second poll changes none
of these. -/
theorem three_interrupts_one_step :
    (Replay.mainLoopBody idealEEPROM RELEASED
      (Nat.iterate Replay.ISR 3 (powerOn markedDevice))).currentMemBit = 1 ∧
    (Replay.mainLoopBody idealEEPROM RELEASED
      (Nat.iterate Replay.ISR 3 (powerOn markedDevice))).LEDValue = 1 ∧
    (Replay.mainLoopBody idealEEPROM RELEASED (Replay.mainLoopBody idealEEPROM RELEASED
      (Nat.iterate Replay.ISR 3 (powerOn markedDevice)))).currentMemBit = 1 := by
  decide

/-! ## C18: decimal printing -/

/-- One pass of the digit loop that stores a character. -/
theorem loop_emit (pad i : Nat) (nt : List Nat) (wn wd dn : Nat)
    (h : dn > 0 ∨ wn / wd % 256 > 0 ∨ i + 1 < pad) :
    RTC.printDecimalLoop pad (i + 1) ⟨nt, wn, wd, dn⟩ =
      RTC.printDecimalLoop pad i
        ⟨nt.set dn ((wn / wd % 256 + 48) % 256), wn % wd, wd / 10, (dn + 1) % 256⟩ := by
  have hc : (wn / wd % 256 = 0 ∧ dn > 0) ∨ wn / wd % 256 > 0 ∨ i + 1 < pad := by omega
  simp only [RTC.printDecimalLoop, hc, if_true]

/-- One pass of the digit loop that skips a leading zero. -/
theorem loop_skip (pad i : Nat) (nt : List Nat) (wn wd dn : Nat)
    (h : dn = 0 ∧ wn / wd % 256 = 0 ∧ ¬ i + 1 < pad) :
    RTC.printDecimalLoop pad (i + 1) ⟨nt, wn, wd, dn⟩ =
      RTC.printDecimalLoop pad i ⟨nt, wn % wd, wd / 10, dn⟩ := by
  have hc : ¬ ((wn / wd % 256 = 0 ∧ dn > 0) ∨ wn / wd % 256 > 0 ∨ i + 1 < pad) := by omega
  simp only [RTC.printDecimalLoop, hc, if_false]

theorem loop_done (pad : Nat) (v : RTC.PrintVars) : RTC.printDecimalLoop pad 0 v = v := rfl

/-- Writing a character array sends the characters before its first NUL. -/
theorem writeString_chars (cs : List Nat) (rest : List Nat) :
    ∀ uart : List Nat, (∀ c ∈ cs, c ≠ 0 ∧ c < 256) →
      RTC.UART_writeString (cs ++ 0 :: rest) uart = uart ++ cs := by
  induction cs with
  | nil => intro uart _; simp [RTC.UART_writeString]
  | cons c cs ih =>
    intro uart h
    have hc := h c (List.mem_cons_self _ _)
    show RTC.UART_writeString (c :: (cs ++ 0 :: rest)) uart = _
    rw [RTC.UART_writeString]
    simp only [hc.1, if_false, RTC.UART_writeChar, Nat.mod_eq_of_lt hc.2]
    rw [ih _ (fun d hd => h d (List.mem_cons_of_mem _ hd))]
    simp

theorem char_d4 (n : Nat) (h : n < 65536) : (n / 10000 % 256 + 48) % 256 = n / 10000 + 48 := by
  omega

theorem char_d3 (n : Nat) : (n % 10000 / 1000 % 256 + 48) % 256 = n / 1000 % 10 + 48 := by omega

theorem char_d2 (n : Nat) : (n % 10000 % 1000 / 100 % 256 + 48) % 256 = n / 100 % 10 + 48 := by
  omega

theorem char_d1 (n : Nat) :
    (n % 10000 % 1000 % 100 / 10 % 256 + 48) % 256 = n / 10 % 10 + 48 := by omega

theorem char_d0 (n : Nat) :
    (n % 10000 % 1000 % 100 % 10 % 10 + 48) % 256 = n % 10 + 48 := by omega

theorem print_five (n pad : Nat) (uart : List Nat) (hn : n < 65536) (hp : pad ≤ 5)
    (hf : 10000 ≤ n ∨ pad = 5) :
    RTC.UART_printDecimal n pad uart =
      uart ++ [n / 10000 + 48, n / 1000 % 10 + 48, n / 100 % 10 + 48, n / 10 % 10 + 48,
        n % 10 + 48] := by
  have hp' : pad % 256 = pad := by omega
  have hn' : n % 65536 = n := by omega
  simp only [RTC.UART_printDecimal, hp', hn']
  rw [show (4 : Nat) = 3 + 1 from rfl, loop_emit _ _ _ _ _ _ (by omega)]
  simp only [Nat.reduceDiv, Nat.reduceAdd, Nat.reduceMod]
  rw [show (3 : Nat) = 2 + 1 from rfl, loop_emit _ _ _ _ _ _ (by omega)]
  simp only [Nat.reduceDiv, Nat.reduceAdd, Nat.reduceMod]
  rw [show (2 : Nat) = 1 + 1 from rfl, loop_emit _ _ _ _ _ _ (by omega)]
  simp only [Nat.reduceDiv, Nat.reduceAdd, Nat.reduceMod]
  rw [show (1 : Nat) = 0 + 1 from rfl, loop_emit _ _ _ _ _ _ (by omega)]
  simp only [Nat.reduceDiv, Nat.reduceAdd, Nat.reduceMod, loop_done, List.set_cons_zero,
    List.set_cons_succ]
  rw [char_d4 n hn, char_d3, char_d2, char_d1, char_d0]
  exact writeString_chars [n / 10000 + 48, n / 1000 % 10 + 48, n / 100 % 10 + 48, n / 10 % 10 + 48,
    n % 10 + 48] [] uart (by intro c hc; simp at hc; omega)

theorem print_four (n pad : Nat) (uart : List Nat) (hn : n < 10000) (hp : pad ≤ 4)
    (hf : 1000 ≤ n ∨ pad = 4) :
    RTC.UART_printDecimal n pad uart =
      uart ++ [n / 1000 % 10 + 48, n / 100 % 10 + 48, n / 10 % 10 + 48, n % 10 + 48] := by
  have hp' : pad % 256 = pad := by omega
  have hn' : n % 65536 = n := by omega
  simp only [RTC.UART_printDecimal, hp', hn']
  rw [show (4 : Nat) = 3 + 1 from rfl, loop_skip _ _ _ _ _ _ ⟨rfl, by omega, by omega⟩]
  simp only [Nat.reduceDiv]
  rw [show (3 : Nat) = 2 + 1 from rfl, loop_emit _ _ _ _ _ _ (by omega)]
  simp only [Nat.reduceDiv, Nat.reduceAdd, Nat.reduceMod]
  rw [show (2 : Nat) = 1 + 1 from rfl, loop_emit _ _ _ _ _ _ (by omega)]
  simp only [Nat.reduceDiv, Nat.reduceAdd, Nat.reduceMod]
  rw [show (1 : Nat) = 0 + 1 from rfl, loop_emit _ _ _ _ _ _ (by omega)]
  simp only [Nat.reduceDiv, Nat.reduceAdd, Nat.reduceMod, loop_done, List.set_cons_zero,
    List.set_cons_succ]
  rw [char_d3, char_d2, char_d1, char_d0]
  exact writeString_chars [n / 1000 % 10 + 48, n / 100 % 10 + 48, n / 10 % 10 + 48, n % 10 + 48] [0] uart (by intro c hc; simp at hc; omega)

theorem print_three (n pad : Nat) (uart : List Nat) (hn : n < 1000) (hp : pad ≤ 3)
    (hf : 100 ≤ n ∨ pad = 3) :
    RTC.UART_printDecimal n pad uart = uart ++ [n / 100 % 10 + 48, n / 10 % 10 + 48, n % 10 + 48] := by
  have hp' : pad % 256 = pad := by omega
  have hn' : n % 65536 = n := by omega
  simp only [RTC.UART_printDecimal, hp', hn']
  rw [show (4 : Nat) = 3 + 1 from rfl, loop_skip _ _ _ _ _ _ ⟨rfl, by omega, by omega⟩]
  simp only [Nat.reduceDiv]
  rw [show (3 : Nat) = 2 + 1 from rfl, loop_skip _ _ _ _ _ _ ⟨rfl, by omega, by omega⟩]
  simp only [Nat.reduceDiv]
  rw [show (2 : Nat) = 1 + 1 from rfl, loop_emit _ _ _ _ _ _ (by omega)]
  simp only [Nat.reduceDiv, Nat.reduceAdd, Nat.reduceMod]
  rw [show (1 : Nat) = 0 + 1 from rfl, loop_emit _ _ _ _ _ _ (by omega)]
  simp only [Nat.reduceDiv, Nat.reduceAdd, Nat.reduceMod, loop_done, List.set_cons_zero,
    List.set_cons_succ]
  rw [char_d2, char_d1, char_d0]
  exact writeString_chars [n / 100 % 10 + 48, n / 10 % 10 + 48, n % 10 + 48] [0, 0] uart (by intro c hc; simp at hc; omega)

theorem print_two (n pad : Nat) (uart : List Nat) (hn : n < 100) (hp : pad ≤ 2)
    (hf : 10 ≤ n ∨ pad = 2) :
    RTC.UART_printDecimal n pad uart = uart ++ [n / 10 % 10 + 48, n % 10 + 48] := by
  have hp' : pad % 256 = pad := by omega
  have hn' : n % 65536 = n := by omega
  simp only [RTC.UART_printDecimal, hp', hn']
  rw [show (4 : Nat) = 3 + 1 from rfl, loop_skip _ _ _ _ _ _ ⟨rfl, by omega, by omega⟩]
  simp only [Nat.reduceDiv]
  rw [show (3 : Nat) = 2 + 1 from rfl, loop_skip _ _ _ _ _ _ ⟨rfl, by omega, by omega⟩]
  simp only [Nat.reduceDiv]
  rw [show (2 : Nat) = 1 + 1 from rfl, loop_skip _ _ _ _ _ _ ⟨rfl, by omega, by omega⟩]
  simp only [Nat.reduceDiv]
  rw [show (1 : Nat) = 0 + 1 from rfl, loop_emit _ _ _ _ _ _ (by omega)]
  simp only [Nat.reduceDiv, Nat.reduceAdd, Nat.reduceMod, loop_done, List.set_cons_zero,
    List.set_cons_succ]
  rw [char_d1, char_d0]
  exact writeString_chars [n / 10 % 10 + 48, n % 10 + 48] [0, 0, 0] uart (by intro c hc; simp at hc; omega)

theorem print_one (n pad : Nat) (uart : List Nat) (hn : n < 10) (hp : pad ≤ 1) :
    RTC.UART_printDecimal n pad uart = uart ++ [n % 10 + 48] := by
  have hp' : pad % 256 = pad := by omega
  have hn' : n % 65536 = n := by omega
  simp only [RTC.UART_printDecimal, hp', hn']
  rw [show (4 : Nat) = 3 + 1 from rfl, loop_skip _ _ _ _ _ _ ⟨rfl, by omega, by omega⟩]
  simp only [Nat.reduceDiv]
  rw [show (3 : Nat) = 2 + 1 from rfl, loop_skip _ _ _ _ _ _ ⟨rfl, by omega, by omega⟩]
  simp only [Nat.reduceDiv]
  rw [show (2 : Nat) = 1 + 1 from rfl, loop_skip _ _ _ _ _ _ ⟨rfl, by omega, by omega⟩]
  simp only [Nat.reduceDiv]
  rw [show (1 : Nat) = 0 + 1 from rfl, loop_skip _ _ _ _ _ _ ⟨rfl, by omega, by omega⟩]
  simp only [Nat.reduceDiv, loop_done, List.set_cons_zero]
  rw [char_d0]
  exact writeString_chars [n % 10 + 48] [0, 0, 0, 0] uart (by intro c hc; simp at hc; omega)

theorem decimalDigits_zero : decimalDigits 0 = [0] := rfl

theorem decimalDigits_one (n : Nat) (h : 1 ≤ n) (h' : n < 10) : decimalDigits n = [n % 10] := by
  have hn0 : n ≠ 0 := by omega
  have e : n % 10 = n := by omega
  simp only [decimalDigits, hn0, if_false, Nat.digits_of_lt 10 n hn0 h', e, List.reverse_singleton]

theorem digits_step (n : Nat) (h : 0 < n) : Nat.digits 10 n = (n % 10) :: Nat.digits 10 (n / 10) :=
  Nat.digits_def' (by decide) h

theorem decimalDigits_step (n : Nat) (h : 10 ≤ n) :
    decimalDigits n = decimalDigits (n / 10) ++ [n % 10] := by
  have hn0 : n ≠ 0 := by omega
  have hq0 : n / 10 ≠ 0 := by omega
  simp only [decimalDigits, hn0, hq0, if_false, digits_step n (by omega), List.reverse_cons]

theorem decimalDigits_two (n : Nat) (h : 10 ≤ n) (h' : n < 100) :
    decimalDigits n = [n / 10 % 10, n % 10] := by
  rw [decimalDigits_step n h, decimalDigits_one (n / 10) (by omega) (by omega)]
  rfl

theorem decimalDigits_three (n : Nat) (h : 100 ≤ n) (h' : n < 1000) :
    decimalDigits n = [n / 100 % 10, n / 10 % 10, n % 10] := by
  rw [decimalDigits_step n (by omega), decimalDigits_two (n / 10) (by omega) (by omega)]
  have e : n / 10 / 10 = n / 100 := by omega
  simp [e]

theorem decimalDigits_four (n : Nat) (h : 1000 ≤ n) (h' : n < 10000) :
    decimalDigits n = [n / 1000 % 10, n / 100 % 10, n / 10 % 10, n % 10] := by
  rw [decimalDigits_step n (by omega), decimalDigits_three (n / 10) (by omega) (by omega)]
  have e : n / 10 / 100 = n / 1000 := by omega
  have e' : n / 10 / 10 = n / 100 := by omega
  simp [e, e']

theorem decimalDigits_five (n : Nat) (h : 10000 ≤ n) (h' : n < 100000) :
    decimalDigits n = [n / 10000 % 10, n / 1000 % 10, n / 100 % 10, n / 10 % 10, n % 10] := by
  rw [decimalDigits_step n (by omega), decimalDigits_four (n / 10) (by omega) (by omega)]
  have e : n / 10 / 1000 = n / 10000 := by omega
  have e' : n / 10 / 100 = n / 1000 := by omega
  have e3 : n / 10 / 10 = n / 100 := by omega
  simp [e, e', e3]

/-- The text written by `UART_printDecimal` for a 16-bit value and a pad length
of at most 5. -/
theorem printDecimal_padded (n pad : Nat) (uart : List Nat) (hn : n < 65536) (hp : pad ≤ 5) :
    RTC.UART_printDecimal n pad uart = uart ++ paddedDecimal n pad := by
  have hcase : n = 0 ∨ (1 ≤ n ∧ n < 10) ∨ (10 ≤ n ∧ n < 100) ∨ (100 ≤ n ∧ n < 1000) ∨
      (1000 ≤ n ∧ n < 10000) ∨ (10000 ≤ n ∧ n < 100000) := by omega
  have hl : ∀ l : List Nat, uart ++ l = uart ++ paddedDecimal n pad ↔ l = paddedDecimal n pad :=
    fun l => List.append_right_inj uart
  rcases hcase with h | ⟨h, h'⟩ | ⟨h, h'⟩ | ⟨h, h'⟩ | ⟨h, h'⟩ | ⟨h, h'⟩
  · subst h
    interval_cases pad
    · rw [print_one 0 _ uart (by omega) (by omega)]; rfl
    · rw [print_one 0 _ uart (by omega) (by omega)]; rfl
    · rw [print_two 0 _ uart (by omega) (by omega) (by omega)]; rfl
    · rw [print_three 0 _ uart (by omega) (by omega) (by omega)]; rfl
    · rw [print_four 0 _ uart (by omega) (by omega) (by omega)]; rfl
    · rw [print_five 0 _ uart (by omega) (by omega) (by omega)]; rfl
  · interval_cases pad <;>
    ( first
      | rw [print_one n _ uart (by omega) (by omega)]
      | rw [print_two n _ uart (by omega) (by omega) (by omega)]
      | rw [print_three n _ uart (by omega) (by omega) (by omega)]
      | rw [print_four n _ uart (by omega) (by omega) (by omega)]
      | rw [print_five n _ uart (by omega) (by omega) (by omega)]
      simp [paddedDecimal, decimalDigits_one n h h', List.replicate]
      try omega)
  · interval_cases pad <;>
    ( first
      | rw [print_one n _ uart (by omega) (by omega)]
      | rw [print_two n _ uart (by omega) (by omega) (by omega)]
      | rw [print_three n _ uart (by omega) (by omega) (by omega)]
      | rw [print_four n _ uart (by omega) (by omega) (by omega)]
      | rw [print_five n _ uart (by omega) (by omega) (by omega)]
      simp [paddedDecimal, decimalDigits_two n h h', List.replicate]
      try omega)
  · interval_cases pad <;>
    ( first
      | rw [print_one n _ uart (by omega) (by omega)]
      | rw [print_two n _ uart (by omega) (by omega) (by omega)]
      | rw [print_three n _ uart (by omega) (by omega) (by omega)]
      | rw [print_four n _ uart (by omega) (by omega) (by omega)]
      | rw [print_five n _ uart (by omega) (by omega) (by omega)]
      simp [paddedDecimal, decimalDigits_three n h h', List.replicate]
      try omega)
  · interval_cases pad <;>
    ( first
      | rw [print_one n _ uart (by omega) (by omega)]
      | rw [print_two n _ uart (by omega) (by omega) (by omega)]
      | rw [print_three n _ uart (by omega) (by omega) (by omega)]
      | rw [print_four n _ uart (by omega) (by omega) (by omega)]
      | rw [print_five n _ uart (by omega) (by omega) (by omega)]
      simp [paddedDecimal, decimalDigits_four n h h', List.replicate]
      try omega)
  · interval_cases pad <;>
    ( first
      | rw [print_one n _ uart (by omega) (by omega)]
      | rw [print_two n _ uart (by omega) (by omega) (by omega)]
      | rw [print_three n _ uart (by omega) (by omega) (by omega)]
      | rw [print_four n _ uart (by omega) (by omega) (by omega)]
      | rw [print_five n _ uart (by omega) (by omega) (by omega)]
      simp [paddedDecimal, decimalDigits_five n h h', List.replicate]
      try omega)

theorem paddedDecimal_length (n pad : Nat) :
    (paddedDecimal n pad).length = max pad (decimalDigits n).length := by
  simp only [paddedDecimal, List.length_map, List.length_append, List.length_replicate]
  omega

/-- C18. For every 16-bit value n and every padDigits in 0..5,
`UART_printDecimal(n, padDigits)` appends to the UART output exactly the ASCII
decimal digits of n, left-padded with the character 0 to a total length of
max(padDigits, number of decimal digits of n); with padDigits = 0 the text is the
digits of n alone, and 0 prints as the single digit 0. -/
theorem printDecimal_writes_padded_decimal (n padDigits : Nat) (uart : List Nat)
    (hn : n < 65536) (hp : padDigits ≤ 5) :
    RTC.UART_printDecimal n padDigits uart = uart ++ paddedDecimal n padDigits ∧
    (paddedDecimal n padDigits).length = max padDigits (decimalDigits n).length ∧
    RTC.UART_printDecimal n 0 uart = uart ++ (decimalDigits n).map (· + 48) ∧
    RTC.UART_printDecimal 0 0 uart = uart ++ [48] := by
  refine ⟨printDecimal_padded n padDigits uart hn hp, paddedDecimal_length n padDigits, ?_, ?_⟩
  · rw [printDecimal_padded n 0 uart hn (by omega)]
    simp [paddedDecimal]
  · rw [printDecimal_padded 0 0 uart (by omega) (by omega)]
    rfl

theorem printDecimal_writes_padded_decimal_witness :
    (5 < 65536 ∧ 2 ≤ 5) ∧
    (RTC.UART_printDecimal 5 2 [] = [] ++ paddedDecimal 5 2 ∧
    (paddedDecimal 5 2).length = max 2 (decimalDigits 5).length ∧
    RTC.UART_printDecimal 5 0 [] = [] ++ (decimalDigits 5).map (· + 48) ∧
    RTC.UART_printDecimal 0 0 [] = [] ++ [48]) :=
  ⟨by decide, printDecimal_writes_padded_decimal 5 2 [] (by decide) (by decide)⟩

/-- Evaluation on the values of the time display: `UART_printDecimal(5, 2)` writes
the two characters 05, `UART_printDecimal(5, 0)` the character 5,
`UART_printDecimal(0, 0)` the character 0, `UART_printDecimal(65535, 5)` the five
characters 65535, `UART_printDecimal(307, 2)` the three characters 307. -/
theorem printDecimal_examples :
    RTC.UART_printDecimal 5 2 [] = [48, 53] ∧
    RTC.UART_printDecimal 5 0 [] = [53] ∧
    RTC.UART_printDecimal 0 0 [] = [48] ∧
    RTC.UART_printDecimal 65535 5 [] = [54, 53, 53, 51, 53] ∧
    RTC.UART_printDecimal 307 2 [] = [51, 48, 55] := by
  decide

/-! ## C19: packing and unpacking of the samples -/

/-- The bus after one Recording tick: the accumulated byte is written when the
bit cursor leaves the byte, nothing is sent otherwise. -/
theorem record_tick_bus {σ : Type} (hw : TWI σ) (PINB : Nat) (s : Replay.Machine σ)
    (hst : s.currentState = Replay.STATE_RECORDING) :
    (Replay.tick hw PINB s).bus =
      (if (s.currentMemBit + 1) % 256 > 7 then
        (Replay.EEPROM_write hw Replay.EEPROM_DEVICE_ADDRESS s.currentMemLocation
          (sampleInto s.currentMemBit s.LEDValue PINB) s.bus).1
      else s.bus) := by
  rw [tick_eq]
  simp only [Replay.mainSwitch, hst, Replay.STATE_RECORDING, Replay.STATE_REPLAY,
    Replay.STATE_START_REC, Replay.record1Bit, sampleInto]
  norm_num
  split_ifs <;> simp_all

/-- Recording ticks that stay inside one byte send nothing and keep the address. -/
theorem record_keep_run {σ : Type} (hw : TWI σ) (ps : List Nat) :
    ∀ (s : Replay.Machine σ), s.currentState = Replay.STATE_RECORDING →
      s.currentMemBit + ps.length ≤ 7 →
      (Replay.ticks hw ps s).currentState = Replay.STATE_RECORDING ∧
      (Replay.ticks hw ps s).currentMemBit = s.currentMemBit + ps.length ∧
      (Replay.ticks hw ps s).currentMemLocation = s.currentMemLocation ∧
      (Replay.ticks hw ps s).bus = s.bus := by
  induction ps with
  | nil => intro s hst _; exact ⟨hst, rfl, rfl, rfl⟩
  | cons p rest ih =>
    intro s hst hlen
    simp only [List.length_cons] at hlen
    obtain ⟨e1, e2, e3⟩ := record_tick_ctrl hw p s hst
    have e4 := record_tick_bus hw p s hst
    have hb : ¬ (s.currentMemBit + 1) % 256 > 7 := by omega
    simp only [hb, false_and, if_false] at e1 e2 e3 e4
    have hbit : (Replay.tick hw p s).currentMemBit = s.currentMemBit + 1 := by
      rw [e3]; omega
    obtain ⟨a, b, c, d⟩ := ih (Replay.tick hw p s) e1 (by rw [hbit]; omega)
    simp only [Replay.ticks, List.length_cons]
    refine ⟨a, ?_, ?_, ?_⟩
    · rw [b, hbit]; omega
    · rw [c, e2]
    · rw [d, e4]

set_option maxRecDepth 100000 in
theorem sample_byte_sum : ∀ b0 b1 b2 b3 b4 b5 b6 b7 : Bool,
    sampleBit 7 (sampleBit 6 (sampleBit 5 (sampleBit 4 (sampleBit 3 (sampleBit 2
        (sampleBit 1 (sampleBit 0 0 b0) b1) b2) b3) b4) b5) b6) b7
      = bitSum [b0, b1, b2, b3, b4, b5, b6, b7] := by
  decide

/-- The byte accumulated from eight samples, the first at bit cursor 0, is the
sum of the samples weighted by 2^i, whatever the accumulator held before. -/
theorem pack_byte_sum (p0 p1 p2 p3 p4 p5 p6 p7 l : Nat) :
    packFrom 0 l [p0, p1, p2, p3, p4, p5, p6, p7]
      = bitSum ([p0, p1, p2, p3, p4, p5, p6, p7].map Replay.switchPressed) := by
  simp only [packFrom, sampleInto_eq, Nat.zero_add, Nat.reduceAdd]
  rw [sampleBit_zero]
  exact sample_byte_sum _ _ _ _ _ _ _ _

/-- The byte written by eight Recording ticks that start at bit cursor 0. -/
theorem record_byte_written {σ : Type} (hw : TWI σ) (p0 p1 p2 p3 p4 p5 p6 p7 : Nat)
    (s : Replay.Machine σ) (hst : s.currentState = Replay.STATE_RECORDING)
    (hbit : s.currentMemBit = 0) :
    (Replay.ticks hw [p0, p1, p2, p3, p4, p5, p6, p7] s).bus =
      (Replay.EEPROM_write hw Replay.EEPROM_DEVICE_ADDRESS s.currentMemLocation
        (bitSum ([p0, p1, p2, p3, p4, p5, p6, p7].map Replay.switchPressed)) s.bus).1 := by
  obtain ⟨a, b, c, d⟩ := record_keep_run hw [p0, p1, p2, p3, p4, p5, p6] s hst
    (by rw [hbit]; simp)
  have hl := record_byte_run hw [p0, p1, p2, p3, p4, p5, p6] s hst (by rw [hbit]; simp)
  have e : Replay.ticks hw [p0, p1, p2, p3, p4, p5, p6, p7] s
      = Replay.tick hw p7 (Replay.ticks hw [p0, p1, p2, p3, p4, p5, p6] s) := rfl
  rw [e, record_tick_bus hw p7 _ a, b, c, d, hl, hbit]
  rw [← pack_byte_sum p0 p1 p2 p3 p4 p5 p6 p7 s.LEDValue]
  rfl

/-- C19. For every bus: eight consecutive Recording ticks that start at bit
cursor 0 with inputs p_0..p_7 send nothing but one `EEPROM_write`, at the current
address, of the byte sum of b_i * 2^i, where b_i tells whether the switch was
pressed at tick i; the byte does not depend on the accumulator LEDValue before
the first tick.  The m-th of the eight Replay ticks that start with a refill
(m = 0..7) drives the LED to bit m of the byte read.  Bits 0..7 of the packed
byte are the eight samples in tick order. -/
theorem sample_packing_lsb_first {σ : Type} (hw : TWI σ) (p0 p1 p2 p3 p4 p5 p6 p7 : Nat)
    (s r : Replay.Machine σ) (m : Nat) (hst : s.currentState = Replay.STATE_RECORDING)
    (hbit : s.currentMemBit = 0) (hr : r.currentState = Replay.STATE_REPLAY)
    (hrb : r.currentMemBit > 7) (hm : m < 8) :
    (Replay.ticks hw [p0, p1, p2, p3, p4, p5, p6, p7] s).bus =
      (Replay.EEPROM_write hw Replay.EEPROM_DEVICE_ADDRESS s.currentMemLocation
        (bitSum ([p0, p1, p2, p3, p4, p5, p6, p7].map Replay.switchPressed)) s.bus).1 ∧
    Replay.ledOn (Replay.ticks hw (List.replicate (m + 1) RELEASED) r) =
      (Replay.EEPROM_read hw Replay.EEPROM_DEVICE_ADDRESS r.currentMemLocation
        r.bus).2.testBit m ∧
    (List.range 8).map
        (fun k => (bitSum ([p0, p1, p2, p3, p4, p5, p6, p7].map Replay.switchPressed)).testBit k)
      = [p0, p1, p2, p3, p4, p5, p6, p7].map Replay.switchPressed := by
  refine ⟨record_byte_written hw p0 p1 p2 p3 p4 p5 p6 p7 s hst hbit,
    replay_byte_shown hw r m hr hrb hm, ?_⟩
  rw [← pack_byte_sum p0 p1 p2 p3 p4 p5 p6 p7 0]
  exact pack_byte_bits p0 p1 p2 p3 p4 p5 p6 p7 0

theorem sample_packing_lsb_first_witness :
    (recordingStart.currentState = Replay.STATE_RECORDING ∧
      recordingStart.currentMemBit = 0 ∧
      (powerOn markedDevice).currentState = Replay.STATE_REPLAY ∧
      (powerOn markedDevice).currentMemBit > 7 ∧ 3 < 8) ∧
    ((Replay.ticks idealEEPROM
        [PRESSED, RELEASED, RELEASED, PRESSED, PRESSED, RELEASED, PRESSED, RELEASED]
        recordingStart).bus =
      (Replay.EEPROM_write idealEEPROM Replay.EEPROM_DEVICE_ADDRESS
        recordingStart.currentMemLocation
        (bitSum ([PRESSED, RELEASED, RELEASED, PRESSED, PRESSED, RELEASED, PRESSED,
          RELEASED].map Replay.switchPressed)) recordingStart.bus).1 ∧
    Replay.ledOn (Replay.ticks idealEEPROM (List.replicate (3 + 1) RELEASED)
        (powerOn markedDevice)) =
      (Replay.EEPROM_read idealEEPROM Replay.EEPROM_DEVICE_ADDRESS
        (powerOn markedDevice).currentMemLocation (powerOn markedDevice).bus).2.testBit 3 ∧
    (List.range 8).map
        (fun k => (bitSum ([PRESSED, RELEASED, RELEASED, PRESSED, PRESSED, RELEASED, PRESSED,
          RELEASED].map Replay.switchPressed)).testBit k)
      = [PRESSED, RELEASED, RELEASED, PRESSED, PRESSED, RELEASED, PRESSED,
          RELEASED].map Replay.switchPressed) :=
  ⟨by decide,
    sample_packing_lsb_first idealEEPROM PRESSED RELEASED RELEASED PRESSED PRESSED RELEASED
      PRESSED RELEASED recordingStart (powerOn markedDevice) 3 rfl rfl rfl (by decide)
      (by decide)⟩

set_option maxRecDepth 1000000 in
/-- Evaluation of one recorded byte over the ideal EEPROM: the samples pressed,
released, released, pressed, pressed, released, pressed, released (ticks 0..7)
sum to 1 + 8 + 16 + 64 = 0x59, and that byte stands at address 20 after the
eighth tick, also when the accumulator held 0xFF before the first. -/
theorem recorded_byte_example :
    bitSum ([PRESSED, RELEASED, RELEASED, PRESSED, PRESSED, RELEASED, PRESSED,
      RELEASED].map Replay.switchPressed) = 0x59 ∧
    (Replay.ticks idealEEPROM
      [PRESSED, RELEASED, RELEASED, PRESSED, PRESSED, RELEASED, PRESSED, RELEASED]
      recordingStart).bus.mem 20 = 0x59 ∧
    (Replay.ticks idealEEPROM
      [PRESSED, RELEASED, RELEASED, PRESSED, PRESSED, RELEASED, PRESSED, RELEASED]
      { recordingStart with LEDValue := 0xFF }).bus.mem 20 = 0x59 := by
  decide

/-! ## C20: the hour byte in 12-hour mode -/

/-- The primitives `RTC_SetTime` asks of the bus, in order. -/
theorem RTC_SetTime_log (status data : List BusOp → Nat) (log : List BusOp)
    (dev year month day weekday hour pm minute second : Nat) (w : RTC.World (List BusOp))
    (hlog : w.bus = log) (hh : hour < 256) :
    (RTC.RTC_SetTime (traceBus status data) dev year month day weekday hour pm minute second
        w).1.bus =
      log ++ [BusOp.start, BusOp.send ((dev ||| TW_WRITE) % 256), BusOp.send RTC.MCP794_RTCSEC,
        BusOp.send 0, BusOp.stop,
        BusOp.start, BusOp.send ((dev ||| TW_WRITE) % 256), BusOp.send RTC.MCP794_RTCYEAR,
        BusOp.send (RTC.decToBcd (year % 100) % 256),
        BusOp.start, BusOp.send ((dev ||| TW_WRITE) % 256), BusOp.send RTC.MCP794_RTCMTH,
        BusOp.send (RTC.decToBcd month % 256),
        BusOp.start, BusOp.send ((dev ||| TW_WRITE) % 256), BusOp.send RTC.MCP794_RTCDATE,
        BusOp.send (RTC.decToBcd day % 256),
        BusOp.start, BusOp.send ((dev ||| TW_WRITE) % 256), BusOp.send RTC.MCP794_RTCHOUR,
        BusOp.send (if w.setting24Hour ≠ 0 then RTC.decToBcd hour % 256 else
          (RTC.decToBcd (if hour > 12 then hour - 12 else year % 100) |||
            (1 <<< RTC.MCP794_12_24) ||| (pm <<< RTC.MCP794_AM_PM)) % 256),
        BusOp.start, BusOp.send ((dev ||| TW_WRITE) % 256), BusOp.send RTC.MCP794_RTCMIN,
        BusOp.send (RTC.decToBcd minute % 256),
        BusOp.start, BusOp.send ((dev ||| TW_WRITE) % 256), BusOp.send RTC.MCP794_RTCSEC,
        BusOp.send ((RTC.decToBcd second ||| (1 <<< RTC.MCP794_ST)) % 256),
        BusOp.stop] := by
  have hy : (if year > 99 then year % 100 % 256 else year % 256) = year % 100 := by
    split_ifs <;> omega
  have h12 : (if hour > 12 then (hour - 12) % 256 else year % 100)
      = (if hour > 12 then hour - 12 else year % 100) := by
    split_ifs <;> omega
  simp only [RTC.RTC_SetTime, hy, h12, RTC.RTC_write, RTC.sendField, RTC.I2C_sendStart,
    RTC.I2C_send, RTC.I2C_sendStop, traceBus, hlog]
  simp [RTC.MCP794_RTCSEC, RTC.MCP794_RTCMIN, RTC.MCP794_RTCHOUR, RTC.MCP794_RTCDATE,
    RTC.MCP794_RTCMTH, RTC.MCP794_RTCYEAR]
  split_ifs <;> simp

/-- C20 fails on the code. In 12-hour mode (setting24Hour = 0), over a bus that
logs every primitive, the 20th and 21st primitives of `RTC_SetTime` are the send
of the register address MCP794_RTCHOUR and the send of its value.  For an hour
above 12 the value is decToBcd(hour - 12) | 0x40 | (isHourPM << 5), as claimed.
For an hour of 12 or less the value is decToBcd(year mod 100) | 0x40 |
(isHourPM << 5): the variable sendData still holds the year, the hour argument
is not used at all. -/
theorem settime_12h_hour_byte_holds_year (status data : List BusOp → Nat) (log : List BusOp)
    (dev year month day weekday hour pm minute second : Nat) (w : RTC.World (List BusOp))
    (h12 : w.setting24Hour = 0) (hlog : w.bus = log) (hh : hour < 256) :
    (RTC.RTC_SetTime (traceBus status data) dev year month day weekday hour pm minute second
        w).1.bus.get? (log.length + 19) = some (BusOp.send RTC.MCP794_RTCHOUR) ∧
    (RTC.RTC_SetTime (traceBus status data) dev year month day weekday hour pm minute second
        w).1.bus.get? (log.length + 20) =
      some (BusOp.send
        ((RTC.decToBcd (if hour > 12 then hour - 12 else year % 100) ||| 0x40 |||
          (pm <<< 5)) % 256)) := by
  rw [RTC_SetTime_log status data log dev year month day weekday hour pm minute second w hlog hh]
  constructor
  · rw [List.get?_eq_getElem?, List.getElem?_append_right (by omega), Nat.add_sub_cancel_left]
    rfl
  · rw [List.get?_eq_getElem?, List.getElem?_append_right (by omega), Nat.add_sub_cancel_left]
    simp [h12, RTC.MCP794_12_24, RTC.MCP794_AM_PM]

theorem settime_12h_hour_byte_holds_year_witness :
    (world12.setting24Hour = 0 ∧ world12.bus = [] ∧ 11 < 256) ∧
    ((RTC.RTC_SetTime (traceBus (fun _ => TW_MT_DATA_ACK) (fun _ => 0)) RTC.RTC_ADDRESS
        15 12 31 5 11 0 59 15 world12).1.bus.get? (([] : List BusOp).length + 19)
      = some (BusOp.send RTC.MCP794_RTCHOUR) ∧
    (RTC.RTC_SetTime (traceBus (fun _ => TW_MT_DATA_ACK) (fun _ => 0)) RTC.RTC_ADDRESS
        15 12 31 5 11 0 59 15 world12).1.bus.get? (([] : List BusOp).length + 20) =
      some (BusOp.send
        ((RTC.decToBcd (if 11 > 12 then 11 - 12 else 15 % 100) ||| 0x40 ||| (0 <<< 5)) % 256))) :=
  ⟨by decide,
    settime_12h_hour_byte_holds_year (fun _ => TW_MT_DATA_ACK) (fun _ => 0) [] RTC.RTC_ADDRESS
      15 12 31 5 11 0 59 15 world12 rfl rfl (by decide)⟩

set_option maxRecDepth 1000000 in
/-- Evaluation in 12-hour mode for 11 o'clock AM in the year 15: the value sent
for the hour register is 0x55 (BCD 15 with the 12-hour bit), not decToBcd(11) |
0x40 = 0x51; with the year 11 instead the two agree. -/
theorem settime_12h_eleven_am_sends_year :
    (RTC.RTC_SetTime (traceBus (fun _ => TW_MT_DATA_ACK) (fun _ => 0)) RTC.RTC_ADDRESS
        15 12 31 5 11 0 59 15 world12).1.bus.get? 20 = some (BusOp.send 0x55) ∧
    (RTC.decToBcd 11 ||| 0x40 ||| (0 <<< 5)) % 256 = 0x51 ∧
    (RTC.RTC_SetTime (traceBus (fun _ => TW_MT_DATA_ACK) (fun _ => 0)) RTC.RTC_ADDRESS
        11 12 31 5 11 0 59 15 world12).1.bus.get? 20 = some (BusOp.send 0x51) := by
  decide

/-! ## C21: decoding of the hour register -/

theorem and_bit6 (x : Nat) : (x &&& (1 <<< RTC.MCP794_12_24) ≠ 0) ↔ x.testBit 6 = true := by
  have h := and_bit_eq_zero x 6
  have e : (1 <<< RTC.MCP794_12_24) = 1 <<< 6 := rfl
  rw [e]
  constructor
  · intro hne
    by_contra hb
    exact hne (h.mpr (by simpa using hb))
  · intro hb hz
    rw [h.mp hz] at hb
    exact Bool.noConfusion hb

/-- C21 fails on the code. Over a scripted bus whose fourth read (the hour
register) yields the byte hb, `RTC_GetTime` sets getHour to
bcdToDec(hb & 0x1F) when bit 6 of hb is set and to bcdToDec(hb & 0x3F)
otherwise, as claimed, and isHourPM to 0 when bit 6 is clear.  When bit 6 is
set, isHourPM is hb & 5: the bit number MCP794_AM_PM is used as the mask, so
the value is taken from bits 0 and 2 of the hour digit and not from the AM/PM
bit (bit 5). -/
theorem gettime_pm_flag_taken_from_hour_digit (status y mo d hb mi se : Nat) (rest : List Nat)
    (log : List BusOp) (dev : Nat) (t : RTC.TimeVars) (w : RTC.World (List Nat × List BusOp))
    (hbus : w.bus = (y :: mo :: d :: hb :: mi :: se :: rest, log)) (hb8 : hb < 256) :
    (RTC.RTC_GetTime (scriptBus status) dev t w).2.1.getHour =
      (if hb.testBit 6 then RTC.bcdToDec (hb &&& 0x1F) else RTC.bcdToDec (hb &&& 0x3F)) ∧
    (RTC.RTC_GetTime (scriptBus status) dev t w).2.1.isHourPM =
      (if hb.testBit 6 then hb &&& 5 else 0) := by
  have hb' : hb % 256 = hb := Nat.mod_eq_of_lt hb8
  have h6 := and_bit6 hb
  simp only [RTC.RTC_GetTime, RTC.readField, RTC.I2C_sendStart, RTC.I2C_send, RTC.I2C_read,
    RTC.I2C_sendStop, scriptBus, hbus, List.tail_cons, List.headD_cons, hb']
  by_cases hbit : hb.testBit 6 = true
  · have hne := h6.mpr hbit
    simp [hne, hbit, RTC.MCP794_MASK_12Hour, RTC.MCP794_AM_PM]
  · have hne : ¬ (hb &&& (1 <<< RTC.MCP794_12_24) ≠ 0) := fun h => hbit (h6.mp h)
    simp [hne, hbit, RTC.MCP794_MASK_24Hour]

theorem gettime_pm_flag_taken_from_hour_digit_witness :
    ((worldReading 0x15 0x12 0x31 0x62 0x59 0x15).bus
        = (0x15 :: 0x12 :: 0x31 :: 0x62 :: 0x59 :: 0x15 :: [], []) ∧ 0x62 < 256) ∧
    ((RTC.RTC_GetTime (scriptBus TW_MR_DATA_NACK) RTC.RTC_ADDRESS noTime
        (worldReading 0x15 0x12 0x31 0x62 0x59 0x15)).2.1.getHour =
      (if (0x62).testBit 6 then RTC.bcdToDec (0x62 &&& 0x1F) else RTC.bcdToDec (0x62 &&& 0x3F)) ∧
    (RTC.RTC_GetTime (scriptBus TW_MR_DATA_NACK) RTC.RTC_ADDRESS noTime
        (worldReading 0x15 0x12 0x31 0x62 0x59 0x15)).2.1.isHourPM =
      (if (0x62).testBit 6 then 0x62 &&& 5 else 0)) :=
  ⟨⟨rfl, by decide⟩,
    gettime_pm_flag_taken_from_hour_digit TW_MR_DATA_NACK 0x15 0x12 0x31 0x62 0x59 0x15 [] []
      RTC.RTC_ADDRESS noTime (worldReading 0x15 0x12 0x31 0x62 0x59 0x15) rfl (by decide)⟩

set_option maxRecDepth 1000000 in
/-- Evaluation of the hour decoding on two hour bytes in 12-hour format.  0x62
(2 o'clock, AM/PM bit set) gives getHour = 2 and isHourPM = 0; 0x41 (1 o'clock,
AM/PM bit clear) gives isHourPM = 1. -/
theorem gettime_two_pm_reads_as_am :
    (0x62).testBit 6 = true ∧ (0x62).testBit 5 = true ∧
    (RTC.RTC_GetTime (scriptBus TW_MR_DATA_NACK) RTC.RTC_ADDRESS noTime
      (worldReading 0x15 0x12 0x31 0x62 0x59 0x15)).2.1.getHour = 2 ∧
    (RTC.RTC_GetTime (scriptBus TW_MR_DATA_NACK) RTC.RTC_ADDRESS noTime
      (worldReading 0x15 0x12 0x31 0x62 0x59 0x15)).2.1.isHourPM = 0 ∧
    (0x41).testBit 6 = true ∧ (0x41).testBit 5 = false ∧
    (RTC.RTC_GetTime (scriptBus TW_MR_DATA_NACK) RTC.RTC_ADDRESS noTime
      (worldReading 0x15 0x12 0x31 0x41 0x59 0x15)).2.1.isHourPM = 1 := by
  decide

/-! ## C22, C23: the writes of `RTC_Init` -/

set_option maxRecDepth 100000 in
theorem or_eight_and_32 : ∀ x : Nat, x < 256 → (x ||| 8) &&& 32 = x &&& 32 := by
  decide

set_option maxRecDepth 100000 in
theorem and_f7_and_32 : ∀ x : Nat, x < 256 → (x &&& 0xF7) &&& 32 = x &&& 32 := by
  decide

set_option maxRecDepth 100000 in
theorem and_eight_ne_one : ∀ x : Nat, x < 256 → x &&& 8 ≠ 1 := by
  decide

set_option maxRecDepth 100000 in
theorem battery_bit_change : ∀ x : Nat, x < 256 →
    (x ||| 8) ^^^ x = 8 - (x &&& 8) ∧ (x &&& 0xF7) ^^^ x = x &&& 8 := by
  decide

/-- The primitives `RTC_Init` asks of a scripted bus before the settle delay,
x being the byte the first read yields: the read of the weekday/status register,
its rewrite when the comparison `(tempVar & (1<<MCP794_VBATEN)) != isBackupBat`
holds, and the writes of the control and seconds registers when bit OSCRUN of
x is clear. -/
theorem RTC_Init_settle_log (status x : Nat) (pending : List Nat) (log : List BusOp)
    (dev is24Hour isBackupBat : Nat) (w : RTC.World (List Nat × List BusOp))
    (hbus : w.bus = (x :: pending, log)) (hx : x < 256) :
    (RTC.RTC_Init_settle (scriptBus status) dev is24Hour isBackupBat w).bus =
      (pending,
        log ++ [BusOp.start, BusOp.send ((dev ||| TW_WRITE) % 256),
            BusOp.send RTC.MCP794_RTCWKDAY, BusOp.start, BusOp.send ((dev ||| TW_READ) % 256),
            BusOp.read 0, BusOp.stop]
          ++ (if x &&& 8 ≠ isBackupBat then
                [BusOp.start, BusOp.send ((dev ||| TW_WRITE) % 256),
                  BusOp.send RTC.MCP794_RTCWKDAY,
                  BusOp.send (if isBackupBat = 0 then x &&& 0xF7 else x ||| 8), BusOp.stop]
              else [])
          ++ (if x &&& 32 = 0 then
                [BusOp.start, BusOp.send ((dev ||| TW_WRITE) % 256),
                  BusOp.send RTC.MCP794_CONTROL, BusOp.send 0, BusOp.stop,
                  BusOp.start, BusOp.send ((dev ||| TW_WRITE) % 256),
                  BusOp.send RTC.MCP794_RTCSEC, BusOp.send 0x8A, BusOp.stop]
              else [])) := by
  have hx' : x % 256 = x := Nat.mod_eq_of_lt hx
  have h1 : (x ||| 8) % 256 = x ||| 8 := by
    apply Nat.mod_eq_of_lt
    exact Nat.or_lt_two_pow (n := 8) hx (by decide)
  have h2 : (x &&& 0xF7) % 256 = x &&& 0xF7 := by
    apply Nat.mod_eq_of_lt
    exact lt_of_le_of_lt Nat.and_le_left hx
  have h3 : (x ||| 8) &&& 32 = x &&& 32 := or_eight_and_32 x hx
  have h4 : (x &&& 0xF7) &&& 32 = x &&& 32 := and_f7_and_32 x hx
  simp only [RTC.RTC_Init_settle, RTC.RTC_read, RTC.RTC_write, RTC.I2C_sendStart, RTC.I2C_send,
    RTC.I2C_read, RTC.I2C_sendStop, scriptBus, hbus]
  simp [RTC.MCP794_VBATEN, RTC.MCP794_OSCRUN, RTC.MCP794_ST, RTC.MCP794_RTCWKDAY,
    RTC.MCP794_CONTROL, RTC.MCP794_RTCSEC, hx', h1, h2]
  split_ifs <;> simp_all

/-- C22 fails on the code. Over a scripted bus whose first read yields the
byte x, the primitives of `RTC_Init` before the settle delay are the read of
the weekday/status register, then a write of that register exactly when
x & 8 differs from isBackupBat as a number, then the oscillator start writes
when bit 5 of x is clear.  For isBackupBat = 0 the register is written exactly
when bit 3 of x is set, as claimed.  For isBackupBat = 1 the masked value x & 8
is 0 or 8 and never equals 1, so the register is written on every call, also
when bit 3 of x is already set.  The value written differs from x in bit 3 at
most: x | 8 when enabling, x & 0xF7 when disabling. -/
theorem rtc_init_always_rewrites_when_battery_requested (status x : Nat) (pending : List Nat)
    (log : List BusOp) (dev is24Hour isBackupBat : Nat) (w : RTC.World (List Nat × List BusOp))
    (hbus : w.bus = (x :: pending, log)) (hx : x < 256) :
    (RTC.RTC_Init_settle (scriptBus status) dev is24Hour isBackupBat w).bus.2 =
      log ++ [BusOp.start, BusOp.send ((dev ||| TW_WRITE) % 256),
          BusOp.send RTC.MCP794_RTCWKDAY, BusOp.start, BusOp.send ((dev ||| TW_READ) % 256),
          BusOp.read 0, BusOp.stop]
        ++ (if x &&& 8 ≠ isBackupBat then
              [BusOp.start, BusOp.send ((dev ||| TW_WRITE) % 256),
                BusOp.send RTC.MCP794_RTCWKDAY,
                BusOp.send (if isBackupBat = 0 then x &&& 0xF7 else x ||| 8), BusOp.stop]
            else [])
        ++ (if x &&& 32 = 0 then
              [BusOp.start, BusOp.send ((dev ||| TW_WRITE) % 256),
                BusOp.send RTC.MCP794_CONTROL, BusOp.send 0, BusOp.stop,
                BusOp.start, BusOp.send ((dev ||| TW_WRITE) % 256),
                BusOp.send RTC.MCP794_RTCSEC, BusOp.send 0x8A, BusOp.stop]
            else []) ∧
    (isBackupBat = 1 → x &&& 8 ≠ isBackupBat) ∧
    (isBackupBat = 0 → (x &&& 8 ≠ isBackupBat ↔ x.testBit 3 = true)) ∧
    (x ||| 8) ^^^ x = 8 - (x &&& 8) ∧ (x &&& 0xF7) ^^^ x = x &&& 8 := by
  rw [RTC_Init_settle_log status x pending log dev is24Hour isBackupBat w hbus hx]
  refine ⟨rfl, ?_, ?_, (battery_bit_change x hx).1, (battery_bit_change x hx).2⟩
  · intro h
    rw [h]
    exact and_eight_ne_one x hx
  · intro h
    rw [h]
    have hz := and_bit_eq_zero x 3
    constructor
    · intro hne
      by_contra hb
      exact hne (hz.mpr (by simpa using hb))
    · intro hb hzero
      rw [hz.mp hzero] at hb
      exact Bool.noConfusion hb

theorem rtc_init_always_rewrites_when_battery_requested_witness :
    (worldRunning.bus = (0x28 :: [0x28], []) ∧ 0x28 < 256) ∧
    ((RTC.RTC_Init_settle (scriptBus TW_MT_DATA_ACK) RTC.RTC_ADDRESS 1 1 worldRunning).bus.2 =
      [] ++ [BusOp.start, BusOp.send ((RTC.RTC_ADDRESS ||| TW_WRITE) % 256),
          BusOp.send RTC.MCP794_RTCWKDAY, BusOp.start,
          BusOp.send ((RTC.RTC_ADDRESS ||| TW_READ) % 256),
          BusOp.read 0, BusOp.stop]
        ++ (if 0x28 &&& 8 ≠ 1 then
              [BusOp.start, BusOp.send ((RTC.RTC_ADDRESS ||| TW_WRITE) % 256),
                BusOp.send RTC.MCP794_RTCWKDAY,
                BusOp.send (if 1 = 0 then 0x28 &&& 0xF7 else 0x28 ||| 8), BusOp.stop]
            else [])
        ++ (if 0x28 &&& 32 = 0 then
              [BusOp.start, BusOp.send ((RTC.RTC_ADDRESS ||| TW_WRITE) % 256),
                BusOp.send RTC.MCP794_CONTROL, BusOp.send 0, BusOp.stop,
                BusOp.start, BusOp.send ((RTC.RTC_ADDRESS ||| TW_WRITE) % 256),
                BusOp.send RTC.MCP794_RTCSEC, BusOp.send 0x8A, BusOp.stop]
            else []) ∧
    (1 = 1 → 0x28 &&& 8 ≠ 1) ∧
    (1 = 0 → (0x28 &&& 8 ≠ 1 ↔ (0x28).testBit 3 = true)) ∧
    (0x28 ||| 8) ^^^ 0x28 = 8 - (0x28 &&& 8) ∧ (0x28 &&& 0xF7) ^^^ 0x28 = 0x28 &&& 8) :=
  ⟨⟨rfl, by decide⟩,
    rtc_init_always_rewrites_when_battery_requested TW_MT_DATA_ACK 0x28 [0x28] []
      RTC.RTC_ADDRESS 1 1 worldRunning rfl (by decide)⟩

set_option maxRecDepth 1000000 in
/-- Evaluation of `RTC_Init(RTC_ADDRESS, 1, 1)`, the call of `main`, on a device
whose status register reads 0x28 (oscillator running, backup battery enabled):
bit 3 of the value read agrees with the request, yet the register is written,
with the value 0x28 it already holds. -/
theorem rtc_init_rewrites_enabled_battery_bit :
    (0x28).testBit 3 = true ∧
    (RTC.RTC_Init_settle (scriptBus TW_MT_DATA_ACK) RTC.RTC_ADDRESS 1 1 worldRunning).bus.2 =
      [BusOp.start, BusOp.send 0xDE, BusOp.send 0x03, BusOp.start, BusOp.send 0xDF,
        BusOp.read 0, BusOp.stop,
        BusOp.start, BusOp.send 0xDE, BusOp.send 0x03, BusOp.send 0x28, BusOp.stop] := by
  decide

/-- C23 fails on the code. Over a scripted bus whose first read yields the
byte x: when bit OSCRUN (bit 5) of x is set, the primitives of `RTC_Init` before
the settle delay end with the read of the status register and the optional
rewrite of it, and nothing is sent to the seconds register; when the bit is
clear they go on with a write of 0 to the control register and a write to the
seconds register of the byte 10 | (1<<MCP794_ST) = 0x8A.  That is the binary
number 10 with the start bit, not the BCD encoding of 10 with the start bit,
decToBcd(10) | 0x80 = 0x90. -/
theorem rtc_init_start_command_is_binary_ten (status x : Nat) (pending : List Nat)
    (log : List BusOp) (dev is24Hour isBackupBat : Nat) (w : RTC.World (List Nat × List BusOp))
    (hbus : w.bus = (x :: pending, log)) (hx : x < 256) :
    (x &&& (1 <<< RTC.MCP794_OSCRUN) ≠ 0 →
      (RTC.RTC_Init_settle (scriptBus status) dev is24Hour isBackupBat w).bus.2 =
        log ++ [BusOp.start, BusOp.send ((dev ||| TW_WRITE) % 256),
            BusOp.send RTC.MCP794_RTCWKDAY, BusOp.start, BusOp.send ((dev ||| TW_READ) % 256),
            BusOp.read 0, BusOp.stop]
          ++ (if x &&& 8 ≠ isBackupBat then
                [BusOp.start, BusOp.send ((dev ||| TW_WRITE) % 256),
                  BusOp.send RTC.MCP794_RTCWKDAY,
                  BusOp.send (if isBackupBat = 0 then x &&& 0xF7 else x ||| 8), BusOp.stop]
              else [])) ∧
    (x &&& (1 <<< RTC.MCP794_OSCRUN) = 0 →
      (RTC.RTC_Init_settle (scriptBus status) dev is24Hour isBackupBat w).bus.2 =
        log ++ [BusOp.start, BusOp.send ((dev ||| TW_WRITE) % 256),
            BusOp.send RTC.MCP794_RTCWKDAY, BusOp.start, BusOp.send ((dev ||| TW_READ) % 256),
            BusOp.read 0, BusOp.stop]
          ++ (if x &&& 8 ≠ isBackupBat then
                [BusOp.start, BusOp.send ((dev ||| TW_WRITE) % 256),
                  BusOp.send RTC.MCP794_RTCWKDAY,
                  BusOp.send (if isBackupBat = 0 then x &&& 0xF7 else x ||| 8), BusOp.stop]
              else [])
          ++ [BusOp.start, BusOp.send ((dev ||| TW_WRITE) % 256),
              BusOp.send RTC.MCP794_CONTROL, BusOp.send 0, BusOp.stop,
              BusOp.start, BusOp.send ((dev ||| TW_WRITE) % 256),
              BusOp.send RTC.MCP794_RTCSEC, BusOp.send (10 ||| (1 <<< RTC.MCP794_ST)),
              BusOp.stop]) ∧
    10 ||| (1 <<< RTC.MCP794_ST) = 0x8A ∧
    RTC.decToBcd 10 ||| 0x80 = 0x90 := by
  have e : (1 <<< RTC.MCP794_OSCRUN) = 32 := rfl
  rw [RTC_Init_settle_log status x pending log dev is24Hour isBackupBat w hbus hx, e]
  refine ⟨?_, ?_, by decide, by decide⟩
  · intro h
    simp only [h, if_false, List.append_nil]
  · intro h
    simp only [h, if_true]
    rfl

theorem rtc_init_start_command_is_binary_ten_witness :
    (worldStarting.bus = (0x00 :: [0x20], []) ∧ 0x00 < 256) ∧
    ((0x00 &&& (1 <<< RTC.MCP794_OSCRUN) ≠ 0 →
      (RTC.RTC_Init_settle (scriptBus TW_MT_DATA_ACK) RTC.RTC_ADDRESS 1 1 worldStarting).bus.2 =
        [] ++ [BusOp.start, BusOp.send ((RTC.RTC_ADDRESS ||| TW_WRITE) % 256),
            BusOp.send RTC.MCP794_RTCWKDAY, BusOp.start,
            BusOp.send ((RTC.RTC_ADDRESS ||| TW_READ) % 256),
            BusOp.read 0, BusOp.stop]
          ++ (if 0x00 &&& 8 ≠ 1 then
                [BusOp.start, BusOp.send ((RTC.RTC_ADDRESS ||| TW_WRITE) % 256),
                  BusOp.send RTC.MCP794_RTCWKDAY,
                  BusOp.send (if 1 = 0 then 0x00 &&& 0xF7 else 0x00 ||| 8), BusOp.stop]
              else [])) ∧
    (0x00 &&& (1 <<< RTC.MCP794_OSCRUN) = 0 →
      (RTC.RTC_Init_settle (scriptBus TW_MT_DATA_ACK) RTC.RTC_ADDRESS 1 1 worldStarting).bus.2 =
        [] ++ [BusOp.start, BusOp.send ((RTC.RTC_ADDRESS ||| TW_WRITE) % 256),
            BusOp.send RTC.MCP794_RTCWKDAY, BusOp.start,
            BusOp.send ((RTC.RTC_ADDRESS ||| TW_READ) % 256),
            BusOp.read 0, BusOp.stop]
          ++ (if 0x00 &&& 8 ≠ 1 then
                [BusOp.start, BusOp.send ((RTC.RTC_ADDRESS ||| TW_WRITE) % 256),
                  BusOp.send RTC.MCP794_RTCWKDAY,
                  BusOp.send (if 1 = 0 then 0x00 &&& 0xF7 else 0x00 ||| 8), BusOp.stop]
              else [])
          ++ [BusOp.start, BusOp.send ((RTC.RTC_ADDRESS ||| TW_WRITE) % 256),
              BusOp.send RTC.MCP794_CONTROL, BusOp.send 0, BusOp.stop,
              BusOp.start, BusOp.send ((RTC.RTC_ADDRESS ||| TW_WRITE) % 256),
              BusOp.send RTC.MCP794_RTCSEC, BusOp.send (10 ||| (1 <<< RTC.MCP794_ST)),
              BusOp.stop]) ∧
    10 ||| (1 <<< RTC.MCP794_ST) = 0x8A ∧
    RTC.decToBcd 10 ||| 0x80 = 0x90) :=
  ⟨⟨rfl, by decide⟩,
    rtc_init_start_command_is_binary_ten TW_MT_DATA_ACK 0x00 [0x20] [] RTC.RTC_ADDRESS 1 1
      worldStarting rfl (by decide)⟩

set_option maxRecDepth 1000000 in
/-- Evaluation of `RTC_Init(RTC_ADDRESS, 1, 1)` on a device whose status register
first reads 0x00 (oscillator stopped): the last primitives before the settle
delay write the byte 0x8A to the seconds register (register 0x00). -/
theorem rtc_init_sends_0x8A_to_seconds :
    (RTC.RTC_Init_settle (scriptBus TW_MT_DATA_ACK) RTC.RTC_ADDRESS 1 1 worldStarting).bus.2 =
      [BusOp.start, BusOp.send 0xDE, BusOp.send 0x03, BusOp.start, BusOp.send 0xDF,
        BusOp.read 0, BusOp.stop,
        BusOp.start, BusOp.send 0xDE, BusOp.send 0x03, BusOp.send 0x08, BusOp.stop,
        BusOp.start, BusOp.send 0xDE, BusOp.send 0x07, BusOp.send 0x00, BusOp.stop,
        BusOp.start, BusOp.send 0xDE, BusOp.send 0x00, BusOp.send 0x8A, BusOp.stop] ∧
    RTC.decToBcd 10 ||| 0x80 = 0x90 := by
  decide

/-! ## The cursor invariant of the controller -/

/-- A tick in Replay with the switch pressed: the fall-through into the start of
a recording. -/
theorem press_tick {σ : Type} (hw : TWI σ) (PINB : Nat) (s : Replay.Machine σ)
    (hst : s.currentState = Replay.STATE_REPLAY) (hp : Replay.switchPressed PINB = true) :
    (Replay.tick hw PINB s).currentState = Replay.STATE_RECORDING ∧
    (Replay.tick hw PINB s).currentMemLocation = Replay.EEPROM_FIRST_ADDRESS ∧
    (Replay.tick hw PINB s).currentMemBit = 0 ∧
    (Replay.tick hw PINB s).bus = s.bus := by
  have h : PINB &&& (1 <<< Replay.PIN_SWITCH) = 0 := by
    simpa [Replay.switchPressed] using hp
  rw [tick_eq]
  simp [Replay.mainSwitch, hst, h, Replay.caseStartRec, Replay.flashLED]

/-- A tick outside Replay and Recording leaves the bus alone. -/
theorem idle_tick {σ : Type} (hw : TWI σ) (PINB : Nat) (s : Replay.Machine σ)
    (h0 : s.currentState ≠ Replay.STATE_REPLAY) (h2 : s.currentState ≠ Replay.STATE_RECORDING) :
    (Replay.tick hw PINB s).bus = s.bus := by
  rw [tick_eq]
  simp only [Replay.mainSwitch, h0, h2, if_false]
  split_ifs <;> simp [Replay.caseStartRec, Replay.caseStopRec, Replay.flashLED]

/-- The bus after one tick, for every state: a Replay tick with the switch
released and the bit cursor above 7 performs one `EEPROM_read` at the current
address, a Recording tick that completes a byte performs one `EEPROM_write` at
the current address, every other tick leaves the bus alone. -/
theorem tick_bus {σ : Type} (hw : TWI σ) (PINB : Nat) (s : Replay.Machine σ) :
    (Replay.tick hw PINB s).bus =
      (if s.currentState = Replay.STATE_REPLAY ∧ Replay.switchPressed PINB = false ∧
          s.currentMemBit > 7 then
        (Replay.EEPROM_read hw Replay.EEPROM_DEVICE_ADDRESS s.currentMemLocation s.bus).1
      else if s.currentState = Replay.STATE_RECORDING ∧ (s.currentMemBit + 1) % 256 > 7 then
        (Replay.EEPROM_write hw Replay.EEPROM_DEVICE_ADDRESS s.currentMemLocation
          (sampleInto s.currentMemBit s.LEDValue PINB) s.bus).1
      else s.bus) := by
  by_cases h0 : s.currentState = Replay.STATE_REPLAY
  · have hne : ¬ s.currentState = Replay.STATE_RECORDING := by rw [h0]; decide
    by_cases hp : Replay.switchPressed PINB = false
    · by_cases hb : s.currentMemBit > 7
      · rw [(replay_tick_refill hw PINB s h0 hp hb).1, if_pos ⟨h0, hp, hb⟩]
      · rw [(replay_tick_keep hw PINB s h0 hp hb).1, if_neg (fun h => hb h.2.2),
          if_neg (fun h => hne h.1)]
    · have hp' : Replay.switchPressed PINB = true := by simpa using hp
      rw [(press_tick hw PINB s h0 hp').2.2.2, if_neg (fun h => hp h.2.1),
        if_neg (fun h => hne h.1)]
  · by_cases h2 : s.currentState = Replay.STATE_RECORDING
    · rw [if_neg (fun h => h0 h.1), record_tick_bus hw PINB s h2]
      by_cases hb : (s.currentMemBit + 1) % 256 > 7
      · rw [if_pos hb, if_pos ⟨h2, hb⟩]
      · rw [if_neg hb, if_neg (fun h => hb h.2)]
    · rw [idle_tick hw PINB s h0 h2, if_neg (fun h => h0 h.1), if_neg (fun h => h2 h.1)]

/-- Every tick keeps the cursor invariant, whatever the switch input. -/
theorem cursor_tick_inv {σ : Type} (hw : TWI σ) (PINB : Nat) (s : Replay.Machine σ)
    (h : cursorInv s) : cursorInv (Replay.tick hw PINB s) := by
  rcases h with ⟨hst, h1, h2, h3⟩ | ⟨hst, h1, h2, h3⟩ | ⟨hst, h3⟩
  · by_cases hp : Replay.switchPressed PINB = false
    · obtain ⟨e1, e2, e3⟩ := replay_tick_ctrl hw PINB s hst hp
      refine Or.inl ⟨e1, ?_, ?_, ?_⟩
      · rw [e2]; split_ifs <;> omega
      · rw [e2]; split_ifs <;> omega
      · rw [e3]; split_ifs <;> omega
    · have hp' : Replay.switchPressed PINB = true := by simpa using hp
      obtain ⟨e1, e2, e3, _⟩ := press_tick hw PINB s hst hp'
      refine Or.inr (Or.inl ⟨e1, ?_, ?_, ?_⟩)
      · rw [e2]; decide
      · rw [e2]; decide
      · rw [e3]; decide
  · obtain ⟨e1, e2, e3⟩ := record_tick_ctrl hw PINB s hst
    by_cases hlast : (s.currentMemBit + 1) % 256 > 7 ∧ (s.currentMemLocation + 1) % 65536 > 26
    · refine Or.inr (Or.inr ⟨?_, ?_⟩)
      · rw [e1, if_pos hlast]
      · rw [e3]; split_ifs <;> omega
    · refine Or.inr (Or.inl ⟨?_, ?_, ?_, ?_⟩)
      · rw [e1, if_neg hlast]
      · rw [e2]; split_ifs <;> omega
      · rw [e2]; split_ifs <;> omega
      · rw [e3]; split_ifs <;> omega
  · obtain ⟨e1, e2, e3, _, _⟩ := stop_tick hw PINB s hst
    refine Or.inl ⟨e1, ?_, ?_, ?_⟩
    · rw [e2]; decide
    · rw [e2]; decide
    · rw [e3]; decide

theorem cursor_run_inv {σ : Type} (hw : TWI σ) (inputs : List Nat) :
    ∀ s : Replay.Machine σ, cursorInv s → cursorInv (Replay.ticks hw inputs s) := by
  induction inputs with
  | nil => intro s h; exact h
  | cons p rest ih => intro s h; exact ih _ (cursor_tick_inv hw p s h)

theorem cursor_power_on {σ : Type} (s0 : Replay.Machine σ)
    (hst : s0.currentState = Replay.STATE_REPLAY)
    (hloc : s0.currentMemLocation = Replay.EEPROM_FIRST_ADDRESS) (hbit : s0.currentMemBit = 8) :
    cursorInv s0 := by
  refine Or.inl ⟨hst, ?_, ?_, ?_⟩
  · rw [hloc]; decide
  · rw [hloc]; decide
  · rw [hbit]

theorem shift_in_byte (b : Nat) (h : b ≤ 7) : 1 <<< b < 256 := by
  interval_cases b <;> decide

/-- Over the ideal EEPROM one tick from a state that satisfies the cursor
invariant leaves every byte outside the addresses 20..26 as it was. -/
theorem ideal_tick_frame (PINB : Nat) (s : Replay.Machine Device) (h : cursorInv s) (i : Nat)
    (hi : i < 20 ∨ 26 < i) :
    (Replay.tick idealEEPROM PINB s).bus.mem i = s.bus.mem i := by
  have hdev : Replay.EEPROM_DEVICE_ADDRESS % 2 = 0 := by decide
  rw [tick_bus]
  rcases h with ⟨hst, h1, h2, _⟩ | ⟨hst, h1, h2, _⟩ | ⟨hst, _⟩
  · have hne : ¬ s.currentState = Replay.STATE_RECORDING := by rw [hst]; decide
    by_cases hc : s.currentState = Replay.STATE_REPLAY ∧ Replay.switchPressed PINB = false ∧
        s.currentMemBit > 7
    · rw [if_pos hc, EEPROM_read_ideal _ _ _ hdev (by omega)]
    · rw [if_neg hc, if_neg (fun h => hne h.1)]
  · have hne : ¬ s.currentState = Replay.STATE_REPLAY := by rw [hst]; decide
    rw [if_neg (fun h => hne h.1)]
    by_cases hc : s.currentState = Replay.STATE_RECORDING ∧ (s.currentMemBit + 1) % 256 > 7
    · rw [if_pos hc, EEPROM_write_ideal _ _ _ _ hdev (by omega)]
      have hia : ¬ i = s.currentMemLocation := by omega
      simp only [hia, if_false]
    · rw [if_neg hc]
  · have hne : ¬ s.currentState = Replay.STATE_REPLAY := by rw [hst]; decide
    have hne2 : ¬ s.currentState = Replay.STATE_RECORDING := by rw [hst]; decide
    rw [if_neg (fun h => hne h.1), if_neg (fun h => hne2 h.1)]

theorem ideal_run_frame (inputs : List Nat) :
    ∀ s : Replay.Machine Device, cursorInv s → ∀ i, (i < 20 ∨ 26 < i) →
      (Replay.ticks idealEEPROM inputs s).bus.mem i = s.bus.mem i := by
  induction inputs with
  | nil => intro s _ i _; rfl
  | cons p rest ih =>
    intro s h i hi
    show (Replay.ticks idealEEPROM rest (Replay.tick idealEEPROM p s)).bus.mem i = _
    rw [ih _ (cursor_tick_inv idealEEPROM p s h) i hi, ideal_tick_frame p s h i hi]

/-! ## C24: the addresses read and written by the ticks -/

/-- C24. From a power-on state (Replay, address EEPROM_FIRST_ADDRESS, bit cursor
8), for every bus and every sequence of switch inputs: the next tick performs one
`EEPROM_read` at currentMemLocation when the controller is replaying with the
switch released and the bit cursor above 7, one `EEPROM_write` at
currentMemLocation when it is recording and completes a byte, and leaves the bus
alone otherwise; and whenever the controller is replaying or recording,
currentMemLocation lies in [EEPROM_FIRST_ADDRESS, EEPROM_FIRST_ADDRESS +
REPLAY_COUNT] = [20, 26], above the two bytes at EEPROM_ADDRESS_LOCATION and at
most EEPROM_MAX_ADDRESS. -/
theorem tick_addresses_stay_in_sample_range {σ : Type} (hw : TWI σ) (inputs : List Nat)
    (PINB : Nat) (s0 : Replay.Machine σ) (hst : s0.currentState = Replay.STATE_REPLAY)
    (hloc : s0.currentMemLocation = Replay.EEPROM_FIRST_ADDRESS) (hbit : s0.currentMemBit = 8) :
    (Replay.tick hw PINB (Replay.ticks hw inputs s0)).bus =
      (if (Replay.ticks hw inputs s0).currentState = Replay.STATE_REPLAY ∧
          Replay.switchPressed PINB = false ∧ (Replay.ticks hw inputs s0).currentMemBit > 7 then
        (Replay.EEPROM_read hw Replay.EEPROM_DEVICE_ADDRESS
          (Replay.ticks hw inputs s0).currentMemLocation (Replay.ticks hw inputs s0).bus).1
      else if (Replay.ticks hw inputs s0).currentState = Replay.STATE_RECORDING ∧
          ((Replay.ticks hw inputs s0).currentMemBit + 1) % 256 > 7 then
        (Replay.EEPROM_write hw Replay.EEPROM_DEVICE_ADDRESS
          (Replay.ticks hw inputs s0).currentMemLocation
          (sampleInto (Replay.ticks hw inputs s0).currentMemBit
            (Replay.ticks hw inputs s0).LEDValue PINB) (Replay.ticks hw inputs s0).bus).1
      else (Replay.ticks hw inputs s0).bus) ∧
    ((Replay.ticks hw inputs s0).currentState = Replay.STATE_REPLAY ∨
        (Replay.ticks hw inputs s0).currentState = Replay.STATE_RECORDING →
      Replay.EEPROM_FIRST_ADDRESS ≤ (Replay.ticks hw inputs s0).currentMemLocation ∧
      (Replay.ticks hw inputs s0).currentMemLocation
        ≤ Replay.EEPROM_FIRST_ADDRESS + Replay.REPLAY_COUNT ∧
      Replay.EEPROM_ADDRESS_LOCATION + 1 < (Replay.ticks hw inputs s0).currentMemLocation ∧
      (Replay.ticks hw inputs s0).currentMemLocation ≤ Replay.EEPROM_MAX_ADDRESS) := by
  refine ⟨tick_bus hw PINB _, ?_⟩
  have hc : Replay.REPLAY_COUNT = 6 := by decide
  have hf : Replay.EEPROM_FIRST_ADDRESS = 20 := rfl
  have hm : Replay.EEPROM_MAX_ADDRESS = 15999 := rfl
  have ha : Replay.EEPROM_ADDRESS_LOCATION = 1 := rfl
  rw [hc, hf, hm, ha]
  intro hs
  rcases cursor_run_inv hw inputs s0 (cursor_power_on s0 hst hloc hbit) with
    ⟨_, h1, h2, _⟩ | ⟨_, h1, h2, _⟩ | ⟨h3, _⟩
  · omega
  · omega
  · rcases hs with hs | hs <;> rw [h3] at hs <;> exact absurd hs (by decide)

theorem tick_addresses_stay_in_sample_range_witness :
    ((powerOn markedDevice).currentState = Replay.STATE_REPLAY ∧
      (powerOn markedDevice).currentMemLocation = Replay.EEPROM_FIRST_ADDRESS ∧
      (powerOn markedDevice).currentMemBit = 8) ∧
    ((Replay.tick idealEEPROM RELEASED (Replay.ticks idealEEPROM (List.replicate 48 RELEASED) (powerOn markedDevice))).bus =
      (if (Replay.ticks idealEEPROM (List.replicate 48 RELEASED) (powerOn markedDevice)).currentState = Replay.STATE_REPLAY ∧
          Replay.switchPressed RELEASED = false ∧ (Replay.ticks idealEEPROM (List.replicate 48 RELEASED) (powerOn markedDevice)).currentMemBit > 7 then
        (Replay.EEPROM_read idealEEPROM Replay.EEPROM_DEVICE_ADDRESS
          (Replay.ticks idealEEPROM (List.replicate 48 RELEASED) (powerOn markedDevice)).currentMemLocation (Replay.ticks idealEEPROM (List.replicate 48 RELEASED) (powerOn markedDevice)).bus).1
      else if (Replay.ticks idealEEPROM (List.replicate 48 RELEASED) (powerOn markedDevice)).currentState = Replay.STATE_RECORDING ∧
          ((Replay.ticks idealEEPROM (List.replicate 48 RELEASED) (powerOn markedDevice)).currentMemBit + 1) % 256 > 7 then
        (Replay.EEPROM_write idealEEPROM Replay.EEPROM_DEVICE_ADDRESS
          (Replay.ticks idealEEPROM (List.replicate 48 RELEASED) (powerOn markedDevice)).currentMemLocation
          (sampleInto (Replay.ticks idealEEPROM (List.replicate 48 RELEASED) (powerOn markedDevice)).currentMemBit
            (Replay.ticks idealEEPROM (List.replicate 48 RELEASED) (powerOn markedDevice)).LEDValue RELEASED) (Replay.ticks idealEEPROM (List.replicate 48 RELEASED) (powerOn markedDevice)).bus).1
      else (Replay.ticks idealEEPROM (List.replicate 48 RELEASED) (powerOn markedDevice)).bus) ∧
    ((Replay.ticks idealEEPROM (List.replicate 48 RELEASED) (powerOn markedDevice)).currentState = Replay.STATE_REPLAY ∨
        (Replay.ticks idealEEPROM (List.replicate 48 RELEASED) (powerOn markedDevice)).currentState = Replay.STATE_RECORDING →
      Replay.EEPROM_FIRST_ADDRESS ≤ (Replay.ticks idealEEPROM (List.replicate 48 RELEASED) (powerOn markedDevice)).currentMemLocation ∧
      (Replay.ticks idealEEPROM (List.replicate 48 RELEASED) (powerOn markedDevice)).currentMemLocation
        ≤ Replay.EEPROM_FIRST_ADDRESS + Replay.REPLAY_COUNT ∧
      Replay.EEPROM_ADDRESS_LOCATION + 1 < (Replay.ticks idealEEPROM (List.replicate 48 RELEASED) (powerOn markedDevice)).currentMemLocation ∧
      (Replay.ticks idealEEPROM (List.replicate 48 RELEASED) (powerOn markedDevice)).currentMemLocation ≤ Replay.EEPROM_MAX_ADDRESS)) :=
  ⟨⟨rfl, rfl, rfl⟩,
    tick_addresses_stay_in_sample_range idealEEPROM (List.replicate 48 RELEASED) RELEASED
      (powerOn markedDevice) rfl rfl rfl⟩

/-- Over the ideal EEPROM, from a power-on state and under every sequence of
switch inputs, every byte outside the addresses 20..26 keeps its value: the
ticks write nothing below EEPROM_FIRST_ADDRESS or above EEPROM_FIRST_ADDRESS +
REPLAY_COUNT. -/
theorem ticks_keep_bytes_outside_sample_range (inputs : List Nat) (s0 : Replay.Machine Device)
    (i : Nat) (hst : s0.currentState = Replay.STATE_REPLAY)
    (hloc : s0.currentMemLocation = Replay.EEPROM_FIRST_ADDRESS) (hbit : s0.currentMemBit = 8)
    (hi : i < 20 ∨ 26 < i) :
    (Replay.ticks idealEEPROM inputs s0).bus.mem i = s0.bus.mem i :=
  ideal_run_frame inputs s0 (cursor_power_on s0 hst hloc hbit) i hi

/-! ## C25: the bytes written by `clearMemory` -/

/-- C25 fails on the code. After `clearMemory` over the ideal EEPROM the bytes
at the eight addresses 20..27 hold FF 00 FF 00 FF 00 FF 00 and every other byte
is as before: the loop runs REPLAY_COUNT/2 + 1 = 4 times and writes two bytes
per pass, so the byte at address 27 = EEPROM_FIRST_ADDRESS + REPLAY_COUNT + 1,
outside the sample range [20, 26], is overwritten with 0x00. -/
theorem clearMemory_overwrites_address_27 (s : Replay.Machine Device) (i : Nat) :
    (Replay.clearMemory idealEEPROM s).bus.mem i =
      (if 20 ≤ i ∧ i ≤ 27 then (if (i - 20) % 2 = 0 then 0xFF else 0x00) else s.bus.mem i) ∧
    (Replay.clearMemory idealEEPROM s).bus.mem
      (Replay.EEPROM_FIRST_ADDRESS + Replay.REPLAY_COUNT + 1) = 0x00 ∧
    Replay.EEPROM_FIRST_ADDRESS + Replay.REPLAY_COUNT + 1 = 27 := by
  have e : Replay.EEPROM_FIRST_ADDRESS + Replay.REPLAY_COUNT + 1 = 27 := by decide
  rw [clearMemory_ideal, e]
  refine ⟨?_, by simp, rfl⟩
  by_cases h : 20 ≤ i ∧ i ≤ 27
  · obtain ⟨h1, h2⟩ := h
    interval_cases i <;> simp
  · have h20 : ¬ i = 20 := by omega
    have h21 : ¬ i = 21 := by omega
    have h22 : ¬ i = 22 := by omega
    have h23 : ¬ i = 23 := by omega
    have h24 : ¬ i = 24 := by omega
    have h25 : ¬ i = 25 := by omega
    have h26 : ¬ i = 26 := by omega
    have h27 : ¬ i = 27 := by omega
    simp only [h, h20, h21, h22, h23, h24, h25, h26, h27, if_false]

/-- Evaluation of `clearMemory` on an EEPROM holding 0xAB at address 27: the byte
is 0x00 afterwards, while the bytes at the addresses 19 and 28 keep their
value. -/
theorem clearMemory_clears_tagged_byte :
    taggedDevice.mem 27 = 0xAB ∧
    (Replay.clearMemory idealEEPROM (powerOn taggedDevice)).bus.mem 27 = 0x00 ∧
    (Replay.clearMemory idealEEPROM (powerOn taggedDevice)).bus.mem 19 = taggedDevice.mem 19 ∧
    (Replay.clearMemory idealEEPROM (powerOn taggedDevice)).bus.mem 28 = taggedDevice.mem 28 := by
  rw [clearMemory_ideal]
  decide

/-! ## C26: the bit cursor -/

/-- C26. From a power-on state (Replay, address EEPROM_FIRST_ADDRESS, bit cursor
8), for every bus and every sequence of switch inputs, currentMemBit is at most 8
after every tick; where the controller is replaying, the bit cursor at the point
where `replay1Bit` evaluates `1<<currentMemBit` is at most 7, and where it is
recording, the bit cursor at the point where `record1Bit` evaluates
`1<<currentMemBit` is at most 7: the mask stays below 2^8. -/
theorem bit_cursor_stays_in_byte {σ : Type} (hw : TWI σ) (inputs : List Nat)
    (s0 : Replay.Machine σ) (hst : s0.currentState = Replay.STATE_REPLAY)
    (hloc : s0.currentMemLocation = Replay.EEPROM_FIRST_ADDRESS) (hbit : s0.currentMemBit = 8) :
    (Replay.ticks hw inputs s0).currentMemBit ≤ 8 ∧
    ((Replay.ticks hw inputs s0).currentState = Replay.STATE_REPLAY →
      Replay.replayShiftBit (Replay.ticks hw inputs s0) ≤ 7 ∧
      1 <<< Replay.replayShiftBit (Replay.ticks hw inputs s0) < 256) ∧
    ((Replay.ticks hw inputs s0).currentState = Replay.STATE_RECORDING →
      Replay.recordShiftBit (Replay.ticks hw inputs s0) ≤ 7 ∧
      1 <<< Replay.recordShiftBit (Replay.ticks hw inputs s0) < 256) := by
  have hi := cursor_run_inv hw inputs s0 (cursor_power_on s0 hst hloc hbit)
  refine ⟨?_, ?_, ?_⟩
  · rcases hi with ⟨_, _, _, h⟩ | ⟨_, _, _, h⟩ | ⟨_, h⟩ <;> omega
  · intro _
    have h7 : Replay.replayShiftBit (Replay.ticks hw inputs s0) ≤ 7 := by
      unfold Replay.replayShiftBit
      split_ifs <;> omega
    exact ⟨h7, shift_in_byte _ h7⟩
  · intro hs
    have h7 : Replay.recordShiftBit (Replay.ticks hw inputs s0) ≤ 7 := by
      unfold Replay.recordShiftBit
      rcases hi with ⟨h, _⟩ | ⟨_, _, _, h⟩ | ⟨h, _⟩
      · rw [h] at hs; exact absurd hs (by decide)
      · exact h
      · rw [h] at hs; exact absurd hs (by decide)
    exact ⟨h7, shift_in_byte _ h7⟩

theorem bit_cursor_stays_in_byte_witness :
    ((powerOn markedDevice).currentState = Replay.STATE_REPLAY ∧
      (powerOn markedDevice).currentMemLocation = Replay.EEPROM_FIRST_ADDRESS ∧
      (powerOn markedDevice).currentMemBit = 8) ∧
    ((Replay.ticks idealEEPROM pressFirst (powerOn markedDevice)).currentMemBit ≤ 8 ∧
    ((Replay.ticks idealEEPROM pressFirst (powerOn markedDevice)).currentState = Replay.STATE_REPLAY →
      Replay.replayShiftBit (Replay.ticks idealEEPROM pressFirst (powerOn markedDevice)) ≤ 7 ∧
      1 <<< Replay.replayShiftBit (Replay.ticks idealEEPROM pressFirst (powerOn markedDevice)) < 256) ∧
    ((Replay.ticks idealEEPROM pressFirst (powerOn markedDevice)).currentState = Replay.STATE_RECORDING →
      Replay.recordShiftBit (Replay.ticks idealEEPROM pressFirst (powerOn markedDevice)) ≤ 7 ∧
      1 <<< Replay.recordShiftBit (Replay.ticks idealEEPROM pressFirst (powerOn markedDevice)) < 256)) :=
  ⟨⟨rfl, rfl, rfl⟩,
    bit_cursor_stays_in_byte idealEEPROM pressFirst (powerOn markedDevice) rfl rfl rfl⟩

set_option maxRecDepth 1000000 in
/-- Evaluation of the bit cursor over a run from power-on: 8 after the last tick
of a recording pass (the state is then STATE_STOP_REC), 0 after the EndRecording
step, 8 again after eight Replay ticks. -/
theorem bit_cursor_examples :
    (Replay.ticks idealEEPROM pressFirst recordingStart).currentMemBit = 8 ∧
    (Replay.ticks idealEEPROM pressFirst recordingStart).currentState
      = Replay.STATE_STOP_REC ∧
    afterRecording.currentMemBit = 0 ∧
    (Replay.ticks idealEEPROM (List.replicate 8 RELEASED) afterRecording).currentMemBit
      = 8 := by
  decide
